import Mathlib

/-!
# xlnt style serializer

A shallow embedding of `source/detail/style_serializer.cpp`: the enum codecs,
the readers (`read_color` ... `read_stylesheet`) and the writers
(`write_color` ... `write_stylesheet`), over a small model of the pugixml tree.

Conventions.
* A function that can throw returns `Option`; `none` is the thrown exception
  (`std::out_of_range` of `.at`, `std::invalid_argument` / `std::out_of_range`
  of `std::stoull`).
* A pugixml node handle is `Option xml_node`; `none` is the null handle that
  `child` gives for a missing element.  An attribute handle is `Option String`.
* `std::size_t` is 64 bits wide.
-/

set_option autoImplicit false

namespace xlnt

/-! ## The markup tree (pugixml) -/

/-- An element: its name, its attributes in document order, its child elements in
document order. -/
inductive xml_node where
  | mk (name : String) (attributes : List (String × String)) (children : List xml_node)

namespace xml_node

/-- Name of an element. -/
def name : xml_node → String
  | mk n _ _ => n

/-- Attribute list of an element. -/
def attributes : xml_node → List (String × String)
  | mk _ a _ => a

/-- Child list of an element. -/
def child_nodes : xml_node → List xml_node
  | mk _ _ c => c

/-- The call `append_attribute(name).set_value(value)`. -/
def append_attribute (n : xml_node) (key value : String) : xml_node :=
  mk n.name (n.attributes ++ [(key, value)]) n.child_nodes

/-- The call `append_child`, with the child already filled in. -/
def append_child (n : xml_node) (c : xml_node) : xml_node :=
  mk n.name n.attributes (n.child_nodes ++ [c])

end xml_node

/-- A node handle; `none` is the null handle. -/
abbrev node_handle := Option xml_node

/-- The call `node.attribute(name)`: the first attribute of that name, or the null
attribute. -/
def xml_attribute (n : node_handle) (key : String) : Option String :=
  match n with
  | none => none
  | some x => (x.attributes.find? (fun p => p.1 == key)).map Prod.snd

/-- The call `attribute.value()`: the text, or the empty string for the null
attribute. -/
def value (a : Option String) : String :=
  a.getD ""

/-- The call `node.child(name)`: the first child element of that name, or the null
handle. -/
def child (n : node_handle) (key : String) : node_handle :=
  match n with
  | none => none
  | some x => x.child_nodes.find? (fun c => c.name == key)

/-- The call `node.children()`. -/
def children (n : node_handle) : List xml_node :=
  match n with
  | none => []
  | some x => x.child_nodes

/-- The call `node.children(name)`. -/
def children_named (n : node_handle) (key : String) : List xml_node :=
  (children n).filter (fun c => c.name == key)

/-! ## Miscellaneous functions -/

/-- The `std::tolower` of the C locale. -/
def tolower (c : Char) : Char :=
  c.toLower

/-- Source: `string_lower`. -/
def string_lower (str : String) : String :=
  ⟨str.data.map tolower⟩

/-- Source: `is_true`. -/
def is_true (bool_string : String) : Bool :=
  bool_string == "1" || bool_string == "true"

/-- Source: `is_false`. -/
def is_false (bool_string : String) : Bool :=
  bool_string == "0" || bool_string == "false"

/-- The `isspace` of the C locale. -/
def isspace (c : Char) : Bool :=
  c == ' ' || c == '\t' || c == '\n' || c == '\x0b' || c == '\x0c' || c == '\r'

/-- Value of a run of decimal digits. -/
def digits_value (ds : List Char) : Nat :=
  ds.foldl (fun acc c => 10 * acc + (c.toNat - 48)) 0

/-- The optional sign `std::stoull` reads: whether it is a minus, and the text after
it. -/
def stoull_sign (cs : List Char) : Bool × List Char :=
  match cs with
  | '-' :: r => (true, r)
  | '+' :: r => (false, r)
  | _ => (false, cs)

/-- The call `std::stoull(s)`: leading white space is skipped, an optional sign is
read, then the longest run of decimal digits; no digit is `std::invalid_argument`, a
magnitude above `ULLONG_MAX` is `std::out_of_range`, and a minus sign negates the
value in the unsigned type. Text after the digits is ignored. -/
def stoull (s : String) : Option Nat :=
  let cs := s.data.dropWhile isspace
  let signed := stoull_sign cs
  let ds := signed.2.takeWhile Char.isDigit
  if ds.isEmpty then none
  else
    let v := digits_value ds
    if 2 ^ 64 ≤ v then none
    else some (if signed.1 then (2 ^ 64 - v) % 2 ^ 64 else v)

/-- Source: `string_to_size_t`. -/
def string_to_size_t (s : String) : Option Nat :=
  stoull s

/-- The call `std::to_string` on an unsigned integer. -/
def to_string (n : Nat) : String :=
  Nat.repr n

/-- The call `map.at(key)` on a table given as its initializer list. -/
def map_at {κ ν : Type} [BEq κ] (table : List (κ × ν)) (key : κ) : Option ν :=
  (table.find? (fun p => p.1 == key)).map Prod.snd

/-- The loop `for (auto pair : table) map->emplace(pair.second, pair.first)`: the
reversed table, where an enum value already present keeps its first keyword. -/
def emplace_all {κ ν : Type} [BEq ν] (table : List (κ × ν)) : List (ν × κ) :=
  table.foldl
    (fun acc p => if acc.any (fun q => q.1 == p.2) then acc else acc ++ [(p.2, p.1)]) []

/-! ## Enum serialization -/

/-- The enum `font::underline_style`, with the values the source table names. -/
inductive underline_style where
  | double_ | double_accounting | none | single | single_accounting
  deriving DecidableEq, Repr

/-- The enum `pattern_fill::type`, with the values the source table names. -/
inductive pattern_fill_type where
  | darkdown | darkgray | darkgrid | darkhorizontal | darktrellis | darkup | darkvertical
  | gray0625 | gray125 | lightdown | lightgray | lightgrid | lighthorizontal
  | lighttrellis | lightup | lightvertical | mediumgray | none | solid
  deriving DecidableEq, Repr

/-- The enum `gradient_fill::type`, with the values the source table names. -/
inductive gradient_fill_type where
  | linear | path
  deriving DecidableEq, Repr

/-- The enum `border_style`, with the values the source table names. -/
inductive border_style where
  | dashdot | dashdotdot | dashed | dotted | double_ | hair | medium | mediumdashdot
  | mediumdashdotdot | mediumdashed | none | slantdashdot | thick | thin
  deriving DecidableEq, Repr

/-- The enum `vertical_alignment`, with the values the source table names. -/
inductive vertical_alignment where
  | bottom | center | justify | none | top
  deriving DecidableEq, Repr

/-- The enum `horizontal_alignment`, with the values the source table names. -/
inductive horizontal_alignment where
  | center | center_continuous | general | justify | left | none | right
  deriving DecidableEq, Repr

/-- Source: `get_string_underline_style_map`. -/
def get_string_underline_style_map : List (String × underline_style) :=
  [ ("double", .double_),
    ("doubleAccounting", .double_accounting),
    ("none", .none),
    ("single", .single),
    ("singleAccounting", .single_accounting) ]

/-- Source: `get_underline_style_string_map`. -/
def get_underline_style_string_map : List (underline_style × String) :=
  emplace_all get_string_underline_style_map

/-- Source: `underline_style_from_string`. -/
def underline_style_from_string (underline_string : String) : Option underline_style :=
  map_at get_string_underline_style_map underline_string

/-- Source: `underline_style_to_string`. -/
def underline_style_to_string (u : underline_style) : Option String :=
  map_at get_underline_style_string_map u

/-- Source: `get_string_pattern_fill_type_map`. -/
def get_string_pattern_fill_type_map : List (String × pattern_fill_type) :=
  [ ("darkdown", .darkdown),
    ("darkgray", .darkgray),
    ("darkgrid", .darkgrid),
    ("darkhorizontal", .darkhorizontal),
    ("darktrellis", .darktrellis),
    ("darkup", .darkup),
    ("darkvertical", .darkvertical),
    ("gray0625", .gray0625),
    ("gray125", .gray125),
    ("lightdown", .lightdown),
    ("lightgray", .lightgray),
    ("lightgrid", .lightgrid),
    ("lighthorizontal", .lighthorizontal),
    ("lighttrellis", .lighttrellis),
    ("lightup", .lightup),
    ("lightvertical", .lightvertical),
    ("mediumgray", .mediumgray),
    ("none", .none),
    ("solid", .solid) ]

/-- Source: `get_pattern_fill_type_string_map`. -/
def get_pattern_fill_type_string_map : List (pattern_fill_type × String) :=
  emplace_all get_string_pattern_fill_type_map

/-- Source: `pattern_fill_type_from_string`. -/
def pattern_fill_type_from_string (fill_type : String) : Option pattern_fill_type :=
  map_at get_string_pattern_fill_type_map (string_lower fill_type)

/-- Source: `pattern_fill_type_to_string`. -/
def pattern_fill_type_to_string (t : pattern_fill_type) : Option String :=
  map_at get_pattern_fill_type_string_map t

/-- Source: `get_string_gradient_fill_type_map`. -/
def get_string_gradient_fill_type_map : List (String × gradient_fill_type) :=
  [ ("linear", .linear),
    ("path", .path) ]

/-- Source: `get_gradient_fill_type_string_map`. -/
def get_gradient_fill_type_string_map : List (gradient_fill_type × String) :=
  emplace_all get_string_gradient_fill_type_map

/-- Source: `gradient_fill_type_from_string`. -/
def gradient_fill_type_from_string (fill_type : String) : Option gradient_fill_type :=
  map_at get_string_gradient_fill_type_map (string_lower fill_type)

/-- Source: `gradient_fill_type_to_string`. -/
def gradient_fill_type_to_string (t : gradient_fill_type) : Option String :=
  map_at get_gradient_fill_type_string_map t

/-- Source: `get_string_border_style_map`. -/
def get_string_border_style_map : List (String × border_style) :=
  [ ("dashdot", .dashdot),
    ("dashdotdot", .dashdotdot),
    ("dashed", .dashed),
    ("dotted", .dotted),
    ("double", .double_),
    ("hair", .hair),
    ("medium", .medium),
    ("mediumdashdot", .mediumdashdot),
    ("mediumdashdotdot", .mediumdashdotdot),
    ("mediumdashed", .mediumdashed),
    ("none", .none),
    ("slantdashdot", .slantdashdot),
    ("thick", .thick),
    ("thin", .thin) ]

/-- Source: `get_border_style_string_map`. -/
def get_border_style_string_map : List (border_style × String) :=
  emplace_all get_string_border_style_map

/-- Source: `border_style_from_string`. -/
def border_style_from_string (border_style_string : String) : Option border_style :=
  map_at get_string_border_style_map (string_lower border_style_string)

/-- Source: `border_style_to_string`. -/
def border_style_to_string (b : border_style) : Option String :=
  map_at get_border_style_string_map b

/-- Source: `get_string_vertical_alignment_map`. -/
def get_string_vertical_alignment_map : List (String × vertical_alignment) :=
  [ ("bottom", .bottom),
    ("center", .center),
    ("justify", .justify),
    ("none", .none),
    ("top", .top) ]

/-- Source: `get_vertical_alignment_string_map`. -/
def get_vertical_alignment_string_map : List (vertical_alignment × String) :=
  emplace_all get_string_vertical_alignment_map

/-- Source: `vertical_alignment_from_string`. -/
def vertical_alignment_from_string (s : String) : Option vertical_alignment :=
  map_at get_string_vertical_alignment_map (string_lower s)

/-- Source: `vertical_alignment_to_string`. -/
def vertical_alignment_to_string (v : vertical_alignment) : Option String :=
  map_at get_vertical_alignment_string_map v

/-- Source: `get_string_horizontal_alignment_map`. -/
def get_string_horizontal_alignment_map : List (String × horizontal_alignment) :=
  [ ("center", .center),
    ("center-continous", .center_continuous),
    ("general", .general),
    ("justify", .justify),
    ("left", .left),
    ("none", .none),
    ("right", .right) ]

/-- Source: `get_horizontal_alignment_string_map`. -/
def get_horizontal_alignment_string_map : List (horizontal_alignment × String) :=
  emplace_all get_string_horizontal_alignment_map

/-- Source: `horizontal_alignment_from_string`. -/
def horizontal_alignment_from_string (s : String) : Option horizontal_alignment :=
  map_at get_string_horizontal_alignment_map (string_lower s)

/-- Source: `horizontal_alignment_to_string`. -/
def horizontal_alignment_to_string (h : horizontal_alignment) : Option String :=
  map_at get_horizontal_alignment_string_map h

/-! ## Value types

The headers that declare the value types (`color.hpp`, `font.hpp`, `fill.hpp`,
`border.hpp`, `alignment.hpp`, `protection.hpp`, `number_format.hpp`, `style.hpp`,
`format.hpp`, `stylesheet.hpp`) are not among the sources; the types follow the data
model of the specification and the accessors the serializer calls. The type `D`
stands for `double`. -/

/-- Modelled from the spec: the kind of a `color` (`color.hpp`): automatic, rgb with
its hex string, indexed or theme with its index; exactly one kind is active. -/
inductive color_kind where
  | automatic
  | rgb (hex_string : String)
  | indexed (index : Nat)
  | theme (index : Nat)
  deriving DecidableEq, Repr

/-- Modelled from the spec: a `color` (`color.hpp`) is a kind and an optional tint. -/
structure color (D : Type) where
  kind : color_kind
  tint : Option D
  deriving DecidableEq, Repr

/-- The default-constructed color of `xlnt::color result;`, the automatic color. -/
def color.default {D : Type} : color D :=
  ⟨.automatic, none⟩

/-- The conversion `color(rgb_color(hex_string))`. -/
def rgb_color {D : Type} (hex_string : String) : color D :=
  ⟨.rgb hex_string, none⟩

/-- The conversion `color(theme_color(index))`. -/
def theme_color {D : Type} (index : Nat) : color D :=
  ⟨.theme index, none⟩

/-- The conversion `color(indexed_color(index))`. -/
def indexed_color {D : Type} (index : Nat) : color D :=
  ⟨.indexed index, none⟩

/-- The call `color.set_tint`. -/
def color.set_tint {D : Type} (c : color D) (t : D) : color D :=
  { c with tint := some t }

/-- Modelled from the spec: a `font` (`font.hpp`). -/
structure font (D : Type) where
  name : String
  size : Nat
  bold : Bool
  italic : Bool
  strikethrough : Bool
  underline : underline_style
  color : color D
  family : Option Nat
  scheme : Option String
  deriving DecidableEq, Repr

/-- Modelled from the spec: the default-constructed font of `xlnt::font new_font;`: no
flag, no underline, no family, no scheme, the default color. Its name and size are
overwritten wherever the serializer builds a font. -/
def font.default {D : Type} : font D :=
  { name := "Calibri", size := 12, bold := false, italic := false, strikethrough := false,
    underline := .none, color := color.default, family := none, scheme := none }

/-- The call `font.is_underline()`. -/
def font.is_underline {D : Type} (f : font D) : Bool :=
  f.underline != .none

/-- Modelled from the spec: a `pattern_fill` (`fill.hpp`): a type and two optional
colors. -/
structure pattern_fill (D : Type) where
  type : pattern_fill_type
  foreground_color : Option (color D)
  background_color : Option (color D)
  deriving DecidableEq, Repr

/-- Modelled from the spec: a `gradient_fill` (`fill.hpp`): a type, the degree, the
four margins and the ordered stops. -/
structure gradient_fill (D : Type) where
  type : gradient_fill_type
  degree : D
  gradient_left : D
  gradient_right : D
  gradient_top : D
  gradient_bottom : D
  stops : List (D × color D)
  deriving DecidableEq, Repr

/-- Modelled from the spec: a `fill` (`fill.hpp`) is a pattern fill or a gradient
fill. -/
inductive fill (D : Type) where
  | pattern (p : pattern_fill D)
  | gradient (g : gradient_fill D)
  deriving DecidableEq, Repr

/-- The call `fill::pattern(type)`. -/
def fill.of_pattern {D : Type} (t : pattern_fill_type) : fill D :=
  .pattern ⟨t, none, none⟩

/-- Modelled from the spec: the default-constructed fill of `xlnt::fill new_fill;`, the
pattern fill of type none. -/
def fill.default {D : Type} : fill D :=
  fill.of_pattern .none

/-- Modelled from the spec: a `border::border_property` (`border.hpp`): an optional
style and an optional color. -/
structure border_property (D : Type) where
  style : Option border_style
  color : Option (color D)
  deriving DecidableEq, Repr

/-- Modelled from the spec: the enum `border::side` (`border.hpp`). -/
inductive border_side where
  | left | right | top | bottom | diagonal | vertical | horizontal
  deriving DecidableEq, Repr

/-- Modelled from the spec: the table `border::get_side_names()` (`border.hpp`), every
side with its element name. -/
def get_side_names : List (border_side × String) :=
  [ (.left, "left"), (.right, "right"), (.top, "top"), (.bottom, "bottom"),
    (.diagonal, "diagonal"), (.vertical, "vertical"), (.horizontal, "horizontal") ]

/-- Modelled from the spec: a `border` (`border.hpp`): every side is optional. -/
structure border (D : Type) where
  left : Option (border_property D)
  right : Option (border_property D)
  top : Option (border_property D)
  bottom : Option (border_property D)
  diagonal : Option (border_property D)
  vertical : Option (border_property D)
  horizontal : Option (border_property D)
  deriving DecidableEq, Repr

/-- The default-constructed border of `xlnt::border new_border;`, without sides. -/
def border.default {D : Type} : border D :=
  ⟨none, none, none, none, none, none, none⟩

/-- The side of a border, `none` when `has_side` is false. -/
def border.side {D : Type} (b : border D) : border_side → Option (border_property D)
  | .left => b.left
  | .right => b.right
  | .top => b.top
  | .bottom => b.bottom
  | .diagonal => b.diagonal
  | .vertical => b.vertical
  | .horizontal => b.horizontal

/-- The call `border.set_side`. -/
def border.set_side {D : Type} (b : border D) (s : border_side) (p : border_property D) :
    border D :=
  match s with
  | .left => { b with left := some p }
  | .right => { b with right := some p }
  | .top => { b with top := some p }
  | .bottom => { b with bottom := some p }
  | .diagonal => { b with diagonal := some p }
  | .vertical => { b with vertical := some p }
  | .horizontal => { b with horizontal := some p }

/-- Modelled from the spec: an `alignment` (`alignment.hpp`). -/
structure alignment where
  vertical : Option vertical_alignment
  horizontal : Option horizontal_alignment
  wrap_text : Bool
  shrink_to_fit : Bool
  deriving DecidableEq, Repr

/-- The default-constructed alignment of `xlnt::alignment align;`. -/
def alignment.default : alignment :=
  ⟨none, none, false, false⟩

/-- Modelled from the spec: a `protection` (`protection.hpp`); both flags default to
false. -/
structure protection where
  locked : Bool
  hidden : Bool
  deriving DecidableEq, Repr

/-- The default-constructed protection of `xlnt::protection prot;`. -/
def protection.default : protection :=
  ⟨false, false⟩

/-- Modelled from the spec: a `number_format` (`number_format.hpp`): a numeric id and a
format string. -/
structure number_format where
  id : Nat
  format_string : String
  deriving DecidableEq, Repr

/-- Modelled from the spec: the format of `number_format::general()`, id 0 with the
code "General". -/
def number_format.general : number_format :=
  ⟨0, "General"⟩

/-- Modelled from the spec: a `base_format` (`base_format.hpp`): the six facets and one
applied flag for each. -/
structure base_format (D : Type) where
  alignment : alignment
  border : border D
  fill : fill D
  font : font D
  number_format : number_format
  protection : protection
  alignment_applied : Bool
  border_applied : Bool
  fill_applied : Bool
  font_applied : Bool
  number_format_applied : Bool
  protection_applied : Bool
  deriving DecidableEq, Repr

/-- The default-constructed base format: default facets, nothing applied. -/
def base_format.default {D : Type} : base_format D :=
  { alignment := alignment.default, border := border.default, fill := fill.default,
    font := font.default, number_format := number_format.general,
    protection := protection.default, alignment_applied := false, border_applied := false,
    fill_applied := false, font_applied := false, number_format_applied := false,
    protection_applied := false }

/-- Modelled from the spec: a `style` (`style.hpp`) is a base format with a name, a
builtin id and a hidden flag. -/
structure style (D : Type) extends base_format D where
  name : String
  hidden : Bool
  builtin_id : Nat
  deriving DecidableEq, Repr

/-- The default-constructed style of `xlnt::style s;`. -/
def style.default {D : Type} : style D :=
  { tobase_format := base_format.default, name := "", hidden := false, builtin_id := 0 }

/-- Modelled from the spec: a `format` (`format.hpp`) is a base format; the name of its
owning style is kept by the stylesheet in `format_styles`. -/
structure format (D : Type) extends base_format D where
  deriving DecidableEq, Repr

/-- The default-constructed format of `xlnt::format format;`. -/
def format.default {D : Type} : format D :=
  { tobase_format := base_format.default }

/-- Modelled from the spec: the `detail::stylesheet` (`stylesheet.hpp`), with the
members the serializer uses. The member `style_name_map` is an
`unordered_map<size_t, string>`, kept as its entries in insertion order. -/
structure stylesheet (D : Type) where
  borders : List (border D)
  fills : List (fill D)
  fonts : List (font D)
  number_formats : List number_format
  colors : List (color D)
  styles : List (style D)
  formats : List (format D)
  format_styles : List String
  style_name_map : List (Nat × String)
  deriving DecidableEq, Repr

/-- The empty stylesheet. -/
def stylesheet.empty {D : Type} : stylesheet D :=
  ⟨[], [], [], [], [], [], [], [], []⟩

/-- The assignment `map[key] = value` on an `unordered_map`. -/
def map_assign {κ ν : Type} [BEq κ] (m : List (κ × ν)) (key : κ) (v : ν) : List (κ × ν) :=
  if m.any (fun p => p.1 == key) then m.map (fun p => if p.1 == key then (p.1, v) else p)
  else m ++ [(key, v)]

/-- What the serializer takes from outside the sources: the `double` conversions of
pugixml (`as_double`, `set_value(double)`), the `double` zero,
`number_format::from_builtin_id`, whose `none` is the `std::runtime_error` it throws
for an id outside the builtin catalog, and the hex string that
`get_rgb().get_hex_string()` yields for a color whose kind is not rgb. -/
structure library (D : Type) where
  as_double : String → D
  double_value : D → String
  zero : D
  from_builtin_id : Nat → Option number_format
  other_hex_string : color D → String

/-- Modelled from the spec: the call `color.get_rgb().get_hex_string()`: the hex string
of an rgb color; the sources do not fix what it yields for a color of another kind,
which is left to the library. -/
def color.get_rgb_hex_string {D : Type} (lib : library D) (c : color D) : String :=
  match c.kind with
  | .rgb h => h
  | _ => lib.other_hex_string c

/-- The call `fill::gradient(type)`: a gradient without stops, degree and margins
zero. -/
def fill.of_gradient {D : Type} (lib : library D) (t : gradient_fill_type) : fill D :=
  .gradient ⟨t, lib.zero, lib.zero, lib.zero, lib.zero, lib.zero, []⟩

/-! ## Reading -/

/-- The loop `for (auto node : nodes) out.push_back(read(node))`: the values read, in
order; the first read that throws ends the loop with its exception. -/
def read_each {α β : Type} (read : α → Option β) : List α → Option (List β)
  | [] => some []
  | node :: rest => do
    let v ← read node
    let vs ← read_each read rest
    pure (v :: vs)

/-- Source: `read_protection`. -/
def read_protection (protection_node : node_handle) : protection :=
  { locked := is_true (value (xml_attribute protection_node "locked")),
    hidden := is_true (value (xml_attribute protection_node "hidden")) }

/-- Source: `read_alignment`. -/
def read_alignment (alignment_node : node_handle) : Option alignment := do
  let align : alignment :=
    { alignment.default with
      wrap_text := is_true (value (xml_attribute alignment_node "wrapText")),
      shrink_to_fit := is_true (value (xml_attribute alignment_node "shrinkToFit")) }
  let align ←
    if (xml_attribute alignment_node "vertical").isSome then do
      let v ← vertical_alignment_from_string (value (xml_attribute alignment_node "vertical"))
      pure { align with vertical := some v }
    else pure align
  let align ←
    if (xml_attribute alignment_node "horizontal").isSome then do
      let h ← horizontal_alignment_from_string
        (value (xml_attribute alignment_node "horizontal"))
      pure { align with horizontal := some h }
    else pure align
  pure align

/-- Source: `read_number_formats`; the result is the new content of the vector, which
the function clears first. -/
def read_number_formats (number_formats_node : node_handle) : Option (List number_format) :=
  read_each (fun num_fmt_node => do
    let format_string := value (xml_attribute (some num_fmt_node) "formatCode")
    let format_string := if format_string == "GENERAL" then "General" else format_string
    let id ← string_to_size_t (value (xml_attribute (some num_fmt_node) "numFmtId"))
    pure { id := id, format_string := format_string })
    (children_named number_formats_node "numFmt")

/-- Source: `read_color`. -/
def read_color {D : Type} (lib : library D) (color_node : node_handle) : Option (color D) :=
  if (xml_attribute color_node "auto").isSome then some color.default
  else do
    let result : color D ←
      if (xml_attribute color_node "rgb").isSome then
        pure (rgb_color (value (xml_attribute color_node "rgb")))
      else if (xml_attribute color_node "theme").isSome then do
        let index ← string_to_size_t (value (xml_attribute color_node "theme"))
        pure (theme_color index)
      else if (xml_attribute color_node "indexed").isSome then do
        let index ← string_to_size_t (value (xml_attribute color_node "indexed"))
        pure (indexed_color index)
      else pure color.default
    if (xml_attribute color_node "tint").isSome then
      pure (result.set_tint (lib.as_double (value (xml_attribute color_node "tint"))))
    else pure result

/-- The flag read from a `b`, `strike` or `i` child of a font element, `none` when the
child is absent and the flag keeps its value. -/
def read_font_flag (font_node : node_handle) (key : String) : Option Bool :=
  if (child font_node key).isSome then
    if (xml_attribute (child font_node key) "val").isSome then
      some (is_true (value (xml_attribute (child font_node key) "val")))
    else some true
  else none

/-- Source: `read_font`. -/
def read_font {D : Type} (lib : library D) (font_node : node_handle) : Option (font D) := do
  let new_font : font D := font.default
  let size ← string_to_size_t (value (xml_attribute (child font_node "sz") "val"))
  let new_font := { new_font with size := size }
  let new_font := { new_font with name := value (xml_attribute (child font_node "name") "val") }
  let new_font ←
    if (child font_node "color").isSome then do
      let c ← read_color lib (child font_node "color")
      pure { new_font with color := c }
    else pure new_font
  let new_font ←
    if (child font_node "family").isSome then do
      let fam ← string_to_size_t (value (xml_attribute (child font_node "family") "val"))
      pure { new_font with family := some fam }
    else pure new_font
  let new_font :=
    if (child font_node "scheme").isSome then
      { new_font with scheme := some (value (xml_attribute (child font_node "scheme") "val")) }
    else new_font
  let new_font :=
    match read_font_flag font_node "b" with
    | some b => { new_font with bold := b }
    | none => new_font
  let new_font :=
    match read_font_flag font_node "strike" with
    | some b => { new_font with strikethrough := b }
    | none => new_font
  let new_font :=
    match read_font_flag font_node "i" with
    | some b => { new_font with italic := b }
    | none => new_font
  if (child font_node "u").isSome then
    if (xml_attribute (child font_node "u") "val").isSome then do
      let u ← underline_style_from_string (value (xml_attribute (child font_node "u") "val"))
      pure { new_font with underline := u }
    else pure { new_font with underline := .single }
  else pure new_font

/-- Source: `read_fonts`; the result is the new content of the vector, which the
function clears first. -/
def read_fonts {D : Type} (lib : library D) (fonts_node : node_handle) :
    Option (List (font D)) :=
  read_each (fun font_node => read_font lib (some font_node)) (children fonts_node)

/-- Source: `read_indexed_colors`; the colors are appended to `colors`. -/
def read_indexed_colors {D : Type} (lib : library D) (indexed_colors_node : node_handle)
    (colors : List (color D)) : Option (List (color D)) := do
  let read ← read_each (fun color_node => read_color lib (some color_node))
    (children indexed_colors_node)
  pure (colors ++ read)

/-- Source: `read_colors`; the result is the new content of the vector, which the
function clears first. -/
def read_colors {D : Type} (lib : library D) (colors_node : node_handle) :
    Option (List (color D)) :=
  if (child colors_node "indexedColors").isSome then
    read_indexed_colors lib (child colors_node "indexedColors") []
  else some []

/-- The loop of `read_fill` over the `stop` children of a gradient fill. -/
def read_stops {D : Type} (lib : library D) (gradient_fill_node : node_handle) :
    Option (List (D × color D)) :=
  read_each (fun stop_node => do
    let position := lib.as_double (value (xml_attribute (some stop_node) "position"))
    let c ← read_color lib (child (some stop_node) "color")
    pure (position, c))
    (children_named gradient_fill_node "stop")

/-- The call `gradient_fill.add_stop` for every stop read. -/
def fill.add_stops {D : Type} (f : fill D) (stops : List (D × color D)) : fill D :=
  match f with
  | .gradient g => .gradient { g with stops := g.stops ++ stops }
  | .pattern p => .pattern p

/-- Source: `read_fill`. -/
def read_fill {D : Type} (lib : library D) (fill_node : node_handle) : Option (fill D) :=
  if (child fill_node "patternFill").isSome then
    let pattern_fill_node := child fill_node "patternFill"
    let pattern_fill_type_string := value (xml_attribute pattern_fill_node "patternType")
    if !pattern_fill_type_string.isEmpty then do
      let t ← pattern_fill_type_from_string pattern_fill_type_string
      let bg ←
        if (child pattern_fill_node "bgColor").isSome then
          (read_color lib (child pattern_fill_node "bgColor")).map some
        else pure none
      let fg ←
        if (child pattern_fill_node "fgColor").isSome then
          (read_color lib (child pattern_fill_node "fgColor")).map some
        else pure none
      pure (.pattern { type := t, foreground_color := fg, background_color := bg })
    else pure (fill.of_pattern .none)
  else if (child fill_node "gradientFill").isSome then do
    let gradient_fill_node := child fill_node "gradientFill"
    let gradient_fill_type_string := value (xml_attribute gradient_fill_node "type")
    let new_fill ←
      if !gradient_fill_type_string.isEmpty then do
        let t ← gradient_fill_type_from_string gradient_fill_type_string
        pure (fill.of_gradient lib t)
      else pure (fill.of_gradient lib .linear)
    let stops ← read_stops lib gradient_fill_node
    pure (new_fill.add_stops stops)
  else pure fill.default

/-- Source: `read_fills`; the result is the new content of the vector, which the
function clears first. -/
def read_fills {D : Type} (lib : library D) (fills_node : node_handle) :
    Option (List (fill D)) :=
  read_each (fun fill_node => read_fill lib (some fill_node)) (children fills_node)

/-- Source: `read_side`. -/
def read_side {D : Type} (lib : library D) (side_node : node_handle) :
    Option (border_property D) := do
  let new_side : border_property D := ⟨none, none⟩
  let new_side ←
    if (xml_attribute side_node "style").isSome then do
      let s ← border_style_from_string (value (xml_attribute side_node "style"))
      pure { new_side with style := some s }
    else pure new_side
  if (child side_node "color").isSome then do
    let c ← read_color lib (child side_node "color")
    pure { new_side with color := some c }
  else pure new_side

/-- Source: `read_border`. -/
def read_border {D : Type} (lib : library D) (border_node : node_handle) :
    Option (border D) :=
  get_side_names.foldlM (fun new_border side_name =>
    if (child border_node side_name.2).isSome then do
      let side ← read_side lib (child border_node side_name.2)
      pure (new_border.set_side side_name.1 side)
    else pure new_border) border.default

/-- Source: `read_borders`; the result is the new content of the vector, which the
function clears first. -/
def read_borders {D : Type} (lib : library D) (borders_node : node_handle) :
    Option (List (border D)) :=
  read_each (fun border_node => read_border lib (some border_node)) (children borders_node)

/-- The index read for `borderId`, `fillId` or `fontId`: 0 when the attribute is
absent. -/
def read_index (format_node : node_handle) (key : String) : Option Nat :=
  if (xml_attribute format_node key).isSome then
    string_to_size_t (value (xml_attribute format_node key))
  else some 0

/-- The number format of `read_base_format`: the first registry entry of that id,
else the builtin one, else General. -/
def resolve_number_format {D : Type} (lib : library D) (number_formats : List number_format)
    (number_format_id : Nat) : number_format :=
  match number_formats.find? (fun num_fmt => num_fmt.id == number_format_id) with
  | some num_fmt => num_fmt
  | none =>
    match lib.from_builtin_id number_format_id with
    | some nf => nf
    | none => number_format.general

/-- Source: `read_base_format`. -/
def read_base_format {D : Type} (lib : library D) (format_node : node_handle)
    (ss : stylesheet D) (f : base_format D) : Option (base_format D) := do
  -- Alignment
  let applied := (child format_node "alignment").isSome
    || is_true (value (xml_attribute format_node "applyAlignment"))
  let f := { f with alignment_applied := applied }
  let f ←
    if f.alignment_applied then do
      let inline_alignment ← read_alignment (child format_node "alignment")
      pure { f with alignment := inline_alignment }
    else pure f
  -- Border
  let border_index ← read_index format_node "borderId"
  let b ← ss.borders[border_index]?
  let f := { f with border := b,
                    border_applied := is_true (value (xml_attribute format_node "applyBorder")) }
  -- Fill
  let fill_index ← read_index format_node "fillId"
  let fl ← ss.fills[fill_index]?
  let f := { f with fill := fl,
                    fill_applied := is_true (value (xml_attribute format_node "applyFill")) }
  -- Font
  let font_index ← read_index format_node "fontId"
  let fo ← ss.fonts[font_index]?
  let f := { f with font := fo,
                    font_applied := is_true (value (xml_attribute format_node "applyFont")) }
  -- Number Format
  let number_format_id ← string_to_size_t (value (xml_attribute format_node "numFmtId"))
  let nf := resolve_number_format lib ss.number_formats number_format_id
  let f := { f with number_format := nf,
                    number_format_applied :=
                      is_true (value (xml_attribute format_node "applyNumberFormat")) }
  -- Protection
  let applied := (xml_attribute format_node "protection").isSome
    || is_true (value (xml_attribute format_node "applyProtection"))
  let f := { f with protection_applied := applied }
  if f.protection_applied then
    pure { f with protection := read_protection (child format_node "protection") }
  else pure f

/-- Source: `read_formats`; the result is the new content of `formats` and of
`format_styles`. -/
def read_formats {D : Type} (lib : library D) (formats_node : node_handle)
    (ss : stylesheet D) (formats : List (format D)) (format_styles : List String) :
    Option (List (format D) × List String) :=
  (children_named formats_node "xf").foldlM (fun acc format_node => do
    let bf ← read_base_format lib (some format_node) ss format.default.tobase_format
    let fmt : format D := { tobase_format := bf }
    let style_index ← string_to_size_t (value (xml_attribute (some format_node) "xfId"))
    let style_name ← map_at ss.style_name_map style_index
    pure (acc.1 ++ [fmt], acc.2 ++ [style_name])) (formats, format_styles)

/-- Source: `read_style`. -/
def read_style {D : Type} (lib : library D) (style_node : node_handle)
    (style_format_node : node_handle) (ss : stylesheet D) : Option (style D) := do
  let s : style D := style.default
  let bf ← read_base_format lib style_format_node ss s.tobase_format
  let s := { s with tobase_format := bf }
  let s := { s with name := value (xml_attribute style_node "name") }
  let hidden := (xml_attribute style_node "hidden").isSome
    && is_true (value (xml_attribute style_node "hidden"))
  let s := { s with hidden := hidden }
  let builtin_id ← string_to_size_t (value (xml_attribute style_node "builtinId"))
  pure { s with builtin_id := builtin_id }

/-- The inner loop of `read_styles` over the `cellStyle` entries: the first entry
whose `xfId` is `style_index`, read as a style; `some none` when no entry matches. -/
def read_styles_match {D : Type} (lib : library D) (cell_style_format_node : xml_node)
    (ss : stylesheet D) (style_index : Nat) : List xml_node → Option (Option (style D))
  | [] => some none
  | cell_style_node :: rest => do
    let cell_style_format_index ← stoull (value (xml_attribute (some cell_style_node) "xfId"))
    if cell_style_format_index == style_index then
      (read_style lib (some cell_style_node) (some cell_style_format_node) ss).map some
    else read_styles_match lib cell_style_format_node ss style_index rest

/-- The outer loop of `read_styles` over the entries of `cellStyleXfs`. -/
def read_styles_loop {D : Type} (lib : library D) (styles_node : node_handle)
    (ss : stylesheet D) :
    List xml_node → Nat → List (style D) → List (Nat × String) →
      Option (List (style D) × List (Nat × String))
  | [], _, styles, style_names => some (styles, style_names)
  | cell_style_format_node :: rest, style_index, styles, style_names => do
    let found ← read_styles_match lib cell_style_format_node ss style_index
      (children styles_node)
    match found with
    | some s =>
      read_styles_loop lib styles_node ss rest (style_index + 1) (styles ++ [s])
        (map_assign style_names style_index s.name)
    | none => read_styles_loop lib styles_node ss rest (style_index + 1) styles style_names

/-- Source: `read_styles`; `ss` is the copy of the stylesheet the function receives by
value, and the result is the new content of `styles` and of `style_names`. -/
def read_styles {D : Type} (lib : library D) (styles_node : node_handle)
    (style_formats_node : node_handle) (ss : stylesheet D) (styles : List (style D))
    (style_names : List (Nat × String)) : Option (List (style D) × List (Nat × String)) :=
  read_styles_loop lib styles_node ss (children style_formats_node) 0 styles style_names

/-- Source: `style_serializer::read_stylesheet`; `ss` is the stylesheet the serializer
holds, `xml` the document, and the result the stylesheet after the call. -/
def read_stylesheet {D : Type} (lib : library D) (ss : stylesheet D) (xml : xml_node) :
    Option (stylesheet D) := do
  let stylesheet_node := child (some xml) "styleSheet"
  let borders ← read_borders lib (child stylesheet_node "borders")
  let ss := { ss with borders := borders }
  let fills ← read_fills lib (child stylesheet_node "fills")
  let ss := { ss with fills := fills }
  let fonts ← read_fonts lib (child stylesheet_node "fonts")
  let ss := { ss with fonts := fonts }
  let number_formats ← read_number_formats (child stylesheet_node "numFmts")
  let ss := { ss with number_formats := number_formats }
  let colors ← read_colors lib (child stylesheet_node "colors")
  let ss := { ss with colors := colors }
  let styles ← read_styles lib (child stylesheet_node "cellStyles")
    (child stylesheet_node "cellStyleXfs") ss ss.styles ss.style_name_map
  let ss := { ss with styles := styles.1, style_name_map := styles.2 }
  let formats ← read_formats lib (child stylesheet_node "cellXfs") ss ss.formats
    ss.format_styles
  pure { ss with formats := formats.1, format_styles := formats.2 }

/-! ## Writing

A writer receives the node it fills and returns it filled. A child that the source
appends first and fills afterwards is built first and appended filled, which gives the
same tree. -/

/-- A new element without attributes or children, as `append_child(name)` creates
it. -/
def new_node (key : String) : xml_node :=
  .mk key [] []

/-- Source: `write_color`. -/
def write_color {D : Type} (lib : library D) (c : color D) (color_node : xml_node) :
    xml_node :=
  match c.kind with
  | .theme index => color_node.append_attribute "theme" (to_string index)
  | .indexed index => color_node.append_attribute "indexed" (to_string index)
  | _ => color_node.append_attribute "rgb" (c.get_rgb_hex_string lib)

/-- The body of the loop of `write_fonts`: the `font` element of one font. -/
def write_font {D : Type} (lib : library D) (f : font D) : Option xml_node := do
  let font_node := new_node "font"
  let font_node :=
    if f.bold then font_node.append_child ((new_node "b").append_attribute "val" "1")
    else font_node
  let font_node :=
    if f.italic then font_node.append_child ((new_node "i").append_attribute "val" "1")
    else font_node
  let font_node ←
    if f.is_underline then do
      let u ← underline_style_to_string f.underline
      pure (font_node.append_child ((new_node "u").append_attribute "val" u))
    else pure font_node
  let font_node :=
    if f.strikethrough then
      font_node.append_child ((new_node "strike").append_attribute "val" "1")
    else font_node
  let font_node :=
    font_node.append_child ((new_node "sz").append_attribute "val" (to_string f.size))
  let color_node := write_color lib f.color (new_node "color")
  let font_node := font_node.append_child color_node
  let font_node := font_node.append_child ((new_node "name").append_attribute "val" f.name)
  let font_node :=
    match f.family with
    | some fam =>
      font_node.append_child ((new_node "family").append_attribute "val" (to_string fam))
    | none => font_node
  let font_node :=
    match f.scheme with
    | some sch => font_node.append_child ((new_node "scheme").append_attribute "val" sch)
    | none => font_node
  pure font_node

/-- Source: `write_fonts`. -/
def write_fonts {D : Type} (lib : library D) (fonts : List (font D))
    (fonts_node : xml_node) : Option xml_node := do
  let fonts_node := fonts_node.append_attribute "count" (to_string fonts.length)
  fonts.foldlM (fun node f => do
    let font_node ← write_font lib f
    pure (node.append_child font_node)) fonts_node

/-- The `patternFill` element of `write_fills`. -/
def write_pattern_fill {D : Type} (lib : library D) (pattern : pattern_fill D) :
    Option xml_node := do
  let pattern_fill_node := new_node "patternFill"
  let type_string ← pattern_fill_type_to_string pattern.type
  let pattern_fill_node := pattern_fill_node.append_attribute "patternType" type_string
  let pattern_fill_node :=
    match pattern.foreground_color with
    | some c => pattern_fill_node.append_child (write_color lib c (new_node "fgColor"))
    | none => pattern_fill_node
  let pattern_fill_node :=
    match pattern.background_color with
    | some c => pattern_fill_node.append_child (write_color lib c (new_node "bgColor"))
    | none => pattern_fill_node
  pure pattern_fill_node

/-- The `gradientFill` element of `write_fills`. -/
def write_gradient_fill {D : Type} [DecidableEq D] (lib : library D)
    (gradient : gradient_fill D) : Option xml_node := do
  let gradient_fill_node := new_node "gradientFill"
  let gradient_fill_type_string ← gradient_fill_type_to_string gradient.type
  let gradient_fill_node :=
    gradient_fill_node.append_attribute "gradientType" gradient_fill_type_string
  let gradient_fill_node :=
    if gradient.degree ≠ lib.zero then
      gradient_fill_node.append_attribute "degree" (lib.double_value gradient.degree)
    else gradient_fill_node
  let gradient_fill_node :=
    if gradient.gradient_left ≠ lib.zero then
      gradient_fill_node.append_attribute "left" (lib.double_value gradient.gradient_left)
    else gradient_fill_node
  let gradient_fill_node :=
    if gradient.gradient_right ≠ lib.zero then
      gradient_fill_node.append_attribute "right" (lib.double_value gradient.gradient_right)
    else gradient_fill_node
  let gradient_fill_node :=
    if gradient.gradient_top ≠ lib.zero then
      gradient_fill_node.append_attribute "top" (lib.double_value gradient.gradient_top)
    else gradient_fill_node
  let gradient_fill_node :=
    if gradient.gradient_bottom ≠ lib.zero then
      gradient_fill_node.append_attribute "bottom" (lib.double_value gradient.gradient_bottom)
    else gradient_fill_node
  pure (gradient.stops.foldl (fun node stop =>
    let stop_node := (new_node "stop").append_attribute "position" (lib.double_value stop.1)
    let color_node := write_color lib stop.2 (new_node "color")
    node.append_child (stop_node.append_child color_node)) gradient_fill_node)

/-- The body of the loop of `write_fills`: the `fill` element of one fill. -/
def write_fill {D : Type} [DecidableEq D] (lib : library D) (fill_ : fill D) :
    Option xml_node := do
  let fill_node := new_node "fill"
  match fill_ with
  | .pattern pattern => do
    let pattern_fill_node ← write_pattern_fill lib pattern
    pure (fill_node.append_child pattern_fill_node)
  | .gradient gradient => do
    let gradient_fill_node ← write_gradient_fill lib gradient
    pure (fill_node.append_child gradient_fill_node)

/-- Source: `write_fills`. -/
def write_fills {D : Type} [DecidableEq D] (lib : library D) (fills : List (fill D))
    (fills_node : xml_node) : Option xml_node := do
  let fills_node := fills_node.append_attribute "count" (to_string fills.length)
  fills.foldlM (fun node fill_ => do
    let fill_node ← write_fill lib fill_
    pure (node.append_child fill_node)) fills_node

/-- The element of one side in `write_borders`. -/
def write_side {D : Type} (lib : library D) (current_name : String)
    (current_side : border_property D) : Option xml_node := do
  let side_node := new_node current_name
  let side_node ←
    match current_side.style with
    | some st => do
      let style_string ← border_style_to_string st
      pure (side_node.append_attribute "style" style_string)
    | none => pure side_node
  match current_side.color with
  | some c => pure (side_node.append_child (write_color lib c (new_node "color")))
  | none => pure side_node

/-- The body of the loop of `write_borders`: the `border` element of one border. -/
def write_border {D : Type} (lib : library D) (border_ : border D) : Option xml_node :=
  get_side_names.foldlM (fun border_node side_name =>
    match border_.side side_name.1 with
    | some current_side => do
      let side_node ← write_side lib side_name.2 current_side
      pure (border_node.append_child side_node)
    | none => pure border_node) (new_node "border")

/-- Source: `write_borders`. -/
def write_borders {D : Type} (lib : library D) (borders : List (border D))
    (borders_node : xml_node) : Option xml_node := do
  let borders_node := borders_node.append_attribute "count" (to_string borders.length)
  borders.foldlM (fun node border_ => do
    let border_node ← write_border lib border_
    pure (node.append_child border_node)) borders_node

/-- Source: `write_alignment`. -/
def write_alignment (a : alignment) (alignment_node : xml_node) : Option xml_node := do
  let alignment_node ←
    match a.vertical with
    | some v => do
      let vertical ← vertical_alignment_to_string v
      pure (alignment_node.append_attribute "vertical" vertical)
    | none => pure alignment_node
  let alignment_node ←
    match a.horizontal with
    | some h => do
      let horizontal ← horizontal_alignment_to_string h
      pure (alignment_node.append_attribute "horizontal" horizontal)
    | none => pure alignment_node
  let alignment_node :=
    if a.wrap_text then alignment_node.append_attribute "wrapText" "1" else alignment_node
  let alignment_node :=
    if a.shrink_to_fit then alignment_node.append_attribute "shrinkToFit" "1"
    else alignment_node
  pure alignment_node

/-- Source: `write_protection`. -/
def write_protection (p : protection) (protection_node : xml_node) : xml_node :=
  let protection_node :=
    protection_node.append_attribute "locked" (if p.locked then "1" else "0")
  protection_node.append_attribute "hidden" (if p.hidden then "1" else "0")

/-- Source: `write_base_format`. The index written for a facet is the
`std::distance` to the `std::find` result: the first position holding an equal value,
or the size of the registry. -/
def write_base_format {D : Type} [DecidableEq D] (xf : base_format D) (ss : stylesheet D)
    (xf_node : xml_node) : Option xml_node := do
  let xf_node := xf_node.append_attribute "numFmtId" (to_string xf.number_format.id)
  let font_id := ss.fonts.indexOf xf.font
  let xf_node := xf_node.append_attribute "fontId" (to_string font_id)
  let fill_id := ss.fills.indexOf xf.fill
  let xf_node := xf_node.append_attribute "fillId" (to_string fill_id)
  let border_id := ss.borders.indexOf xf.border
  let xf_node := xf_node.append_attribute "borderId" (to_string border_id)
  let xf_node :=
    if xf.number_format_applied then xf_node.append_attribute "applyNumberFormat" "1"
    else xf_node
  let xf_node := if xf.fill_applied then xf_node.append_attribute "applyFill" "1" else xf_node
  let xf_node := if xf.font_applied then xf_node.append_attribute "applyFont" "1" else xf_node
  let xf_node :=
    if xf.border_applied then xf_node.append_attribute "applyBorder" "1" else xf_node
  let xf_node ←
    if xf.alignment_applied then do
      let xf_node := xf_node.append_attribute "applyAlignment" "1"
      let alignment_node ← write_alignment xf.alignment (new_node "alignment")
      pure (xf_node.append_child alignment_node)
    else pure xf_node
  if xf.protection_applied then
    let xf_node := xf_node.append_attribute "applyProtection" "1"
    pure (xf_node.append_child (write_protection xf.protection (new_node "protection")))
  else pure xf_node

/-- The loop of `write_styles`: the two nodes after the styles from position
`style_index` on are written. -/
def write_styles_loop {D : Type} [DecidableEq D] (ss : stylesheet D) :
    List (style D) → Nat → xml_node → xml_node → Option (xml_node × xml_node)
  | [], _, styles_node, style_formats_node => some (styles_node, style_formats_node)
  | current_style :: rest, style_index, styles_node, style_formats_node => do
    let xf_node ← write_base_format current_style.tobase_format ss (new_node "xf")
    let style_formats_node := style_formats_node.append_child xf_node
    let cell_style_node := new_node "cellStyle"
    let cell_style_node := cell_style_node.append_attribute "name" current_style.name
    let cell_style_node := cell_style_node.append_attribute "xfId" (to_string style_index)
    let cell_style_node :=
      cell_style_node.append_attribute "builtinId" (to_string current_style.builtin_id)
    let cell_style_node :=
      if current_style.hidden then cell_style_node.append_attribute "hidden" "1"
      else cell_style_node
    write_styles_loop ss rest (style_index + 1) (styles_node.append_child cell_style_node)
      style_formats_node

/-- Source: `write_styles`; the result is the pair of `styles_node` and
`style_formats_node`. -/
def write_styles {D : Type} [DecidableEq D] (ss : stylesheet D) (styles_node : xml_node)
    (style_formats_node : xml_node) : Option (xml_node × xml_node) := do
  let style_formats_node :=
    style_formats_node.append_attribute "count" (to_string ss.styles.length)
  let styles_node := styles_node.append_attribute "count" (to_string ss.styles.length)
  write_styles_loop ss ss.styles 0 styles_node style_formats_node

/-- The loop of `write_formats`; the second list is what `format_style_iterator` has
still to visit, and reading it past its end is a failure. -/
def write_formats_loop {D : Type} [DecidableEq D] (ss : stylesheet D) :
    List (format D) → List String → xml_node → Option xml_node
  | [], _, formats_node => some formats_node
  | _ :: _, [], _ => none
  | current_format :: rest, format_style_name :: names, formats_node => do
    let xf_node ← write_base_format current_format.tobase_format ss (new_node "xf")
    let xf_node :=
      if !format_style_name.isEmpty then
        let style_index := ss.styles.findIdx (fun s => s.name == format_style_name)
        xf_node.append_attribute "xfId" (to_string style_index)
      else xf_node
    write_formats_loop ss rest names (formats_node.append_child xf_node)

/-- Source: `write_formats`. -/
def write_formats {D : Type} [DecidableEq D] (ss : stylesheet D) (formats_node : xml_node) :
    Option xml_node := do
  let formats_node := formats_node.append_attribute "count" (to_string ss.formats.length)
  write_formats_loop ss ss.formats ss.format_styles formats_node

/-- Source: `write_dxfs`. -/
def write_dxfs (dxfs_node : xml_node) : xml_node :=
  dxfs_node.append_attribute "count" "0"

/-- Source: `write_table_styles`. -/
def write_table_styles (table_styles_node : xml_node) : xml_node :=
  let table_styles_node := table_styles_node.append_attribute "count" "0"
  let table_styles_node :=
    table_styles_node.append_attribute "defaultTableStyle" "TableStyleMedium9"
  table_styles_node.append_attribute "defaultPivotStyle" "PivotStyleMedium7"

/-- Source: `write_colors`. -/
def write_colors {D : Type} (lib : library D) (colors : List (color D))
    (colors_node : xml_node) : xml_node :=
  let indexed_colors_node := colors.foldl (fun node c =>
    node.append_child
      ((new_node "rgbColor").append_attribute "rgb" (c.get_rgb_hex_string lib)))
    (new_node "indexedColors")
  colors_node.append_child indexed_colors_node

/-- Source: `write_number_formats`. -/
def write_number_formats (number_formats : List number_format)
    (number_formats_node : xml_node) : xml_node :=
  let number_formats_node :=
    number_formats_node.append_attribute "count" (to_string number_formats.length)
  number_formats.foldl (fun node num_fmt =>
    let num_fmt_node := (new_node "numFmt").append_attribute "numFmtId" (to_string num_fmt.id)
    node.append_child (num_fmt_node.append_attribute "formatCode" num_fmt.format_string))
    number_formats_node

/-- The four namespace attributes `write_stylesheet` puts on the root element. -/
def write_root_attributes (root_node : xml_node) : xml_node :=
  let root_node := root_node.append_attribute "xmlns"
    "http://schemas.openxmlformats.org/spreadsheetml/2006/main"
  let root_node := root_node.append_attribute "xmlns:mc"
    "http://schemas.openxmlformats.org/markup-compatibility/2006"
  let root_node := root_node.append_attribute "mc:Ignorable" "x14ac"
  root_node.append_attribute "xmlns:x14ac"
    "http://schemas.microsoft.com/office/spreadsheetml/2009/9/ac"

/-- The `styleSheet` root element `write_stylesheet` builds. -/
def write_root {D : Type} [DecidableEq D] (lib : library D) (ss : stylesheet D) :
    Option xml_node := do
  let root_node := write_root_attributes (new_node "styleSheet")
  let root_node :=
    if !ss.number_formats.isEmpty then
      root_node.append_child (write_number_formats ss.number_formats (new_node "numFmts"))
    else root_node
  let root_node ←
    if !ss.fonts.isEmpty then do
      let fonts_node ← write_fonts lib ss.fonts (new_node "fonts")
      pure (root_node.append_child fonts_node)
    else pure root_node
  let root_node ←
    if !ss.fills.isEmpty then do
      let fills_node ← write_fills lib ss.fills (new_node "fills")
      pure (root_node.append_child fills_node)
    else pure root_node
  let root_node ←
    if !ss.borders.isEmpty then do
      let borders_node ← write_borders lib ss.borders (new_node "borders")
      pure (root_node.append_child borders_node)
    else pure root_node
  let cell_xfs_node ← write_formats ss (new_node "cellXfs")
  let styles_nodes ← write_styles ss (new_node "cellStyles") (new_node "cellStyleXfs")
  let root_node := root_node.append_child styles_nodes.2
  let root_node := root_node.append_child cell_xfs_node
  let root_node := root_node.append_child styles_nodes.1
  let root_node := root_node.append_child (write_dxfs (new_node "dxfs"))
  let root_node := root_node.append_child (write_table_styles (new_node "tableStyles"))
  if !ss.colors.isEmpty then
    pure (root_node.append_child (write_colors lib ss.colors (new_node "colors")))
  else pure root_node

/-- Source: `style_serializer::write_stylesheet`; `ss` is the stylesheet the serializer
holds, `doc` the document, and the result the document with the root appended. -/
def write_stylesheet {D : Type} [DecidableEq D] (lib : library D) (ss : stylesheet D)
    (doc : xml_node) : Option xml_node := do
  let root_node ← write_root lib ss
  pure (doc.append_child root_node)

/-- An empty `pugi::xml_document`. -/
def empty_document : xml_node :=
  .mk "" [] []

/-! ## Definitions used to state the properties -/

/-- The string with every ASCII upper-case letter changed to lower case. -/
def to_lower_case (s : String) : String :=
  ⟨s.data.map Char.toLower⟩

/-- The string with every ASCII lower-case letter changed to upper case. -/
def to_upper_case (s : String) : String :=
  ⟨s.data.map Char.toUpper⟩

/-- A library instance for the concrete examples: a `double` is kept as its text, and
the builtin catalog knows the ids 0 and 14, and a color that is not rgb has the hex
string of black. -/
def example_library : library String :=
  { as_double := id, double_value := id, zero := "0",
    from_builtin_id := fun id =>
      if id = 0 then some number_format.general
      else if id = 14 then some ⟨14, "mm-dd-yy"⟩
      else none,
    other_hex_string := fun _ => "00000000" }

/-- A stylesheet for the concrete examples: one border, one fill, two fonts and three
registered number formats, two of them with the id 14. -/
def example_registry : stylesheet String :=
  { borders := [border.default],
    fills := [fill.default],
    fonts := [font.default, { (font.default : font String) with bold := true }],
    number_formats := [⟨164, "0.000"⟩, ⟨14, "yyyy"⟩, ⟨14, "dd"⟩],
    colors := [], styles := [], formats := [], format_styles := [], style_name_map := [] }

/-- An `xf` element for the concrete examples. -/
def example_xf (num_fmt_id font_id : String) : xml_node :=
  .mk "xf" [("numFmtId", num_fmt_id), ("fontId", font_id), ("fillId", "0")] []

/-- The font of the header scenario: a default font made bold, of size 11, named
Calibri. -/
def header_font {D : Type} : font D :=
  { (font.default : font D) with bold := true, size := 11, name := "Calibri" }

/-- The stylesheet of the header scenario: the font, the default fill and border, one
style named Header using the font, one format owned by the style Header. -/
def header_stylesheet {D : Type} : stylesheet D :=
  { borders := [border.default],
    fills := [fill.default],
    fonts := [header_font],
    number_formats := [],
    colors := [],
    styles := [{ tobase_format := { (base_format.default : base_format D) with font := header_font },
                 name := "Header", hidden := false, builtin_id := 0 }],
    formats := [{ tobase_format := { (base_format.default : base_format D) with font := header_font } }],
    format_styles := ["Header"],
    style_name_map := [] }

/-- The document `write_stylesheet` produces for the header scenario. -/
def header_markup {D : Type} (lib : library D) : xml_node :=
  .mk "" [] [
    .mk "styleSheet"
      [("xmlns", "http://schemas.openxmlformats.org/spreadsheetml/2006/main"),
       ("xmlns:mc", "http://schemas.openxmlformats.org/markup-compatibility/2006"),
       ("mc:Ignorable", "x14ac"),
       ("xmlns:x14ac", "http://schemas.microsoft.com/office/spreadsheetml/2009/9/ac")]
      [.mk "fonts" [("count", "1")]
         [.mk "font" []
            [.mk "b" [("val", "1")] [],
             .mk "sz" [("val", "11")] [],
             .mk "color" [("rgb", lib.other_hex_string color.default)] [],
             .mk "name" [("val", "Calibri")] []]],
       .mk "fills" [("count", "1")]
         [.mk "fill" [] [.mk "patternFill" [("patternType", "none")] []]],
       .mk "borders" [("count", "1")] [.mk "border" [] []],
       .mk "cellStyleXfs" [("count", "1")]
         [.mk "xf" [("numFmtId", "0"), ("fontId", "0"), ("fillId", "0"), ("borderId", "0")] []],
       .mk "cellXfs" [("count", "1")]
         [.mk "xf"
            [("numFmtId", "0"), ("fontId", "0"), ("fillId", "0"), ("borderId", "0"),
             ("xfId", "0")] []],
       .mk "cellStyles" [("count", "1")]
         [.mk "cellStyle" [("name", "Header"), ("xfId", "0"), ("builtinId", "0")] []],
       .mk "dxfs" [("count", "0")] [],
       .mk "tableStyles"
         [("count", "0"), ("defaultTableStyle", "TableStyleMedium9"),
          ("defaultPivotStyle", "PivotStyleMedium7")] []]]

/-- A font with an rgb color. -/
def plain_font {D : Type} : font D :=
  { (font.default : font D) with color := rgb_color "FF000000" }

/-- A stylesheet whose only fill is a gradient fill of type path, used by its style
Normal and by its format, which the style Normal owns. -/
def gradient_stylesheet {D : Type} (lib : library D) : stylesheet D :=
  { borders := [border.default],
    fills := [fill.of_gradient lib .path],
    fonts := [plain_font],
    number_formats := [],
    colors := [],
    styles := [{ tobase_format :=
                   { (base_format.default : base_format D) with
                     font := plain_font, fill := fill.of_gradient lib .path },
                 name := "Normal", hidden := false, builtin_id := 0 }],
    formats := [{ tobase_format :=
                    { (base_format.default : base_format D) with
                      font := plain_font, fill := fill.of_gradient lib .path } }],
    format_styles := ["Normal"],
    style_name_map := [(0, "Normal")] }

/-- The document `write_stylesheet` produces for `gradient_stylesheet`. -/
def gradient_markup : xml_node :=
  .mk "" [] [
    .mk "styleSheet"
      [("xmlns", "http://schemas.openxmlformats.org/spreadsheetml/2006/main"),
       ("xmlns:mc", "http://schemas.openxmlformats.org/markup-compatibility/2006"),
       ("mc:Ignorable", "x14ac"),
       ("xmlns:x14ac", "http://schemas.microsoft.com/office/spreadsheetml/2009/9/ac")]
      [.mk "fonts" [("count", "1")]
         [.mk "font" []
            [.mk "sz" [("val", "12")] [],
             .mk "color" [("rgb", "FF000000")] [],
             .mk "name" [("val", "Calibri")] []]],
       .mk "fills" [("count", "1")]
         [.mk "fill" [] [.mk "gradientFill" [("gradientType", "path")] []]],
       .mk "borders" [("count", "1")] [.mk "border" [] []],
       .mk "cellStyleXfs" [("count", "1")]
         [.mk "xf" [("numFmtId", "0"), ("fontId", "0"), ("fillId", "0"), ("borderId", "0")] []],
       .mk "cellXfs" [("count", "1")]
         [.mk "xf"
            [("numFmtId", "0"), ("fontId", "0"), ("fillId", "0"), ("borderId", "0"),
             ("xfId", "0")] []],
       .mk "cellStyles" [("count", "1")]
         [.mk "cellStyle" [("name", "Normal"), ("xfId", "0"), ("builtinId", "0")] []],
       .mk "dxfs" [("count", "0")] [],
       .mk "tableStyles"
         [("count", "0"), ("defaultTableStyle", "TableStyleMedium9"),
          ("defaultPivotStyle", "PivotStyleMedium7")] []]]

/-- An `xf` element with an inline `protection` child and no `applyProtection`
attribute. -/
def protected_xf : xml_node :=
  .mk "xf" [("numFmtId", "0")] [.mk "protection" [("locked", "1"), ("hidden", "1")] []]

/-- An `xf` element with an inline `alignment` child and no `applyAlignment`
attribute. -/
def aligned_xf : xml_node :=
  .mk "xf" [("numFmtId", "0")]
    [.mk "alignment" [("horizontal", "CENTER"), ("wrapText", "1")] []]

/-- The first `cellStyle` entry, in document order, whose `xfId` is `i`. -/
def first_cell_style (styles_node : node_handle) (i : Nat) : Option xml_node :=
  (children styles_node).find?
    (fun c => stoull (value (xml_attribute (some c) "xfId")) == some i)

/-- The positions, counted from `start`, of the entries of `cellStyleXfs` that have a
`cellStyle` entry with their position as `xfId`, in increasing order, each with its
`xf` entry and its first such `cellStyle` entry. -/
def joined_positions (styles_node : node_handle) (xfs : List xml_node) (start : Nat) :
    List (Nat × xml_node × xml_node) :=
  (xfs.enumFrom start).filterMap
    (fun p => (first_cell_style styles_node p.1).map (fun c => (p.1, p.2, c)))

/-- The positional join of `cellStyles` with `cellStyleXfs`: for every joined position,
in increasing order, the position and the style read from its `cellStyle` entry and its
`xf` entry. -/
def positional_join {D : Type} (lib : library D) (styles_node : node_handle)
    (style_formats_node : node_handle) (ss : stylesheet D) : Option (List (Nat × style D)) :=
  read_each
    (fun p => (read_style lib (some p.2.2) (some p.2.1) ss).map (fun s => (p.1, s)))
    (joined_positions styles_node (children style_formats_node) 0)

/-- The `cellStyle` entries that come before the first entry whose `xfId` is `i`, in
document order; all the entries when no entry has the `xfId` `i`. -/
def cell_styles_before_match (styles_node : node_handle) (i : Nat) : List xml_node :=
  (children styles_node).takeWhile
    (fun c => !(stoull (value (xml_attribute (some c) "xfId")) == some i))

/-- The names recorded for the joined styles: `style_names[position] = name`, position
by position. -/
def record_names {D : Type} (style_names : List (Nat × String)) (js : List (Nat × style D)) :
    List (Nat × String) :=
  js.foldl (fun m p => map_assign m p.1 p.2.name) style_names

/-- A `cellStyles` element for the concrete examples: two entries, both with `xfId`
1. -/
def example_cell_styles : xml_node :=
  .mk "cellStyles" []
    [.mk "cellStyle" [("name", "B"), ("xfId", "1"), ("builtinId", "3")] [],
     .mk "cellStyle" [("name", "C"), ("xfId", "1"), ("builtinId", "4"), ("hidden", "1")] []]

/-- A `cellStyleXfs` element for the concrete examples: two `xf` entries. -/
def example_cell_style_xfs : xml_node :=
  .mk "cellStyleXfs" [] [example_xf "0" "0", example_xf "0" "1"]

/-- A `cellStyles` element for the concrete examples: an entry with `xfId` 0, then an
entry whose `xfId` is not a number. -/
def unparsable_cell_styles : xml_node :=
  .mk "cellStyles" []
    [.mk "cellStyle" [("name", "A"), ("xfId", "0"), ("builtinId", "5")] [],
     .mk "cellStyle" [("name", "bad"), ("xfId", "abc"), ("builtinId", "6")] []]

/-- A `cellStyleXfs` element for the concrete examples: one `xf` entry. -/
def single_cell_style_xf : xml_node :=
  .mk "cellStyleXfs" [] [example_xf "0" "1"]

/-- A `cellXfs` element for the concrete examples: two `xf` entries with `xfId` 1. -/
def example_cell_xfs : xml_node :=
  .mk "cellXfs" []
    [.mk "xf" [("numFmtId", "0"), ("xfId", "1")] [],
     .mk "xf" [("numFmtId", "14"), ("fontId", "1"), ("xfId", "1")] []]

/-- A font element that gives only the size 11 and the name Calibri. -/
def calibri_font_node : xml_node :=
  .mk "font" [] [.mk "sz" [("val", "11")] [], .mk "name" [("val", "Calibri")] []]

/-- A document whose `fonts` section holds the same font element twice and whose
`numFmts` section holds the same number format twice. -/
def duplicate_entries_markup : xml_node :=
  .mk "" [] [.mk "styleSheet" []
    [.mk "numFmts" [("count", "2")]
       [.mk "numFmt" [("numFmtId", "164"), ("formatCode", "0.000")] [],
        .mk "numFmt" [("numFmtId", "164"), ("formatCode", "0.000")] []],
     .mk "fonts" [("count", "2")] [calibri_font_node, calibri_font_node]]]

/-- A document whose `styleSheet` element holds a `fonts` section with one font and
nothing else. -/
def fonts_only_markup : xml_node :=
  .mk "" [] [.mk "styleSheet" [] [.mk "fonts" [("count", "1")] [calibri_font_node]]]

/-- The header stylesheet with the style name of its format emptied: a format
without style. -/
def unstyled_format_stylesheet {D : Type} : stylesheet D :=
  { (header_stylesheet : stylesheet D) with format_styles := [""] }

/-- The element with every attribute named `key` removed. -/
def xml_node.remove_attribute (n : xml_node) (key : String) : xml_node :=
  .mk n.name (n.attributes.filter (fun p => !(p.1 == key))) n.child_nodes

/-- The font `read_font` builds from its decoded parts: the size, the color, the
family and the underline style; the name, the three flags and the scheme are read
from the element without failure. -/
def read_font_result {D : Type} (font_node : node_handle) (size : Nat) (c : color D)
    (fam : Option Nat) (u : underline_style) : font D :=
  { name := value (xml_attribute (child font_node "name") "val"),
    size := size,
    bold := (read_font_flag font_node "b").getD false,
    italic := (read_font_flag font_node "i").getD false,
    strikethrough := (read_font_flag font_node "strike").getD false,
    underline := u,
    color := c,
    family := fam,
    scheme := if (child font_node "scheme").isSome then
        some (value (xml_attribute (child font_node "scheme") "val"))
      else none }

/-- A color element with a theme index and a tint. -/
def tinted_color_node : xml_node :=
  .mk "color" [("theme", "4"), ("tint", "0.5")] []

/-- The `cellStyle` element the loop of `write_styles` builds for the style at position
`style_index`. -/
def write_cell_style {D : Type} (style_index : Nat) (current_style : style D) : xml_node :=
  let cell_style_node := new_node "cellStyle"
  let cell_style_node := cell_style_node.append_attribute "name" current_style.name
  let cell_style_node := cell_style_node.append_attribute "xfId" (to_string style_index)
  let cell_style_node :=
    cell_style_node.append_attribute "builtinId" (to_string current_style.builtin_id)
  if current_style.hidden then cell_style_node.append_attribute "hidden" "1"
  else cell_style_node

/-- A stylesheet whose font registry holds the same font twice, and a format that uses
this font. -/
def duplicate_font_stylesheet : stylesheet String :=
  { (header_stylesheet : stylesheet String) with fonts := [header_font, header_font] }

/-- A border with a thin red left side and a top side without style and color. -/
def two_sided_border : border String :=
  { (border.default : border String) with
    left := some ⟨some .thin, some (rgb_color "FFFF0000")⟩,
    top := some ⟨none, none⟩ }

/-! ### The workbook operations, after the specification -/

/-- Modelled from the spec: the value-interning insert of the stylesheet registries
(the registry code, `stylesheet.hpp`, is not among the sources): given a candidate
value, the index of an existing value-equal entry if one exists, otherwise the value is
appended and the new index returned. The result is the registry after the insert and
the index. -/
def intern {α : Type} [DecidableEq α] (registry : List α) (v : α) : List α × Nat :=
  if v ∈ registry then (registry, registry.indexOf v)
  else (registry ++ [v], registry.length)

/-- Modelled from the spec: `workbook::add_format`, declared in `workbook.hpp`; its body
(`workbook.cpp`) is not among the sources. The font, the fill and the border of the
format are interned into their registries; the format is appended to the format list,
which is not deduplicated (each format is a usage point), together with the name of its
owning style; the index of the new entry is returned. What the call does with the
number format registry is the parameter `register_number_format`, as the spec states
only the constraints of that insert. -/
def add_format {D : Type} [DecidableEq D]
    (register_number_format : List number_format → number_format → List number_format)
    (ss : stylesheet D) (new_format : format D) (style_name : String) :
    stylesheet D × Nat :=
  ({ ss with
      fonts := (intern ss.fonts new_format.font).1,
      fills := (intern ss.fills new_format.fill).1,
      borders := (intern ss.borders new_format.border).1,
      number_formats := register_number_format ss.number_formats new_format.number_format,
      formats := ss.formats ++ [new_format],
      format_styles := ss.format_styles ++ [style_name] },
   ss.formats.length)

/-- A `numFmts` section with the codes "GENERAL" and "general", an id below 164 and a
repeated id. -/
def example_numFmts_node : xml_node :=
  .mk "numFmts" [("count", "4")]
    [.mk "numFmt" [("numFmtId", "164"), ("formatCode", "GENERAL")] [],
     .mk "numFmt" [("numFmtId", "164"), ("formatCode", "general")] [],
     .mk "numFmt" [("numFmtId", "14"), ("formatCode", "yyyy")] [],
     .mk "font" [] [],
     .mk "numFmt" [("numFmtId", "14"), ("formatCode", "dd")] []]

/-- A fill element whose `patternFill` child has no `patternType` but two color
children, next to a `gradientFill` child. -/
def untyped_pattern_fill_node : xml_node :=
  .mk "fill" []
    [.mk "patternFill" []
       [.mk "fgColor" [("rgb", "FFFF0000")] [], .mk "bgColor" [("indexed", "64")] []],
     .mk "gradientFill" [("type", "path")] []]

/-- A format record whose font is not in the font registry of the header stylesheet. -/
def dangling_font_format : base_format String :=
  { (base_format.default : base_format String) with font := plain_font }

/-- A font with every flag set and a double underline. -/
def flagged_font : font String :=
  { (font.default : font String) with
    bold := true, italic := true, strikethrough := true, underline := .double_,
    size := 11, name := "Calibri", color := rgb_color "FF000000" }

/-! ## Auxiliary lemmas -/

/-- A character whose code lies in a range is the character of a code in that range. -/
theorem char_of_toNat_range (c : Char) (lo hi : Nat) (h1 : lo ≤ c.toNat) (h2 : c.toNat ≤ hi) :
    ∃ k, lo ≤ k ∧ k ≤ hi ∧ c = Char.ofNat k :=
  ⟨c.toNat, h1, h2, (Char.ofNat_toNat c).symm⟩

/-- Lower-casing a character twice is lower-casing it once. -/
theorem tolower_tolower (c : Char) : tolower (tolower c) = tolower c := by
  unfold tolower
  by_cases h : c.toNat ≥ 65 ∧ c.toNat ≤ 90
  · obtain ⟨k, hk1, hk2, rfl⟩ := char_of_toNat_range c 65 90 h.1 h.2
    interval_cases k <;> rfl
  · simp [Char.toLower, h]

/-- Lower-casing an upper-cased character is lower-casing the character. -/
theorem tolower_toUpper (c : Char) : tolower c.toUpper = tolower c := by
  unfold tolower
  by_cases h : c.toNat ≥ 97 ∧ c.toNat ≤ 122
  · obtain ⟨k, hk1, hk2, rfl⟩ := char_of_toNat_range c 97 122 h.1 h.2
    interval_cases k <;> rfl
  · simp [Char.toUpper, h]

/-- The source `string_lower` does not see a prior lower-casing. -/
theorem string_lower_to_lower_case (s : String) : string_lower (to_lower_case s) = string_lower s := by
  simp only [string_lower, to_lower_case, List.map_map, Function.comp_def]
  exact congrArg String.mk (List.map_congr_left (fun c _ => tolower_tolower c))

/-- The source `string_lower` does not see a prior upper-casing. -/
theorem string_lower_to_upper_case (s : String) : string_lower (to_upper_case s) = string_lower s := by
  simp only [string_lower, to_upper_case, List.map_map, Function.comp_def]
  exact congrArg String.mk (List.map_congr_left (fun c _ => tolower_toUpper c))

/-- A key that is not in the table has no entry: `at` throws. -/
theorem map_at_eq_none {κ ν : Type} [BEq κ] [LawfulBEq κ] (table : List (κ × ν)) (key : κ)
    (h : key ∉ table.map Prod.fst) : map_at table key = none := by
  unfold map_at
  rw [Option.map_eq_none', List.find?_eq_none]
  intro p hp hk
  exact h (List.mem_map.2 ⟨p, hp, by simpa using hk⟩)

/-- A string other than the empty one is not `empty()`. -/
theorem string_isEmpty_false (s : String) (h : s ≠ "") : s.isEmpty = false := by
  cases hs : s.isEmpty with
  | false => rfl
  | true =>
    exfalso
    apply h
    have h0 : s.endPos = 0 := by simpa [String.isEmpty] using hs
    have h1 : s.utf8ByteSize = 0 := congrArg String.Pos.byteIdx h0
    obtain ⟨l⟩ := s
    cases l with
    | nil => rfl
    | cons c t =>
      have hc := Char.utf8Size_pos c
      simp [String.utf8ByteSize, String.utf8ByteSize.go] at h1
      omega

/-- A loop whose body throws at one element of the list throws. -/
theorem foldlM_eq_none {α β : Type} (f : β → α → Option β) (x : α)
    (hx : ∀ acc, f acc x = none) :
    ∀ (l : List α) (init : β), x ∈ l → l.foldlM f init = none := by
  intro l
  induction l with
  | nil => intro _ h; cases h
  | cons a t ih =>
    intro init h
    rw [List.foldlM_cons]
    rcases List.mem_cons.1 h with rfl | h
    · rw [hx init]; rfl
    · cases hfa : f init a with
      | none => rfl
      | some b => exact ih b h

/-- The source `read_side` throws on a style attribute that is no border style keyword. -/
theorem read_side_unknown_style {D : Type} (lib : library D) (side_node : node_handle)
    (v : String) (hattr : xml_attribute side_node "style" = some v)
    (hv : string_lower v ∉ get_string_border_style_map.map Prod.fst) :
    read_side lib side_node = none := by
  have h := map_at_eq_none get_string_border_style_map (string_lower v) hv
  simp [read_side, hattr, value, border_style_from_string, h]

/-- What `read_base_format` returns when it returns: every facet and flag of the result. -/
theorem read_base_format_eq_some {D : Type} (lib : library D) (format_node : node_handle)
    (ss : stylesheet D) (f0 f : base_format D) :
    read_base_format lib format_node ss f0 = some f ↔
      ∃ al bi b fi fl foi fo id,
        (if (child format_node "alignment").isSome
              || is_true (value (xml_attribute format_node "applyAlignment"))
          then read_alignment (child format_node "alignment") else some f0.alignment) = some al
        ∧ read_index format_node "borderId" = some bi ∧ ss.borders[bi]? = some b
        ∧ read_index format_node "fillId" = some fi ∧ ss.fills[fi]? = some fl
        ∧ read_index format_node "fontId" = some foi ∧ ss.fonts[foi]? = some fo
        ∧ string_to_size_t (value (xml_attribute format_node "numFmtId")) = some id
        ∧ f =
          { alignment := al, border := b, fill := fl, font := fo,
            number_format := resolve_number_format lib ss.number_formats id,
            protection :=
              if (xml_attribute format_node "protection").isSome
                  || is_true (value (xml_attribute format_node "applyProtection"))
              then read_protection (child format_node "protection") else f0.protection,
            alignment_applied := (child format_node "alignment").isSome
              || is_true (value (xml_attribute format_node "applyAlignment")),
            border_applied := is_true (value (xml_attribute format_node "applyBorder")),
            fill_applied := is_true (value (xml_attribute format_node "applyFill")),
            font_applied := is_true (value (xml_attribute format_node "applyFont")),
            number_format_applied :=
              is_true (value (xml_attribute format_node "applyNumberFormat")),
            protection_applied := (xml_attribute format_node "protection").isSome
              || is_true (value (xml_attribute format_node "applyProtection")) } := by
  unfold read_base_format
  cases hA : ((child format_node "alignment").isSome
      || is_true (value (xml_attribute format_node "applyAlignment"))) <;>
    cases hP : ((xml_attribute format_node "protection").isSome
      || is_true (value (xml_attribute format_node "applyProtection"))) <;>
    simp only [Option.bind_eq_bind, Option.pure_def, Option.bind_eq_some, Option.some_bind,
      if_true, if_false, Bool.false_eq_true, Option.some.injEq, exists_eq_left']
  · constructor
    · rintro ⟨bi, hbi, b, hb, fi, hfi, fl, hfl, foi, hfoi, fo, hfo, id, hid, rfl⟩
      exact ⟨_, bi, b, fi, fl, foi, fo, id, rfl, hbi, hb, hfi, hfl, hfoi, hfo, hid, rfl⟩
    · rintro ⟨al, bi, b, fi, fl, foi, fo, id, rfl, hbi, hb, hfi, hfl, hfoi, hfo, hid, rfl⟩
      exact ⟨bi, hbi, b, hb, fi, hfi, fl, hfl, foi, hfoi, fo, hfo, id, hid, rfl⟩
  · constructor
    · rintro ⟨bi, hbi, b, hb, fi, hfi, fl, hfl, foi, hfoi, fo, hfo, id, hid, rfl⟩
      exact ⟨_, bi, b, fi, fl, foi, fo, id, rfl, hbi, hb, hfi, hfl, hfoi, hfo, hid, rfl⟩
    · rintro ⟨al, bi, b, fi, fl, foi, fo, id, rfl, hbi, hb, hfi, hfl, hfoi, hfo, hid, rfl⟩
      exact ⟨bi, hbi, b, hb, fi, hfi, fl, hfl, foi, hfoi, fo, hfo, id, hid, rfl⟩
  · constructor
    · rintro ⟨al, hal, bi, hbi, b, hb, fi, hfi, fl, hfl, foi, hfoi, fo, hfo, id, hid, rfl⟩
      exact ⟨al, bi, b, fi, fl, foi, fo, id, hal, hbi, hb, hfi, hfl, hfoi, hfo, hid, rfl⟩
    · rintro ⟨al, bi, b, fi, fl, foi, fo, id, hal, hbi, hb, hfi, hfl, hfoi, hfo, hid, rfl⟩
      exact ⟨al, hal, bi, hbi, b, hb, fi, hfi, fl, hfl, foi, hfoi, fo, hfo, id, hid, rfl⟩
  · constructor
    · rintro ⟨al, hal, bi, hbi, b, hb, fi, hfi, fl, hfl, foi, hfoi, fo, hfo, id, hid, rfl⟩
      exact ⟨al, bi, b, fi, fl, foi, fo, id, hal, hbi, hb, hfi, hfl, hfoi, hfo, hid, rfl⟩
    · rintro ⟨al, bi, b, fi, fl, foi, fo, id, hal, hbi, hb, hfi, hfl, hfoi, hfo, hid, rfl⟩
      exact ⟨al, hal, bi, hbi, b, hb, fi, hfi, fl, hfl, foi, hfoi, fo, hfo, id, hid, rfl⟩

/-- With the three indices in range, a readable `numFmtId` and a readable inline
alignment, `read_base_format` returns a format with the registry entries at the indices
and the resolved number format. -/
theorem read_base_format_succeeds {D : Type} (lib : library D) (format_node : node_handle)
    (ss : stylesheet D) (f0 : base_format D) (border_index fill_index font_index id : Nat)
    (hbi : read_index format_node "borderId" = some border_index)
    (hfi : read_index format_node "fillId" = some fill_index)
    (hfoi : read_index format_node "fontId" = some font_index)
    (hb : border_index < ss.borders.length) (hfl : fill_index < ss.fills.length)
    (hfo : font_index < ss.fonts.length)
    (hid : string_to_size_t (value (xml_attribute format_node "numFmtId")) = some id)
    (hal : child format_node "alignment" = none ∨
      (read_alignment (child format_node "alignment")).isSome = true) :
    ∃ f, read_base_format lib format_node ss f0 = some f
      ∧ ss.borders[border_index]? = some f.border
      ∧ ss.fills[fill_index]? = some f.fill
      ∧ ss.fonts[font_index]? = some f.font
      ∧ f.number_format = resolve_number_format lib ss.number_formats id := by
  have hal' : ∃ al, (if (child format_node "alignment").isSome
            || is_true (value (xml_attribute format_node "applyAlignment"))
        then read_alignment (child format_node "alignment") else some f0.alignment)
        = some al := by
    split
    · rcases hal with h | h
      · rw [h]; exact ⟨_, rfl⟩
      · exact Option.isSome_iff_exists.1 h
    · exact ⟨_, rfl⟩
  obtain ⟨al, hal'⟩ := hal'
  exact ⟨_, (read_base_format_eq_some lib format_node ss f0 _).2
    ⟨al, border_index, _, fill_index, _, font_index, _, id, hal', hbi,
      List.getElem?_eq_getElem hb, hfi, List.getElem?_eq_getElem hfl, hfoi,
      List.getElem?_eq_getElem hfo, hid, rfl⟩,
    List.getElem?_eq_getElem hb, List.getElem?_eq_getElem hfl, List.getElem?_eq_getElem hfo, rfl⟩

/-- A digit character of `Nat.digitChar` is a decimal digit with the right value. -/
theorem digitChar_spec (d : Nat) (h : d < 10) :
    (Nat.digitChar d).isDigit = true ∧ (Nat.digitChar d).toNat - 48 = d := by
  interval_cases d <;> decide

/-- The code of a decimal digit. -/
theorem isDigit_range (c : Char) (h : c.isDigit = true) : 48 ≤ c.toNat ∧ c.toNat ≤ 57 := by
  simp only [Char.isDigit, Bool.and_eq_true, decide_eq_true_eq] at h
  exact ⟨h.1, h.2⟩

/-- A decimal digit is neither white space nor a sign. -/
theorem isDigit_not_space_sign (c : Char) (h : c.isDigit = true) :
    isspace c = false ∧ c ≠ '-' ∧ c ≠ '+' := by
  obtain ⟨h1, h2⟩ := isDigit_range c h
  obtain ⟨k, hk1, hk2, rfl⟩ := char_of_toNat_range c 48 57 h1 h2
  interval_cases k <;> decide

/-- The digits `Nat.toDigitsCore` puts in front of its accumulator are a non-empty run of
decimal digits whose value is the number. -/
theorem toDigitsCore_spec : ∀ (fuel n : Nat) (ds : List Char), n < fuel →
    ∃ L, Nat.toDigitsCore 10 fuel n ds = L ++ ds ∧ L ≠ [] ∧ (∀ c ∈ L, c.isDigit = true)
      ∧ digits_value L = n := by
  intro fuel
  induction fuel with
  | zero => intro n ds h; omega
  | succ fuel ih =>
    intro n ds h
    have hd := digitChar_spec (n % 10) (Nat.mod_lt _ (by decide))
    unfold Nat.toDigitsCore
    by_cases h0 : n / 10 = 0
    · refine ⟨[Nat.digitChar (n % 10)], by simp [h0], by simp, by simpa using hd.1, ?_⟩
      have : n % 10 = n := Nat.mod_eq_of_lt (by omega)
      rw [this] at hd
      simp [digits_value, hd.2, this]
    · obtain ⟨L, hL, hne, hdig, hval⟩ := ih (n / 10) (Nat.digitChar (n % 10) :: ds) (by omega)
      refine ⟨L ++ [Nat.digitChar (n % 10)], by simp [h0, hL], by simp, ?_, ?_⟩
      · intro c hc
        rcases List.mem_append.1 hc with hc | hc
        · exact hdig c hc
        · simp at hc; rw [hc]; exact hd.1
      · unfold digits_value at hval ⊢
        rw [List.foldl_append, hval]
        simp [hd.2]
        omega

/-- Printing a `std::size_t` with `std::to_string` and parsing it with
`string_to_size_t` gives the number back. -/
theorem string_to_size_t_to_string (n : Nat) (h : n < 2 ^ 64) :
    string_to_size_t (to_string n) = some n := by
  obtain ⟨L, hL, hne, hdig, hval⟩ := toDigitsCore_spec (n + 1) n [] (Nat.lt_succ_self n)
  have hrepr : to_string n = ⟨L⟩ := by
    simp [to_string, Nat.repr, Nat.toDigits, hL, List.asString]
  obtain ⟨c, t, rfl⟩ := List.exists_cons_of_ne_nil hne
  obtain ⟨hsp, hm, hp⟩ := isDigit_not_space_sign c (hdig c (List.mem_cons_self _ _))
  have htake : (c :: t).takeWhile Char.isDigit = c :: t :=
    List.takeWhile_eq_self_iff.2 (fun x hx => hdig x hx)
  have hdrop : (c :: t).dropWhile isspace = c :: t := by
    simp [List.dropWhile, hsp]
  have hmatch : stoull_sign (c :: t) = (false, c :: t) := by
    unfold stoull_sign
    split
    · rename_i heq; cases heq; exact absurd rfl hm
    · rename_i heq; cases heq; exact absurd rfl hp
    · rfl
  unfold string_to_size_t stoull
  rw [hrepr]
  simp only [hdrop, hmatch, htake, hval]
  have : ¬ 2 ^ 64 ≤ n := by omega
  simp [this]
  omega

/-! ## Round trip -/

/-- The document written for `gradient_stylesheet`; the gradient type is carried by an
attribute named `gradientType`. -/
theorem write_gradient_stylesheet {D : Type} [DecidableEq D] (lib : library D) :
    write_stylesheet lib (gradient_stylesheet lib) empty_document = some gradient_markup := by
  simp [write_stylesheet, write_root, write_root_attributes, gradient_stylesheet, write_fonts,
    write_font, plain_font, font.default, font.is_underline, write_color, rgb_color,
    color.get_rgb_hex_string, write_fills, write_fill, write_gradient_fill, fill.of_gradient,
    write_borders, write_border, get_side_names, border.default, border.side,
    write_formats, write_formats_loop, write_base_format, base_format.default,
    number_format.general, write_styles, write_styles_loop, write_dxfs, write_table_styles,
    new_node, xml_node.append_child, xml_node.append_attribute, xml_node.name,
    xml_node.attributes, xml_node.child_nodes, empty_document, gradient_markup, to_string,
    alignment.default, protection.default,
    (by decide : gradient_fill_type_to_string .path = some "path"),
    (by decide : Nat.repr 0 = "0"), (by decide : Nat.repr 1 = "1"),
    (by decide : Nat.repr 12 = "12"), (by decide : "Normal".isEmpty = false),
    List.findIdx_cons]

/-- Reading the document written for `gradient_stylesheet`: the fill comes back as a
linear gradient, the fonts and borders as they were. -/
theorem read_gradient_stylesheet {D : Type} (lib : library D) :
    ∃ ss, read_stylesheet lib stylesheet.empty gradient_markup = some ss
      ∧ ss.fills = [fill.of_gradient lib .linear]
      ∧ ss.fonts = (gradient_stylesheet lib).fonts
      ∧ ss.borders = (gradient_stylesheet lib).borders := by
  simp [read_stylesheet, gradient_markup, child, children, children_named, xml_attribute, value,
    xml_node.name, xml_node.attributes, xml_node.child_nodes, read_each,
    read_borders, read_border, get_side_names, read_fills, read_fill, read_stops, read_fonts,
    read_font, fill.add_stops, fill.of_gradient, gradient_stylesheet, plain_font,
    read_font_flag, read_color, read_number_formats, read_colors, read_styles,
    read_styles_loop, read_styles_match, read_style, read_base_format, read_index,
    read_alignment, read_formats, map_at, map_assign, stylesheet.empty, is_true,
    (by decide : string_to_size_t "0" = some 0), (by decide : stoull "0" = some 0),
    (by decide : string_to_size_t "12" = some 12), (by decide : "".isEmpty = true),
    font.default, border.default, rgb_color]

/-- C1, at the failing input: the round trip of a stylesheet with a gradient fill of
type path succeeds but yields a linear gradient fill, so the fills differ. -/
theorem round_trip_loses_gradient_type {D : Type} [DecidableEq D] (lib : library D) :
    ∃ doc ss, write_stylesheet lib (gradient_stylesheet lib) empty_document = some doc
      ∧ read_stylesheet lib stylesheet.empty doc = some ss
      ∧ (gradient_stylesheet lib).fills = [fill.of_gradient lib .path]
      ∧ ss.fills = [fill.of_gradient lib .linear]
      ∧ ss.fills ≠ (gradient_stylesheet lib).fills := by
  obtain ⟨ss, h, hf, -, -⟩ := read_gradient_stylesheet lib
  refine ⟨_, ss, write_gradient_stylesheet lib, h, rfl, hf, ?_⟩
  rw [hf]
  simp [gradient_stylesheet, fill.of_gradient]

/-- The document written for the header scenario. -/
theorem write_header {D : Type} [DecidableEq D] (lib : library D) :
    write_stylesheet lib header_stylesheet empty_document = some (header_markup lib) := by
  simp [write_stylesheet, write_root, write_root_attributes, header_stylesheet, write_fonts,
    write_font, header_font, font.default, font.is_underline, write_color, color.default,
    color.get_rgb_hex_string, write_fills, write_fill, write_pattern_fill, fill.default,
    fill.of_pattern, write_borders, write_border, get_side_names, border.default, border.side,
    write_formats, write_formats_loop, write_base_format, base_format.default,
    number_format.general, write_styles, write_styles_loop, write_dxfs, write_table_styles,
    new_node, xml_node.append_child, xml_node.append_attribute, xml_node.name,
    xml_node.attributes, xml_node.child_nodes, empty_document, header_markup, to_string,
    alignment.default, protection.default,
    (by decide : pattern_fill_type_to_string .none = some "none"),
    (by decide : Nat.repr 0 = "0"), (by decide : Nat.repr 1 = "1"),
    (by decide : Nat.repr 11 = "11"), (by decide : "Header".isEmpty = false),
    List.findIdx_cons]

/-- Reading the document of the header scenario into an empty stylesheet. -/
theorem read_header {D : Type} (lib : library D) :
    ∃ ss, read_stylesheet lib stylesheet.empty (header_markup lib) = some ss
      ∧ ss.fonts.length = 1
      ∧ (∃ st, ss.styles = [st] ∧ st.name = "Header" ∧ st.font.bold = true)
      ∧ ss.formats.length = 1
      ∧ ss.format_styles = ["Header"] := by
  simp [read_stylesheet, header_markup, child, children, children_named, xml_attribute, value,
    xml_node.name, xml_node.attributes, xml_node.child_nodes, read_each,
    read_borders, read_border, get_side_names, read_fills, read_fill, read_fonts, read_font,
    read_font_flag, read_color, read_number_formats, read_colors, read_styles,
    read_styles_loop, read_styles_match, read_style, read_base_format, read_index,
    read_alignment, read_formats, map_at, map_assign, stylesheet.empty, is_true,
    (by decide : pattern_fill_type_from_string "none" = some .none),
    (by decide : string_to_size_t "0" = some 0), (by decide : stoull "0" = some 0),
    (by decide : string_to_size_t "11" = some 11), (by decide : "none".isEmpty = false)]

/-- C2. Header scenario: writing the stylesheet with one bold Calibri 11 font, one style
Header using it and one format owned by Header, and reading the document into an empty
stylesheet, succeeds and yields exactly one font, exactly one style, named Header with
a bold font, and exactly one format, whose style name is Header. -/
theorem header_scenario {D : Type} [DecidableEq D] (lib : library D) :
    ∃ doc ss, write_stylesheet lib header_stylesheet empty_document = some doc
      ∧ read_stylesheet lib stylesheet.empty doc = some ss
      ∧ ss.fonts.length = 1
      ∧ (∃ st, ss.styles = [st] ∧ st.name = "Header" ∧ st.font.bold = true)
      ∧ ss.formats.length = 1
      ∧ ss.format_styles = ["Header"] := by
  obtain ⟨ss, h⟩ := read_header lib
  exact ⟨_, ss, write_header lib, h⟩

/-! ## Enum codecs -/

/-- C3. Enum parsing is case-insensitive: border style, pattern and gradient fill
type, horizontal and vertical alignment give the same outcome (the same value, or a
failure in both cases) on a string, on its lower-cased form and on its upper-cased
form; in particular "SOLID" parses like "solid". -/
theorem enum_parsing_case_insensitive (s : String) :
    (border_style_from_string (to_lower_case s) = border_style_from_string s
      ∧ border_style_from_string (to_upper_case s) = border_style_from_string s)
    ∧ (pattern_fill_type_from_string (to_lower_case s) = pattern_fill_type_from_string s
      ∧ pattern_fill_type_from_string (to_upper_case s) = pattern_fill_type_from_string s)
    ∧ (gradient_fill_type_from_string (to_lower_case s) = gradient_fill_type_from_string s
      ∧ gradient_fill_type_from_string (to_upper_case s) = gradient_fill_type_from_string s)
    ∧ (horizontal_alignment_from_string (to_lower_case s) = horizontal_alignment_from_string s
      ∧ horizontal_alignment_from_string (to_upper_case s)
          = horizontal_alignment_from_string s)
    ∧ (vertical_alignment_from_string (to_lower_case s) = vertical_alignment_from_string s
      ∧ vertical_alignment_from_string (to_upper_case s) = vertical_alignment_from_string s)
    ∧ pattern_fill_type_from_string "SOLID" = pattern_fill_type_from_string "solid" := by
  simp only [border_style_from_string, pattern_fill_type_from_string,
    gradient_fill_type_from_string, horizontal_alignment_from_string,
    vertical_alignment_from_string, string_lower_to_lower_case, string_lower_to_upper_case,
    and_self, true_and]
  decide

/-- C4. The enum codecs are lossless: in each of the six vocabularies every enum value
has a keyword (`to_string` succeeds) and `from_string` of that keyword is the value. -/
theorem enum_codecs_lossless :
    (∀ e, (underline_style_to_string e).isSome
        ∧ (underline_style_to_string e).bind underline_style_from_string = some e)
    ∧ (∀ e, (pattern_fill_type_to_string e).isSome
        ∧ (pattern_fill_type_to_string e).bind pattern_fill_type_from_string = some e)
    ∧ (∀ e, (gradient_fill_type_to_string e).isSome
        ∧ (gradient_fill_type_to_string e).bind gradient_fill_type_from_string = some e)
    ∧ (∀ e, (border_style_to_string e).isSome
        ∧ (border_style_to_string e).bind border_style_from_string = some e)
    ∧ (∀ e, (vertical_alignment_to_string e).isSome
        ∧ (vertical_alignment_to_string e).bind vertical_alignment_from_string = some e)
    ∧ (∀ e, (horizontal_alignment_to_string e).isSome
        ∧ (horizontal_alignment_to_string e).bind horizontal_alignment_from_string = some e) := by
  refine ⟨?_, ?_, ?_, ?_, ?_, ?_⟩ <;> intro e <;> cases e <;> decide

/-- C5. An unrecognized keyword is a failure, never a default: a string whose
lower-cased form is no key of the table makes each of the five `from_string` lookups
fail, and `read_border`, `read_fill` and `read_alignment` fail when the attribute they
decode carries such a keyword. -/
theorem unknown_enum_keyword_fails {D : Type} (lib : library D) (s : String) :
    (string_lower s ∉ get_string_border_style_map.map Prod.fst →
      border_style_from_string s = none)
    ∧ (string_lower s ∉ get_string_pattern_fill_type_map.map Prod.fst →
      pattern_fill_type_from_string s = none)
    ∧ (string_lower s ∉ get_string_gradient_fill_type_map.map Prod.fst →
      gradient_fill_type_from_string s = none)
    ∧ (string_lower s ∉ get_string_vertical_alignment_map.map Prod.fst →
      vertical_alignment_from_string s = none)
    ∧ (string_lower s ∉ get_string_horizontal_alignment_map.map Prod.fst →
      horizontal_alignment_from_string s = none)
    ∧ (∀ (border_node : node_handle) (side : border_side) (side_name : String),
        (side, side_name) ∈ get_side_names →
        xml_attribute (child border_node side_name) "style" = some s →
        string_lower s ∉ get_string_border_style_map.map Prod.fst →
        read_border lib border_node = none)
    ∧ (∀ fill_node : node_handle,
        xml_attribute (child fill_node "patternFill") "patternType" = some s →
        s ≠ "" → string_lower s ∉ get_string_pattern_fill_type_map.map Prod.fst →
        read_fill lib fill_node = none)
    ∧ (∀ fill_node : node_handle,
        child fill_node "patternFill" = none →
        xml_attribute (child fill_node "gradientFill") "type" = some s →
        s ≠ "" → string_lower s ∉ get_string_gradient_fill_type_map.map Prod.fst →
        read_fill lib fill_node = none)
    ∧ (∀ alignment_node : node_handle,
        xml_attribute alignment_node "vertical" = some s →
        string_lower s ∉ get_string_vertical_alignment_map.map Prod.fst →
        read_alignment alignment_node = none)
    ∧ (∀ alignment_node : node_handle,
        xml_attribute alignment_node "horizontal" = some s →
        string_lower s ∉ get_string_horizontal_alignment_map.map Prod.fst →
        read_alignment alignment_node = none) := by
  refine ⟨fun h => map_at_eq_none _ _ h, fun h => map_at_eq_none _ _ h,
    fun h => map_at_eq_none _ _ h, fun h => map_at_eq_none _ _ h,
    fun h => map_at_eq_none _ _ h, ?_, ?_, ?_, ?_, ?_⟩
  · intro border_node side side_name hmem hattr hs
    unfold read_border
    refine foldlM_eq_none _ (side, side_name) ?_ _ _ hmem
    intro acc
    have hchild : (child border_node side_name).isSome = true := by
      cases hc : child border_node side_name with
      | none => rw [hc] at hattr; simp [xml_attribute] at hattr
      | some _ => rfl
    simp [hchild, read_side_unknown_style lib _ s hattr hs]
  · intro fill_node hattr hne hs
    have hchild : (child fill_node "patternFill").isSome = true := by
      cases hc : child fill_node "patternFill" with
      | none => rw [hc] at hattr; simp [xml_attribute] at hattr
      | some _ => rfl
    have h := map_at_eq_none get_string_pattern_fill_type_map (string_lower s) hs
    have hne' : s.isEmpty = false := string_isEmpty_false s hne
    simp [read_fill, hchild, hattr, value, hne', pattern_fill_type_from_string, h]
  · intro fill_node hnone hattr hne hs
    have hchild : (child fill_node "gradientFill").isSome = true := by
      cases hc : child fill_node "gradientFill" with
      | none => rw [hc] at hattr; simp [xml_attribute] at hattr
      | some _ => rfl
    have h := map_at_eq_none get_string_gradient_fill_type_map (string_lower s) hs
    have hne' : s.isEmpty = false := string_isEmpty_false s hne
    simp [read_fill, hnone, hchild, hattr, value, hne', gradient_fill_type_from_string, h]
  · intro alignment_node hattr hs
    have h := map_at_eq_none get_string_vertical_alignment_map (string_lower s) hs
    simp [read_alignment, hattr, value, vertical_alignment_from_string, h]
  · intro alignment_node hattr hs
    have h := map_at_eq_none get_string_horizontal_alignment_map (string_lower s) hs
    simp only [read_alignment, hattr, value, horizontal_alignment_from_string, h]
    cases hv : xml_attribute alignment_node "vertical" with
    | none => simp [h]
    | some v =>
      cases hvv : vertical_alignment_from_string v <;> simp [hvv, h]

/-- C5, at concrete inputs: an unknown border style, an unknown pattern type, an
unknown gradient type and unknown alignment keywords. -/
theorem unknown_enum_keyword_fails_witness :
    border_style_from_string "wavy" = none
    ∧ read_border example_library
        (some (.mk "border" [] [.mk "left" [("style", "wavy")] []])) = none
    ∧ read_fill example_library
        (some (.mk "fill" [] [.mk "patternFill" [("patternType", "wavy")] []])) = none
    ∧ read_fill example_library
        (some (.mk "fill" [] [.mk "gradientFill" [("type", "wavy")] []])) = none
    ∧ read_alignment (some (.mk "alignment" [("vertical", "wavy")] [])) = none
    ∧ read_alignment (some (.mk "alignment" [("horizontal", "wavy")] [])) = none :=
  have h := unknown_enum_keyword_fails example_library "wavy"
  ⟨h.1 (by decide),
    h.2.2.2.2.2.1 _ .left "left" (by decide) (by decide) (by decide),
    h.2.2.2.2.2.2.1 _ (by decide) (by decide) (by decide),
    h.2.2.2.2.2.2.2.1 _ rfl (by decide) (by decide) (by decide),
    h.2.2.2.2.2.2.2.2.1 _ (by decide) (by decide),
    h.2.2.2.2.2.2.2.2.2 _ (by decide) (by decide)⟩

/-! ## Colors -/

/-- C6. Color decode precedence: on a color element without an `auto` attribute,
`read_color` gives the rgb color of the `rgb` attribute whenever there is one, else the
theme color of the `theme` attribute, else the indexed color of the `indexed`
attribute, else the default color; the theme and indexed values are parsed as
unsigned integers, and the tint is that of the `tint` attribute. -/
theorem read_color_precedence {D : Type} (lib : library D) (color_node : node_handle)
    (hauto : xml_attribute color_node "auto" = none) :
    (∀ v, xml_attribute color_node "rgb" = some v →
      read_color lib color_node
        = some ⟨.rgb v, (xml_attribute color_node "tint").map lib.as_double⟩)
    ∧ (∀ v, xml_attribute color_node "rgb" = none →
        xml_attribute color_node "theme" = some v →
        read_color lib color_node
          = (string_to_size_t v).map (fun index =>
              ⟨.theme index, (xml_attribute color_node "tint").map lib.as_double⟩))
    ∧ (∀ v, xml_attribute color_node "rgb" = none →
        xml_attribute color_node "theme" = none →
        xml_attribute color_node "indexed" = some v →
        read_color lib color_node
          = (string_to_size_t v).map (fun index =>
              ⟨.indexed index, (xml_attribute color_node "tint").map lib.as_double⟩))
    ∧ (xml_attribute color_node "rgb" = none →
        xml_attribute color_node "theme" = none →
        xml_attribute color_node "indexed" = none →
        read_color lib color_node
          = some { (color.default : color D) with
                     tint := (xml_attribute color_node "tint").map lib.as_double }) := by
  unfold read_color
  rw [hauto]
  refine ⟨?_, ?_, ?_, ?_⟩
  · intro v hr
    cases htint : xml_attribute color_node "tint" <;>
      simp [hr, htint, value, rgb_color, color.set_tint]
  · intro v hr ht
    cases htint : xml_attribute color_node "tint" <;>
      cases hp : string_to_size_t v <;>
      simp [hr, ht, hp, htint, value, theme_color, color.set_tint]
  · intro v hr ht hi
    cases htint : xml_attribute color_node "tint" <;>
      cases hp : string_to_size_t v <;>
      simp [hr, ht, hi, hp, htint, value, indexed_color, color.set_tint]
  · intro hr ht hi
    cases htint : xml_attribute color_node "tint" <;>
      simp [hr, ht, hi, htint, value, color.default, color.set_tint]

/-- C6, at a concrete input: an element with `theme`, `rgb` and `indexed` decodes to
the rgb color. -/
theorem read_color_precedence_witness :
    read_color example_library
        (some (.mk "color" [("theme", "4"), ("rgb", "FF00FF00"), ("indexed", "2")] []))
      = some ⟨.rgb "FF00FF00", none⟩ :=
  (read_color_precedence example_library
    (some (.mk "color" [("theme", "4"), ("rgb", "FF00FF00"), ("indexed", "2")] []))
    (by decide)).1 "FF00FF00" (by decide)

/-- C7. Automatic short-circuit: a color element with an `auto` attribute decodes to
the default (automatic) color whatever else it carries, so two such elements decode to
the same color. -/
theorem read_color_automatic {D : Type} (lib : library D) (color_node : node_handle)
    (hauto : (xml_attribute color_node "auto").isSome = true) :
    read_color lib color_node = some color.default
    ∧ ∀ other : node_handle, (xml_attribute other "auto").isSome = true →
        read_color lib other = read_color lib color_node := by
  have h : ∀ n : node_handle, (xml_attribute n "auto").isSome = true →
      read_color lib n = some color.default := by
    intro n hn
    simp [read_color, hn]
  exact ⟨h _ hauto, fun other ho => (h _ ho).trans (h _ hauto).symm⟩

/-- C7, at a concrete input: `auto` next to `rgb` and `tint`. -/
theorem read_color_automatic_witness :
    read_color example_library
        (some (.mk "color" [("rgb", "FF00FF00"), ("auto", "1"), ("tint", "0.5")] []))
      = some ⟨.automatic, none⟩ :=
  (read_color_automatic example_library
    (some (.mk "color" [("rgb", "FF00FF00"), ("auto", "1"), ("tint", "0.5")] []))
    (by decide)).1

/-! ## Base formats -/

/-- C8. Registry index lookups: an absent `borderId`, `fillId` or `fontId` counts as
index 0; a decoded format has the registry entries at the three indices as its border,
fill and font; any of the three indices at or beyond the length of its registry makes
the decoding fail; and with the three indices in range, a readable `numFmtId` and a
readable inline alignment the decoding succeeds with these entries. -/
theorem read_base_format_registry_lookups {D : Type} (lib : library D)
    (format_node : node_handle) (ss : stylesheet D) (f0 : base_format D) :
    (∀ key, xml_attribute format_node key = none → read_index format_node key = some 0)
    ∧ (∀ f, read_base_format lib format_node ss f0 = some f →
        ∃ border_index fill_index font_index,
          read_index format_node "borderId" = some border_index
          ∧ read_index format_node "fillId" = some fill_index
          ∧ read_index format_node "fontId" = some font_index
          ∧ ss.borders[border_index]? = some f.border
          ∧ ss.fills[fill_index]? = some f.fill
          ∧ ss.fonts[font_index]? = some f.font)
    ∧ (∀ border_index, read_index format_node "borderId" = some border_index →
        ss.borders.length ≤ border_index → read_base_format lib format_node ss f0 = none)
    ∧ (∀ fill_index, read_index format_node "fillId" = some fill_index →
        ss.fills.length ≤ fill_index → read_base_format lib format_node ss f0 = none)
    ∧ (∀ font_index, read_index format_node "fontId" = some font_index →
        ss.fonts.length ≤ font_index → read_base_format lib format_node ss f0 = none)
    ∧ (∀ border_index fill_index font_index,
        read_index format_node "borderId" = some border_index →
        read_index format_node "fillId" = some fill_index →
        read_index format_node "fontId" = some font_index →
        border_index < ss.borders.length → fill_index < ss.fills.length →
        font_index < ss.fonts.length →
        (string_to_size_t (value (xml_attribute format_node "numFmtId"))).isSome = true →
        (child format_node "alignment" = none ∨
          (read_alignment (child format_node "alignment")).isSome = true) →
        ∃ f, read_base_format lib format_node ss f0 = some f
          ∧ ss.borders[border_index]? = some f.border
          ∧ ss.fills[fill_index]? = some f.fill
          ∧ ss.fonts[font_index]? = some f.font) := by
  have hfail : ∀ f, read_base_format lib format_node ss f0 = some f →
      ∃ bi fi foi, read_index format_node "borderId" = some bi
        ∧ read_index format_node "fillId" = some fi
        ∧ read_index format_node "fontId" = some foi
        ∧ ss.borders[bi]? = some f.border ∧ ss.fills[fi]? = some f.fill
        ∧ ss.fonts[foi]? = some f.font := by
    intro f hf
    obtain ⟨al, bi, b, fi, fl, foi, fo, id, -, hbi, hb, hfi, hfl, hfoi, hfo, -, rfl⟩ :=
      (read_base_format_eq_some lib format_node ss f0 f).1 hf
    exact ⟨bi, fi, foi, hbi, hfi, hfoi, hb, hfl, hfo⟩
  refine ⟨?_, hfail, ?_, ?_, ?_, ?_⟩
  · intro key h
    simp [read_index, h]
  · intro border_index hbi hlen
    cases hr : read_base_format lib format_node ss f0 with
    | none => rfl
    | some f =>
      obtain ⟨bi, fi, foi, hbi', -, -, hb, -, -⟩ := hfail f hr
      rw [hbi] at hbi'; cases hbi'
      rw [List.getElem?_eq_none hlen] at hb; cases hb
  · intro fill_index hfi hlen
    cases hr : read_base_format lib format_node ss f0 with
    | none => rfl
    | some f =>
      obtain ⟨bi, fi, foi, -, hfi', -, -, hfl, -⟩ := hfail f hr
      rw [hfi] at hfi'; cases hfi'
      rw [List.getElem?_eq_none hlen] at hfl; cases hfl
  · intro font_index hfoi hlen
    cases hr : read_base_format lib format_node ss f0 with
    | none => rfl
    | some f =>
      obtain ⟨bi, fi, foi, -, -, hfoi', -, -, hfo⟩ := hfail f hr
      rw [hfoi] at hfoi'; cases hfoi'
      rw [List.getElem?_eq_none hlen] at hfo; cases hfo
  · intro border_index fill_index font_index hbi hfi hfoi hb hfl hfo hid hal
    obtain ⟨id, hid⟩ := Option.isSome_iff_exists.1 hid
    obtain ⟨f, hf, h1, h2, h3, -⟩ := read_base_format_succeeds lib format_node ss f0
      border_index fill_index font_index id hbi hfi hfoi hb hfl hfo hid hal
    exact ⟨f, hf, h1, h2, h3⟩

/-- C8, at concrete inputs: `fontId` 1 of two fonts is decoded, `fontId` 2 fails, and
so does an absent `borderId` against an empty border registry. -/
theorem read_base_format_registry_lookups_witness :
    (∃ f, read_base_format example_library (some (example_xf "0" "1")) example_registry
        base_format.default = some f ∧ example_registry.fonts[1]? = some f.font)
    ∧ read_base_format example_library (some (example_xf "0" "2")) example_registry
        base_format.default = none
    ∧ read_base_format example_library (some (example_xf "0" "0"))
        { example_registry with borders := [] } base_format.default = none :=
  ⟨((read_base_format_registry_lookups example_library (some (example_xf "0" "1"))
      example_registry base_format.default).2.2.2.2.2 0 0 1 (by decide) (by decide)
      (by decide) (by decide) (by decide) (by decide) (by decide) (Or.inl rfl)).imp
      (fun _ hf => ⟨hf.1, hf.2.2.2⟩),
    (read_base_format_registry_lookups example_library (some (example_xf "0" "2"))
      example_registry base_format.default).2.2.2.2.1 2 (by decide) (by decide),
    (read_base_format_registry_lookups example_library (some (example_xf "0" "0"))
      { example_registry with borders := [] } base_format.default).2.2.1 0 (by decide)
      (by decide)⟩

/-- C9. A registered number format overrides the builtin catalog: when `numFmtId` is
the id of a registry entry, the decoded number format is the first registry entry of
that id, for every id, and the result does not depend on the builtin catalog. -/
theorem registered_number_format_overrides_builtin {D : Type} (lib : library D)
    (format_node : node_handle) (ss : stylesheet D) (f0 : base_format D) (id : Nat)
    (before after : List number_format) (nf : number_format)
    (hid : string_to_size_t (value (xml_attribute format_node "numFmtId")) = some id)
    (hreg : ss.number_formats = before ++ nf :: after) (hnf : nf.id = id)
    (hfirst : ∀ x ∈ before, x.id ≠ id) :
    (∀ f, read_base_format lib format_node ss f0 = some f → f.number_format = nf)
    ∧ (∀ other : library D,
        read_base_format other format_node ss f0 = read_base_format lib format_node ss f0) := by
  have hres : ∀ l : library D, resolve_number_format l ss.number_formats id = nf := by
    intro l
    have hfind : ss.number_formats.find? (fun num_fmt => num_fmt.id == id) = some nf := by
      rw [hreg, List.find?_append]
      have hb : before.find? (fun num_fmt => num_fmt.id == id) = none := by
        rw [List.find?_eq_none]
        intro x hx
        simpa using hfirst x hx
      simp [hb, hnf]
    simp [resolve_number_format, hfind]
  have hsome : ∀ (l : library D) (f : base_format D),
      read_base_format l format_node ss f0 = some f →
        f.number_format = nf ∧ ∀ l' : library D, read_base_format l' format_node ss f0 = some f := by
    intro l f hf
    obtain ⟨al, bi, b, fi, fl, foi, fo, id', hal, hbi, hb, hfi, hfl, hfoi, hfo, hid', rfl⟩ :=
      (read_base_format_eq_some l format_node ss f0 f).1 hf
    rw [hid] at hid'; cases hid'
    refine ⟨hres l, fun l' => ?_⟩
    refine (read_base_format_eq_some l' format_node ss f0 _).2
      ⟨al, bi, b, fi, fl, foi, fo, id, hal, hbi, hb, hfi, hfl, hfoi, hfo, hid, ?_⟩
    rw [hres l, hres l']
  refine ⟨fun f hf => (hsome lib f hf).1, fun other => ?_⟩
  cases ho : read_base_format other format_node ss f0 with
  | some f => exact ((hsome other f ho).2 lib).symm
  | none =>
    cases hl : read_base_format lib format_node ss f0 with
    | none => rfl
    | some f => rw [(hsome lib f hl).2 other] at ho; cases ho

/-- C9, at a concrete input: id 14 is a builtin id, the registry holds two formats of
id 14, and the decoded format is the first of them. -/
theorem registered_number_format_overrides_builtin_witness :
    example_library.from_builtin_id 14 = some ⟨14, "mm-dd-yy"⟩
    ∧ ∃ f, read_base_format example_library (some (example_xf "14" "1")) example_registry
        base_format.default = some f ∧ f.number_format = ⟨14, "yyyy"⟩ :=
  ⟨rfl,
    (Option.isSome_iff_exists.1 (by decide :
      (read_base_format example_library (some (example_xf "14" "1")) example_registry
        base_format.default).isSome = true)).imp
      (fun f hf =>
        ⟨hf, (registered_number_format_overrides_builtin example_library
          (some (example_xf "14" "1")) example_registry base_format.default 14
          [⟨164, "0.000"⟩] [⟨14, "dd"⟩] ⟨14, "yyyy"⟩ (by decide) rfl rfl (by decide)).1 f hf⟩)⟩

/-- C10. Builtin fallback: when `numFmtId` matches no registry entry, a failing
builtin resolution does not make `read_base_format` fail (it succeeds whenever it
succeeds with any other catalog, and whenever the three registry indices are in range
and the inline alignment is readable) and the decoded number format is General; a
succeeding builtin resolution gives the builtin format. -/
theorem builtin_number_format_fallback {D : Type} (lib : library D)
    (format_node : node_handle) (ss : stylesheet D) (f0 : base_format D) (id : Nat)
    (hid : string_to_size_t (value (xml_attribute format_node "numFmtId")) = some id)
    (hreg : ∀ x ∈ ss.number_formats, x.id ≠ id) :
    (lib.from_builtin_id id = none →
      ∀ (other : library D) (f : base_format D),
        read_base_format other format_node ss f0 = some f →
        read_base_format lib format_node ss f0
          = some { f with number_format := number_format.general })
    ∧ (∀ nf, lib.from_builtin_id id = some nf →
      ∀ (other : library D) (f : base_format D),
        read_base_format other format_node ss f0 = some f →
        read_base_format lib format_node ss f0 = some { f with number_format := nf })
    ∧ (∀ border_index fill_index font_index,
        read_index format_node "borderId" = some border_index →
        read_index format_node "fillId" = some fill_index →
        read_index format_node "fontId" = some font_index →
        border_index < ss.borders.length → fill_index < ss.fills.length →
        font_index < ss.fonts.length →
        (child format_node "alignment" = none ∨
          (read_alignment (child format_node "alignment")).isSome = true) →
        ∃ f, read_base_format lib format_node ss f0 = some f
          ∧ f.number_format = (lib.from_builtin_id id).getD number_format.general) := by
  have hfind : ss.number_formats.find? (fun num_fmt => num_fmt.id == id) = none := by
    rw [List.find?_eq_none]
    intro x hx
    simpa using hreg x hx
  have key : ∀ (other : library D) (f : base_format D),
      read_base_format other format_node ss f0 = some f →
      read_base_format lib format_node ss f0
        = some { f with number_format := resolve_number_format lib ss.number_formats id } := by
    intro other f hf
    obtain ⟨al, bi, b, fi, fl, foi, fo, id', hal, hbi, hb, hfi, hfl, hfoi, hfo, hid', rfl⟩ :=
      (read_base_format_eq_some other format_node ss f0 f).1 hf
    rw [hid] at hid'; cases hid'
    exact (read_base_format_eq_some lib format_node ss f0 _).2
      ⟨al, bi, b, fi, fl, foi, fo, id, hal, hbi, hb, hfi, hfl, hfoi, hfo, hid, rfl⟩
  refine ⟨?_, ?_, ?_⟩
  · intro hnone other f hf
    rw [key other f hf]
    simp [resolve_number_format, hfind, hnone]
  · intro nf hsome other f hf
    rw [key other f hf]
    simp [resolve_number_format, hfind, hsome]
  · intro border_index fill_index font_index hbi hfi hfoi hb hfl hfo hal
    obtain ⟨f, hf, -, -, -, hnf⟩ := read_base_format_succeeds lib format_node ss f0
      border_index fill_index font_index id hbi hfi hfoi hb hfl hfo hid hal
    refine ⟨f, hf, ?_⟩
    rw [hnf]
    cases hb : lib.from_builtin_id id <;> simp [resolve_number_format, hfind, hb]

/-- C10, at concrete inputs: id 200 is unknown to the catalog and decodes to General;
id 14 without a registry entry decodes to the builtin format. -/
theorem builtin_number_format_fallback_witness :
    (∃ f, read_base_format example_library (some (example_xf "200" "1")) example_registry
        base_format.default = some f ∧ f.number_format = number_format.general)
    ∧ (∃ f, read_base_format example_library (some (example_xf "14" "1"))
        { example_registry with number_formats := [] } base_format.default = some f
        ∧ f.number_format = ⟨14, "mm-dd-yy"⟩) :=
  ⟨(builtin_number_format_fallback example_library (some (example_xf "200" "1"))
      example_registry base_format.default 200 (by decide) (by decide)).2.2 0 0 1 (by decide)
      (by decide) (by decide) (by decide) (by decide) (by decide) (Or.inl rfl),
    (builtin_number_format_fallback example_library (some (example_xf "14" "1"))
      { example_registry with number_formats := [] } base_format.default 14 (by decide)
      (by decide)).2.2 0 0 1 (by decide) (by decide) (by decide) (by decide) (by decide)
      (by decide) (Or.inl rfl)⟩

/-! ## Applied flags -/

/-- What `read_alignment` returns when it returns: the two flags are `is_true` of their
attributes, and each keyword attribute, when present, is decoded by its codec. -/
theorem read_alignment_eq_some (alignment_node : node_handle) (a : alignment)
    (h : read_alignment alignment_node = some a) :
    a.wrap_text = is_true (value (xml_attribute alignment_node "wrapText"))
    ∧ a.shrink_to_fit = is_true (value (xml_attribute alignment_node "shrinkToFit"))
    ∧ (xml_attribute alignment_node "vertical").bind vertical_alignment_from_string = a.vertical
    ∧ ((xml_attribute alignment_node "vertical").isSome = true → a.vertical.isSome = true)
    ∧ (xml_attribute alignment_node "horizontal").bind horizontal_alignment_from_string
        = a.horizontal
    ∧ ((xml_attribute alignment_node "horizontal").isSome = true →
        a.horizontal.isSome = true) := by
  unfold read_alignment at h
  cases hv : xml_attribute alignment_node "vertical" with
  | none =>
    cases hh : xml_attribute alignment_node "horizontal" with
    | none =>
      simp [hv, hh, alignment.default] at h
      subst h
      simp
    | some s =>
      cases hs : horizontal_alignment_from_string s with
      | none => simp [hv, hh, hs, value] at h
      | some e =>
        simp [hv, hh, hs, value, alignment.default] at h
        subst h
        simp [hs, value]
  | some v =>
    cases hve : vertical_alignment_from_string v with
    | none => simp [hv, hve, value] at h
    | some ev =>
      cases hh : xml_attribute alignment_node "horizontal" with
      | none =>
        simp [hv, hve, hh, value, alignment.default] at h
        subst h
        simp [hve, value]
      | some s =>
        cases hs : horizontal_alignment_from_string s with
        | none => simp [hv, hve, hh, hs, value] at h
        | some e =>
          simp [hv, hve, hh, hs, value, alignment.default] at h
          subst h
          simp [hs, hve, value]

/-- C14, on the code: `read_base_format` sets `protection_applied` from an attribute
named `protection` or from `applyProtection`; an `xf` with an inline protection child
(locked and hidden) and no `applyProtection` decodes with `protection_applied` false
and the default protection. -/
theorem protection_applied_ignores_inline_element {D : Type} (lib : library D) :
    (∀ (format_node : node_handle) (ss : stylesheet D) (f0 f : base_format D),
      read_base_format lib format_node ss f0 = some f →
      f.protection_applied = ((xml_attribute format_node "protection").isSome
        || is_true (value (xml_attribute format_node "applyProtection"))))
    ∧ (child (some protected_xf) "protection").isSome = true
    ∧ read_protection (child (some protected_xf) "protection") = ⟨true, true⟩
    ∧ ∃ f, read_base_format lib (some protected_xf) header_stylesheet base_format.default
        = some f ∧ f.protection_applied = false ∧ f.protection = ⟨false, false⟩ := by
  refine ⟨?_, rfl, by decide, ?_⟩
  · intro format_node ss f0 f hf
    obtain ⟨al, bi, b, fi, fl, foi, fo, id, -, -, -, -, -, -, -, -, rfl⟩ :=
      (read_base_format_eq_some lib format_node ss f0 f).1 hf
    rfl
  · refine ⟨_, (read_base_format_eq_some lib (some protected_xf) header_stylesheet
      base_format.default _).2 ⟨alignment.default, 0, border.default, 0, fill.default, 0,
        header_font, 0, rfl, rfl, rfl, rfl, rfl, rfl, rfl, by decide, rfl⟩, ?_, ?_⟩
    · rfl
    · rfl

/-- C15. Alignment applied flag: `alignment_applied` is true exactly when the `xf` has
an inline `alignment` child or `applyAlignment` is true; when applied, the alignment is
what `read_alignment` decodes from the inline element (wrapText, shrinkToFit, optional
vertical and horizontal), whatever the registries are; when not applied, the alignment
keeps the value the format had, the default of a new format. -/
theorem alignment_applied_flag {D : Type} (lib : library D) (format_node : node_handle)
    (ss : stylesheet D) (f0 f : base_format D)
    (h : read_base_format lib format_node ss f0 = some f) :
    (f.alignment_applied = true ↔
      ((child format_node "alignment").isSome = true
        ∨ is_true (value (xml_attribute format_node "applyAlignment")) = true))
    ∧ (f.alignment_applied = true →
        read_alignment (child format_node "alignment") = some f.alignment
        ∧ f.alignment.wrap_text
            = is_true (value (xml_attribute (child format_node "alignment") "wrapText"))
        ∧ f.alignment.shrink_to_fit
            = is_true (value (xml_attribute (child format_node "alignment") "shrinkToFit"))
        ∧ f.alignment.vertical
            = (xml_attribute (child format_node "alignment") "vertical").bind
                vertical_alignment_from_string
        ∧ f.alignment.horizontal
            = (xml_attribute (child format_node "alignment") "horizontal").bind
                horizontal_alignment_from_string)
    ∧ (f.alignment_applied = false → f.alignment = f0.alignment)
    ∧ (∀ (other : library D) (registry : stylesheet D) (g : base_format D),
        read_base_format other format_node registry f0 = some g →
        g.alignment = f.alignment ∧ g.alignment_applied = f.alignment_applied) := by
  obtain ⟨al, bi, b, fi, fl, foi, fo, id, hal, -, -, -, -, -, -, -, rfl⟩ :=
    (read_base_format_eq_some lib format_node ss f0 f).1 h
  refine ⟨by simp, ?_, ?_, ?_⟩
  · intro happ
    simp only at happ
    rw [if_pos happ] at hal
    obtain ⟨h1, h2, h3, -, h5, -⟩ := read_alignment_eq_some _ _ hal
    exact ⟨hal, h1, h2, h3.symm, h5.symm⟩
  · intro happ
    simp only at happ
    rw [if_neg (by simp [happ])] at hal
    exact (Option.some.inj hal).symm
  · intro other registry g hg
    obtain ⟨al', bi', b', fi', fl', foi', fo', id', hal', -, -, -, -, -, -, -, rfl⟩ :=
      (read_base_format_eq_some other format_node registry f0 g).1 hg
    rw [hal] at hal'
    exact ⟨(Option.some.inj hal').symm, rfl⟩

/-- C15, at a concrete input: an inline alignment without `applyAlignment`. -/
theorem alignment_applied_flag_witness :
    ∃ f, read_base_format example_library (some aligned_xf) example_registry
        base_format.default = some f
      ∧ f.alignment_applied = true
      ∧ f.alignment = ⟨none, some .center, true, false⟩ :=
  (Option.isSome_iff_exists.1 (by decide :
    (read_base_format example_library (some aligned_xf) example_registry
      base_format.default).isSome = true)).imp
    (fun f hf =>
      have h := alignment_applied_flag example_library (some aligned_xf) example_registry
        base_format.default f hf
      have happ : f.alignment_applied = true := h.1.2 (Or.inl rfl)
      ⟨hf, happ, Option.some.inj ((h.2.1 happ).1.symm.trans (by decide))⟩)

/-! ## Markup lookups -/

/-- Appending an attribute of another name does not change a lookup. -/
theorem xml_attribute_append_attribute_ne (n : xml_node) (k v key : String) (h : k ≠ key) :
    xml_attribute (some (n.append_attribute k v)) key = xml_attribute (some n) key := by
  cases n with
  | mk nm attrs cs =>
    simp only [xml_attribute, xml_node.append_attribute, xml_node.attributes, xml_node.name,
      xml_node.child_nodes, List.find?_append]
    cases hfind : List.find? (fun p => p.1 == key) attrs with
    | some p => simp
    | none => simp [h]

/-- Appending an attribute whose name the element does not have yet makes it the
attribute found under that name. -/
theorem xml_attribute_append_attribute_self (n : xml_node) (k v : String)
    (h : xml_attribute (some n) k = none) :
    xml_attribute (some (n.append_attribute k v)) k = some v := by
  cases n with
  | mk nm attrs cs =>
    simp only [xml_attribute, xml_node.append_attribute, xml_node.attributes, xml_node.name,
      xml_node.child_nodes, List.find?_append] at h ⊢
    cases hfind : List.find? (fun p => p.1 == k) attrs with
    | some p => simp [hfind] at h
    | none => simp

/-- A conditional append of an attribute of another name does not change a lookup. -/
theorem xml_attribute_ite_append_attribute_ne (c : Prop) [Decidable c] (n : xml_node)
    (k v key : String) (h : k ≠ key) :
    xml_attribute (some (if c then n.append_attribute k v else n)) key
      = xml_attribute (some n) key := by
  split
  · exact xml_attribute_append_attribute_ne n k v key h
  · rfl

/-- Appending a child does not change the attributes. -/
theorem xml_attribute_append_child (n c : xml_node) (key : String) :
    xml_attribute (some (n.append_child c)) key = xml_attribute (some n) key := by
  cases n; rfl

/-- Appending an attribute keeps the name of the element. -/
theorem name_append_attribute (n : xml_node) (k v : String) :
    (n.append_attribute k v).name = n.name := by
  cases n; rfl

/-- Appending a child keeps the name of the element. -/
theorem name_append_child (n c : xml_node) : (n.append_child c).name = n.name := by
  cases n; rfl

/-- A conditional append of an attribute keeps the name of the element. -/
theorem name_ite_append_attribute (c : Prop) [Decidable c] (n : xml_node) (k v : String) :
    (if c then n.append_attribute k v else n).name = n.name := by
  split
  · exact name_append_attribute n k v
  · rfl

/-- A loop that appends children keeps the name of the element. -/
theorem foldl_append_child_name {α : Type} (g : α → xml_node) :
    ∀ (l : List α) (init : xml_node),
      (l.foldl (fun node x => node.append_child (g x)) init).name = init.name := by
  intro l
  induction l with
  | nil => intro init; rfl
  | cons a t ih => intro init; rw [List.foldl_cons, ih, name_append_child]

/-- A loop that appends children keeps the attributes of the element. -/
theorem foldl_append_child_attribute {α : Type} (g : α → xml_node) (key : String) :
    ∀ (l : List α) (init : xml_node),
      xml_attribute (some (l.foldl (fun node x => node.append_child (g x)) init)) key
        = xml_attribute (some init) key := by
  intro l
  induction l with
  | nil => intro init; rfl
  | cons a t ih => intro init; rw [List.foldl_cons, ih, xml_attribute_append_child]

/-! ## Gradient fills -/

/-- The keyword `gradient_fill_type_to_string` writes. -/
theorem gradient_fill_type_to_string_eq (t : gradient_fill_type) :
    gradient_fill_type_to_string t
      = some (match t with | .linear => "linear" | .path => "path") := by
  cases t <;> rfl

/-- The `gradientFill` element of a gradient fill: it is written, it carries the type
under `gradientType` and it has no attribute named `type`. -/
theorem write_gradient_fill_spec {D : Type} [DecidableEq D] (lib : library D)
    (g : gradient_fill D) :
    ∃ node, write_gradient_fill lib g = some node ∧ node.name = "gradientFill"
      ∧ xml_attribute (some node) "type" = none
      ∧ xml_attribute (some node) "gradientType" = gradient_fill_type_to_string g.type := by
  unfold write_gradient_fill
  rw [gradient_fill_type_to_string_eq]
  refine ⟨_, rfl, ?_, ?_, ?_⟩
  · simp only [foldl_append_child_name, name_ite_append_attribute, name_append_attribute]
    rfl
  · simp only [foldl_append_child_attribute]
    rw [xml_attribute_ite_append_attribute_ne _ _ _ _ _ (by decide),
      xml_attribute_ite_append_attribute_ne _ _ _ _ _ (by decide),
      xml_attribute_ite_append_attribute_ne _ _ _ _ _ (by decide),
      xml_attribute_ite_append_attribute_ne _ _ _ _ _ (by decide),
      xml_attribute_ite_append_attribute_ne _ _ _ _ _ (by decide),
      xml_attribute_append_attribute_ne _ _ _ _ (by decide)]
    rfl
  · simp only [foldl_append_child_attribute]
    rw [xml_attribute_ite_append_attribute_ne _ _ _ _ _ (by decide),
      xml_attribute_ite_append_attribute_ne _ _ _ _ _ (by decide),
      xml_attribute_ite_append_attribute_ne _ _ _ _ _ (by decide),
      xml_attribute_ite_append_attribute_ne _ _ _ _ _ (by decide),
      xml_attribute_ite_append_attribute_ne _ _ _ _ _ (by decide),
      xml_attribute_append_attribute_self (new_node "gradientFill") _ _ rfl]

/-- Reading the `fill` element written for a gradient fill: whatever the type of the
fill, the fill read back is a gradient of type linear. -/
theorem write_fill_gradient_read_back {D : Type} [DecidableEq D] (lib : library D)
    (g : gradient_fill D) :
    ∃ node, write_fill lib (.gradient g) = some node
      ∧ xml_attribute (child (some node) "gradientFill") "gradientType"
          = gradient_fill_type_to_string g.type
      ∧ xml_attribute (child (some node) "gradientFill") "type" = none
      ∧ ∀ f, read_fill lib (some node) = some f → ∃ g', f = .gradient g' ∧ g'.type = .linear := by
  obtain ⟨gn, hgn, hname, htype, hgt⟩ := write_gradient_fill_spec lib g
  have hchild_p : child (some ((new_node "fill").append_child gn)) "patternFill" = none := by
    simp [child, show ((new_node "fill").append_child gn).child_nodes = [gn] from rfl, hname]
  have hchild_g : child (some ((new_node "fill").append_child gn)) "gradientFill" = some gn := by
    simp [child, show ((new_node "fill").append_child gn).child_nodes = [gn] from rfl, hname]
  refine ⟨(new_node "fill").append_child gn, by simp [write_fill, hgn], ?_, ?_, ?_⟩
  · rw [hchild_g, hgt]
  · rw [hchild_g, htype]
  · intro f hf
    unfold read_fill at hf
    simp only [hchild_p, hchild_g, htype, value, Option.isSome_none, Option.isSome_some,
      Bool.false_eq_true, if_false, if_true, Option.getD_none] at hf
    cases hs : read_stops lib (some gn) with
    | none => simp [hs] at hf
    | some stops =>
      simp [hs, fill.of_gradient, fill.add_stops, (by decide : "".isEmpty = true)] at hf
      exact ⟨_, hf.symm, rfl⟩

/-- C19, on the code: for every gradient fill the element `write_fills` emits carries
the type under `gradientType` and has no `type` attribute, so `read_fill` reads it back
as a linear gradient; the fill of type path comes back as the fill of type linear. -/
theorem gradient_type_not_read_back {D : Type} [DecidableEq D] (lib : library D) :
    (∀ g : gradient_fill D, ∃ node, write_fill lib (.gradient g) = some node
      ∧ xml_attribute (child (some node) "gradientFill") "gradientType"
          = gradient_fill_type_to_string g.type
      ∧ xml_attribute (child (some node) "gradientFill") "type" = none
      ∧ ∀ f, read_fill lib (some node) = some f →
          ∃ g', f = .gradient g' ∧ g'.type = .linear)
    ∧ ∃ node, write_fill lib (fill.of_gradient lib .path) = some node
        ∧ read_fill lib (some node) = some (fill.of_gradient lib .linear) := by
  refine ⟨write_fill_gradient_read_back lib, ?_⟩
  refine ⟨.mk "fill" [] [.mk "gradientFill" [("gradientType", "path")] []], ?_, ?_⟩
  · simp [write_fill, write_gradient_fill, fill.of_gradient, new_node,
      xml_node.append_child, xml_node.append_attribute, xml_node.name, xml_node.attributes,
      xml_node.child_nodes, (by decide : gradient_fill_type_to_string .path = some "path")]
  · simp [read_fill, read_stops, read_each, child, children_named, children, xml_attribute,
      value, xml_node.name, xml_node.attributes, xml_node.child_nodes, fill.of_gradient,
      fill.add_stops, (by decide : "".isEmpty = true)]

/-! ## Styles and formats -/

/-- Looking up a key after the value of a key was replaced. -/
theorem map_at_map_replace (m : List (Nat × String)) (k k' : Nat) (v : String) :
    map_at (m.map (fun p => if p.1 == k then (p.1, v) else p)) k'
      = if k' = k then (map_at m k').map (fun _ => v) else map_at m k' := by
  have hcomp : ((fun p : Nat × String => p.1 == k')
      ∘ fun p : Nat × String => if p.1 == k then (p.1, v) else p)
      = fun p => p.1 == k' := by
    funext p
    simp only [Function.comp]
    split <;> rfl
  simp only [map_at, List.find?_map, hcomp]
  cases h : List.find? (fun p : Nat × String => p.1 == k') m with
  | none => simp
  | some p =>
    have hp : p.1 = k' := by simpa using List.find?_some h
    by_cases hkk : k' = k
    · simp [hkk, hp ▸ hkk]
    · have : ¬ p.1 = k := hp ▸ hkk
      simp [hkk, this]

/-- Looking up a key after an entry was appended. -/
theorem map_at_append_single (m : List (Nat × String)) (k k' : Nat) (v : String) :
    map_at (m ++ [(k, v)]) k'
      = match map_at m k' with
        | some w => some w
        | none => if k' = k then some v else none := by
  simp only [map_at, List.find?_append]
  cases h : List.find? (fun p => p.1 == k') m with
  | some p => simp
  | none =>
    by_cases hkk : k' = k
    · simp [hkk]
    · have : ¬ k = k' := fun h => hkk h.symm
      simp [hkk, this]

/-- A map has an entry for a key exactly when the lookup succeeds. -/
theorem any_key_iff (m : List (Nat × String)) (k : Nat) :
    m.any (fun p => p.1 == k) = (map_at m k).isSome := by
  induction m with
  | nil => rfl
  | cons a t ih =>
    simp only [map_at] at ih ⊢
    rw [List.any_cons, List.find?_cons, ih]
    cases a.1 == k <;> simp

/-- Looking up a key after `map[key] = value`. -/
theorem map_at_map_assign (m : List (Nat × String)) (k k' : Nat) (v : String) :
    map_at (map_assign m k v) k' = if k' = k then some v else map_at m k' := by
  unfold map_assign
  by_cases hany : m.any (fun p => p.1 == k) = true
  · rw [if_pos hany, map_at_map_replace]
    by_cases hkk : k' = k
    · subst hkk
      rw [any_key_iff] at hany
      obtain ⟨w, hw⟩ := Option.isSome_iff_exists.1 hany
      simp [hw]
    · simp [hkk]
  · rw [if_neg hany, map_at_append_single]
    rw [any_key_iff] at hany
    by_cases hkk : k' = k
    · subst hkk
      cases hm : map_at m k' with
      | none => simp
      | some w => simp [hm] at hany
    · cases hm : map_at m k' <;> simp [hkk]

/-- A loop of reads that returns has read every element, in order. -/
theorem read_each_eq_some {α β : Type} (read : α → Option β) :
    ∀ (l : List α) (r : List β), read_each read l = some r →
      List.Forall₂ (fun a b => read a = some b) l r := by
  intro l
  induction l with
  | nil =>
    intro r h
    simp [read_each] at h
    subst h
    exact List.Forall₂.nil
  | cons a t ih =>
    intro r h
    unfold read_each at h
    cases ha : read a with
    | none => simp [ha] at h
    | some b =>
      cases ht : read_each read t with
      | none => simp [ha, ht] at h
      | some bs =>
        simp [ha, ht] at h
        subst h
        exact List.Forall₂.cons ha (ih bs ht)

/-- A loop of reads returns the values of the single reads. -/
theorem read_each_of_forall₂ {α β : Type} (read : α → Option β) :
    ∀ (l : List α) (r : List β), List.Forall₂ (fun a b => read a = some b) l r →
      read_each read l = some r := by
  intro l r h
  induction h with
  | nil => rfl
  | cons ha _ ih => simp [read_each, ha, ih]

/-- A loop of reads whose every read succeeds succeeds. -/
theorem read_each_isSome {α β : Type} (read : α → Option β) :
    ∀ l : List α, (∀ a ∈ l, (read a).isSome = true) → (read_each read l).isSome = true := by
  intro l
  induction l with
  | nil => intro _; rfl
  | cons a t ih =>
    intro h
    obtain ⟨b, hb⟩ := Option.isSome_iff_exists.1 (h a (List.mem_cons_self _ _))
    obtain ⟨bs, hbs⟩ := Option.isSome_iff_exists.1
      (ih (fun a' ha' => h a' (List.mem_cons_of_mem _ ha')))
    simp [read_each, hb, hbs]

/-- Two lists related element by element have the same length and related entries at
every index. -/
theorem forall₂_getElem? {α β : Type} {R : α → β → Prop} {l : List α} {r : List β}
    (h : List.Forall₂ R l r) :
    l.length = r.length ∧ ∀ (j : Nat) (a : α), l[j]? = some a → ∃ b, r[j]? = some b ∧ R a b := by
  induction h with
  | nil => exact ⟨rfl, fun j a h => by simp at h⟩
  | @cons a0 b0 l0 r0 hab _ ih =>
    refine ⟨by simp [ih.1], fun j a h => ?_⟩
    cases j with
    | zero =>
      have ha : a0 = a := by simpa using h
      subst ha
      exact ⟨b0, by simp, hab⟩
    | succ j =>
      have h' : l0[j]? = some a := by simpa using h
      obtain ⟨b, hb, hR⟩ := ih.2 j a h'
      exact ⟨b, by simpa using hb, hR⟩

/-- An element of the second of two related lists is related to an element of the first. -/
theorem forall₂_mem_iff {α β : Type} {R : α → β → Prop} {l : List α} {r : List β}
    (h : List.Forall₂ R l r) (b : β) : b ∈ r → ∃ a ∈ l, R a b := by
  induction h with
  | nil => intro hb; cases hb
  | cons hab _ ih =>
    intro hb
    rcases List.mem_cons.1 hb with rfl | hb
    · exact ⟨_, List.mem_cons_self _ _, hab⟩
    · obtain ⟨a, ha, hR⟩ := ih hb
      exact ⟨a, List.mem_cons_of_mem _ ha, hR⟩

/-- An element of the first of two related lists is related to an element of the second. -/
theorem forall₂_mem_left {α β : Type} {R : α → β → Prop} {l : List α} {r : List β}
    (h : List.Forall₂ R l r) (a : α) : a ∈ l → ∃ b ∈ r, R a b := by
  induction h with
  | nil => intro ha; cases ha
  | cons hab _ ih =>
    intro ha
    rcases List.mem_cons.1 ha with rfl | ha
    · exact ⟨_, List.mem_cons_self _ _, hab⟩
    · obtain ⟨b, hb, hR⟩ := ih ha
      exact ⟨b, List.mem_cons_of_mem _ hb, hR⟩

/-- Two related lists have the same image under maps that agree on related elements. -/
theorem forall₂_map_eq {α β γ : Type} {R : α → β → Prop} (f : α → γ) (g : β → γ)
    (hfg : ∀ a b, R a b → f a = g b) {l : List α} {r : List β} (h : List.Forall₂ R l r) :
    l.map f = r.map g := by
  induction h with
  | nil => rfl
  | cons hab _ ih => simp [hfg _ _ hab, ih]

/-- The inner loop of `read_styles` returns exactly when every entry before the first
one of the wanted `xfId` has an `xfId` that parses and that first entry, if any, is read
as a style; it returns that style, and no style when no entry has the `xfId`. -/
theorem read_styles_match_eq_some {D : Type} (lib : library D) (x : xml_node)
    (ss : stylesheet D) (i : Nat) :
    ∀ (cs : List xml_node) (found : Option (style D)),
      read_styles_match lib x ss i cs = some found ↔
        (∀ c ∈ cs.takeWhile
            (fun c => !(stoull (value (xml_attribute (some c) "xfId")) == some i)),
          (stoull (value (xml_attribute (some c) "xfId"))).isSome = true)
        ∧ (match cs.find? (fun c => stoull (value (xml_attribute (some c) "xfId")) == some i) with
            | some c => (read_style lib (some c) (some x) ss).map some
            | none => some none) = some found := by
  intro cs found
  induction cs with
  | nil => simp [read_styles_match]
  | cons c rest ih =>
    unfold read_styles_match
    cases hk : stoull (value (xml_attribute (some c) "xfId")) with
    | none =>
      simp [List.takeWhile_cons, hk]
    | some k =>
      by_cases hki : k = i
      · subst hki
        simp [List.takeWhile_cons, List.find?_cons, hk]
      · have hne : (some k == some i) = false := by simpa using hki
        have hne2 : (k == i) = false := by simpa using hki
        simp only [Option.bind_eq_bind, Option.some_bind, hne2, Bool.false_eq_true, if_false]
        rw [ih]
        simp [List.takeWhile_cons, List.find?_cons, hk, hki]

/-- The outer loop of `read_styles` returns exactly when, at every position, the
entries before the match have an `xfId` that parses and the styles of the joined
positions are read; it appends these styles and records their names. -/
theorem read_styles_loop_eq_some {D : Type} (lib : library D) (styles_node : node_handle)
    (ss : stylesheet D) :
    ∀ (xfs : List xml_node) (start : Nat) (styles : List (style D))
      (style_names : List (Nat × String)) (r : List (style D) × List (Nat × String)),
      read_styles_loop lib styles_node ss xfs start styles style_names = some r ↔
        (∀ p ∈ xfs.enumFrom start, ∀ c ∈ cell_styles_before_match styles_node p.1,
          (stoull (value (xml_attribute (some c) "xfId"))).isSome = true)
        ∧ ∃ js, read_each
            (fun p => (read_style lib (some p.2.2) (some p.2.1) ss).map (fun s => (p.1, s)))
            (joined_positions styles_node xfs start) = some js
          ∧ r = (styles ++ js.map Prod.snd, record_names style_names js) := by
  intro xfs
  induction xfs with
  | nil =>
    intro start styles style_names r
    simp only [read_styles_loop, joined_positions, List.enumFrom_nil, List.filterMap_nil,
      read_each, Option.some.injEq, List.not_mem_nil, false_implies, implies_true, true_and]
    constructor
    · rintro rfl
      exact ⟨[], rfl, by simp [record_names]⟩
    · rintro ⟨js, rfl, rfl⟩
      simp [record_names]
  | cons x rest ih =>
    intro start styles style_names r
    unfold read_styles_loop
    have hm := read_styles_match_eq_some lib x ss start (children styles_node)
    have hjp : joined_positions styles_node (x :: rest) start
        = ((first_cell_style styles_node start).map (fun c => (start, x, c))).toList
          ++ joined_positions styles_node rest (start + 1) := by
      unfold joined_positions
      rw [List.enumFrom_cons, List.filterMap_cons]
      cases first_cell_style styles_node start <;> rfl
    rw [hjp, List.enumFrom_cons, List.forall_mem_cons]
    change _ ↔ ((∀ c ∈ (children styles_node).takeWhile
            (fun c => !(stoull (value (xml_attribute (some c) "xfId")) == some start)),
          (stoull (value (xml_attribute (some c) "xfId"))).isSome = true) ∧ _) ∧ _
    unfold first_cell_style
    cases hfound : read_styles_match lib x ss start (children styles_node) with
    | none =>
      refine iff_of_false (by simp) ?_
      rintro ⟨⟨hscan, -⟩, js, hjs, -⟩
      cases hfind : (children styles_node).find?
          (fun c => stoull (value (xml_attribute (some c) "xfId")) == some start) with
      | none =>
        have := (hm none).2 ⟨hscan, by rw [hfind]⟩
        rw [hfound] at this
        cases this
      | some c =>
        rw [hfind] at hjs
        cases hs : read_style lib (some c) (some x) ss with
        | none => simp [read_each, hs] at hjs
        | some s =>
          have := (hm (some s)).2 ⟨hscan, by rw [hfind]; simp [hs]⟩
          rw [hfound] at this
          cases this
    | some found =>
      obtain ⟨hscan, hres⟩ := (hm found).1 hfound
      simp only [Option.bind_eq_bind, Option.some_bind]
      cases hfind : (children styles_node).find?
          (fun c => stoull (value (xml_attribute (some c) "xfId")) == some start) with
      | none =>
        rw [hfind] at hres
        simp only [Option.some.injEq] at hres
        subst hres
        simp only [Option.map_none', Option.toList_none, List.nil_append]
        rw [ih]
        exact ⟨fun h => ⟨⟨hscan, h.1⟩, h.2⟩, fun h => ⟨h.1.2, h.2⟩⟩
      | some c =>
        rw [hfind] at hres
        cases hs : read_style lib (some c) (some x) ss with
        | none => simp [hs] at hres
        | some s =>
          simp only [hs, Option.map_some', Option.some.injEq] at hres
          subst hres
          simp only [Option.map_some', Option.toList_some, List.singleton_append, read_each,
            hs, Option.bind_eq_bind, Option.some_bind]
          rw [ih]
          refine and_congr ⟨fun h => ⟨hscan, h⟩, fun h => h.2⟩ ?_
          constructor
          · rintro ⟨js, hjs, rfl⟩
            refine ⟨(start, s) :: js, by simp [hjs], ?_⟩
            simp [record_names]
          · rintro ⟨js, hjs, rfl⟩
            cases hr : read_each
              (fun p => (read_style lib (some p.2.2) (some p.2.1) ss).map (fun s => (p.1, s)))
              (joined_positions styles_node rest (start + 1)) with
            | none => simp [hr] at hjs
            | some js' =>
              simp [hr] at hjs
              subst hjs
              exact ⟨js', rfl, by simp [record_names]⟩

/-- A position is joined exactly when it holds an `xf` entry and a `cellStyle` entry has
its `xfId`. -/
theorem mem_joined_positions (styles_node : node_handle) (xfs : List xml_node)
    (i : Nat) (x c : xml_node) :
    (i, x, c) ∈ joined_positions styles_node xfs 0
      ↔ xfs[i]? = some x ∧ first_cell_style styles_node i = some c := by
  unfold joined_positions
  rw [List.mem_filterMap]
  constructor
  · rintro ⟨⟨k, y⟩, hmem, hmap⟩
    rw [List.mk_mem_enumFrom_iff_le_and_getElem?_sub] at hmem
    cases hf : first_cell_style styles_node k with
    | none => simp [hf] at hmap
    | some c' =>
      simp only [hf, Option.map_some', Option.some.injEq, Prod.mk.injEq] at hmap
      obtain ⟨rfl, rfl, rfl⟩ := hmap
      exact ⟨by simpa using hmem.2, hf⟩
  · rintro ⟨hx, hc⟩
    refine ⟨(i, x), ?_, by simp [hc]⟩
    rw [List.mk_mem_enumFrom_iff_le_and_getElem?_sub]
    exact ⟨Nat.zero_le _, by simpa using hx⟩

/-- The joined positions are in increasing order. -/
theorem joined_positions_increasing (styles_node : node_handle) (xfs : List xml_node)
    (start : Nat) :
    ((joined_positions styles_node xfs start).map Prod.fst).Pairwise (· < ·) := by
  unfold joined_positions
  rw [List.pairwise_map]
  have h : (xfs.enumFrom start).Pairwise (fun p q => p.1 < q.1) := by
    have := List.pairwise_lt_range' start xfs.length
    rw [← List.enumFrom_map_fst, List.pairwise_map] at this
    exact this
  refine List.Pairwise.filterMap _ ?_ h
  intro p q hpq b hb b' hb'
  simp only [Option.mem_def, Option.map_eq_some'] at hb hb'
  obtain ⟨_, _, rfl⟩ := hb
  obtain ⟨_, _, rfl⟩ := hb'
  exact hpq

/-- The map after the names were recorded: the name of the style at a joined position,
the former entry elsewhere. -/
theorem record_names_lookup {D : Type} :
    ∀ (js : List (Nat × style D)) (style_names : List (Nat × String)),
      (js.map Prod.fst).Pairwise (· < ·) → ∀ i : Nat,
        (∀ s, (i, s) ∈ js → map_at (record_names style_names js) i = some s.name)
        ∧ ((∀ s, (i, s) ∉ js) →
            map_at (record_names style_names js) i = map_at style_names i) := by
  intro js
  induction js with
  | nil =>
    intro style_names _ i
    exact ⟨fun s h => (by cases h), fun _ => rfl⟩
  | cons p t ih =>
    intro style_names hpw i
    rw [List.map_cons, List.pairwise_cons] at hpw
    have ih' := ih (map_assign style_names p.1 p.2.name) hpw.2 i
    have hrec : record_names style_names (p :: t)
        = record_names (map_assign style_names p.1 p.2.name) t := rfl
    rw [hrec]
    constructor
    · intro s hs
      rcases List.mem_cons.1 hs with heq | hs
      · have hnot : ∀ s', (i, s') ∉ t := by
          intro s' hs'
          have : p.1 < i := hpw.1 i (List.mem_map.2 ⟨(i, s'), hs', rfl⟩)
          rw [← heq] at this
          exact Nat.lt_irrefl _ this
        rw [ih'.2 hnot, map_at_map_assign, ← heq]
        simp
      · exact ih'.1 s hs
    · intro hnot
      have hne : i ≠ p.1 := by
        intro h
        exact hnot p.2 (by rw [h]; exact List.mem_cons_self _ _)
      rw [ih'.2 (fun s hs => hnot s (List.mem_cons_of_mem _ hs)), map_at_map_assign,
        if_neg hne]

/-- What `read_style` returns when it returns: the base format of the `xf` entry, the
name, hidden flag and builtin id of the `cellStyle` entry. -/
theorem read_style_eq_some {D : Type} (lib : library D) (style_node style_format_node : node_handle)
    (ss : stylesheet D) (s : style D)
    (h : read_style lib style_node style_format_node ss = some s) :
    read_base_format lib style_format_node ss style.default.tobase_format
      = some s.tobase_format
    ∧ s.name = value (xml_attribute style_node "name")
    ∧ s.hidden = ((xml_attribute style_node "hidden").isSome
        && is_true (value (xml_attribute style_node "hidden")))
    ∧ string_to_size_t (value (xml_attribute style_node "builtinId")) = some s.builtin_id := by
  unfold read_style at h
  cases hb : read_base_format lib style_format_node ss style.default.tobase_format with
  | none => simp [hb] at h
  | some bf =>
    cases hid : string_to_size_t (value (xml_attribute style_node "builtinId")) with
    | none => simp [hb, hid] at h
    | some id =>
      simp only [hb, hid, Option.bind_eq_bind, Option.some_bind, Option.pure_def,
        Option.some.injEq] at h
      subst h
      exact ⟨rfl, rfl, rfl, rfl⟩

/-- C11. Positional join on read, for every call of `read_styles`. The call returns
exactly when, at every position `i` of `cellStyleXfs`, the `cellStyle` entries before
the first one with `xfId = i` have an `xfId` that parses, and every style of the
positional join is read; it then appends the styles of the join and records their
names. The join holds, in increasing order of position, exactly one style for each
position of `cellStyleXfs` for which some `cellStyle` has that `xfId`: the style read
from the first such `cellStyle` (name, hidden flag, builtin id) and the `xf` at that
position (base format). The map gets the name at each joined position and keeps its
former entry at every other position. -/
theorem read_styles_positional_join {D : Type} (lib : library D) (styles_node : node_handle)
    (style_formats_node : node_handle) (ss : stylesheet D) (styles : List (style D))
    (style_names : List (Nat × String)) :
    (∀ r, read_styles lib styles_node style_formats_node ss styles style_names = some r ↔
        (∀ i, i < (children style_formats_node).length →
          ∀ c ∈ cell_styles_before_match styles_node i,
            (stoull (value (xml_attribute (some c) "xfId"))).isSome = true)
        ∧ ∃ js, positional_join lib styles_node style_formats_node ss = some js
            ∧ r = (styles ++ js.map Prod.snd, record_names style_names js))
    ∧ (∀ js, positional_join lib styles_node style_formats_node ss = some js →
        (js.map Prod.fst).Pairwise (· < ·)
        ∧ (∀ i s, (i, s) ∈ js ↔
            ∃ x c, (children style_formats_node)[i]? = some x
              ∧ first_cell_style styles_node i = some c
              ∧ read_style lib (some c) (some x) ss = some s)
        ∧ (∀ i s, (i, s) ∈ js → map_at (record_names style_names js) i = some s.name)
        ∧ (∀ i, (∀ s, (i, s) ∉ js) →
            map_at (record_names style_names js) i = map_at style_names i))
    ∧ (∀ (c x : xml_node) (s : style D), read_style lib (some c) (some x) ss = some s →
        read_base_format lib (some x) ss style.default.tobase_format = some s.tobase_format
        ∧ s.name = value (xml_attribute (some c) "name")
        ∧ s.hidden = ((xml_attribute (some c) "hidden").isSome
            && is_true (value (xml_attribute (some c) "hidden")))
        ∧ string_to_size_t (value (xml_attribute (some c) "builtinId"))
            = some s.builtin_id) := by
  refine ⟨?_, ?_, fun c x s h => read_style_eq_some lib _ _ ss s h⟩
  · intro r
    unfold read_styles positional_join
    rw [read_styles_loop_eq_some]
    refine and_congr ?_ Iff.rfl
    constructor
    · intro h i hi c hc
      obtain ⟨x, hx⟩ : ∃ x, (children style_formats_node)[i]? = some x :=
        ⟨_, List.getElem?_eq_getElem hi⟩
      refine h (i, x) ?_ c hc
      rw [List.mk_mem_enumFrom_iff_le_and_getElem?_sub]
      exact ⟨Nat.zero_le _, by simpa using hx⟩
    · rintro h ⟨i, x⟩ hp c hc
      rw [List.mk_mem_enumFrom_iff_le_and_getElem?_sub] at hp
      have hx : (children style_formats_node)[i]? = some x := by simpa using hp.2
      exact h i (List.getElem?_eq_some_iff.1 hx).1 c hc
  intro js hjs
  have hf := read_each_eq_some _ _ _ hjs
  have hfst : (joined_positions styles_node (children style_formats_node) 0).map Prod.fst
      = js.map Prod.fst := by
    refine forall₂_map_eq Prod.fst Prod.fst ?_ hf
    intro a b hab
    cases hr : read_style lib (some a.2.2) (some a.2.1) ss with
    | none => simp [hr] at hab
    | some s => simp [hr] at hab; rw [← hab]
  have hpw : (js.map Prod.fst).Pairwise (· < ·) := by
    rw [← hfst]
    exact joined_positions_increasing _ _ _
  refine ⟨hpw, ?_, fun i s => (record_names_lookup js style_names hpw i).1 s,
    fun i => (record_names_lookup js style_names hpw i).2⟩
  intro i s
  constructor
  · intro hmem
    obtain ⟨⟨k, x, c⟩, ha, hR⟩ := forall₂_mem_iff hf (i, s) hmem
    cases hr : read_style lib (some c) (some x) ss with
    | none => simp [hr] at hR
    | some s' =>
      simp [hr] at hR
      obtain ⟨rfl, rfl⟩ := hR
      obtain ⟨hx, hc⟩ := (mem_joined_positions _ _ _ _ _).1 ha
      exact ⟨x, c, hx, hc, hr⟩
  · rintro ⟨x, c, hx, hc, hr⟩
    have ha := (mem_joined_positions styles_node _ i x c).2 ⟨hx, hc⟩
    obtain ⟨b, hb, hR⟩ := forall₂_mem_left hf _ ha
    simp [hr] at hR
    rw [hR]
    exact hb

/-- C11, at concrete inputs. With one `xf` entry, the `cellStyle` of `xfId` 0 is joined
and the entry after it, whose `xfId` does not parse, is never visited. With two `xf`
entries, position 1 visits that entry and the call fails. With two `cellStyle` entries
of `xfId` 1, position 0 gives no style and position 1 the style of the first. -/
theorem read_styles_positional_join_witness :
    (read_styles example_library (some unparsable_cell_styles) (some single_cell_style_xf)
        example_registry [] []).map
      (fun r => (r.1.map (fun s => (s.name, s.builtin_id, s.hidden, s.font.bold)), r.2))
      = some ([("A", 5, false, true)], [(0, "A")])
    ∧ read_styles example_library (some unparsable_cell_styles) (some example_cell_style_xfs)
        example_registry [] [] = none
    ∧ (read_styles example_library (some example_cell_styles) (some example_cell_style_xfs)
        example_registry [] []).map
      (fun r => (r.1.map (fun s => (s.name, s.builtin_id, s.hidden, s.font.bold)), r.2))
      = some ([("B", 3, false, true)], [(1, "B")]) := by
  refine ⟨?_, ?_, ?_⟩
  · rw [((read_styles_positional_join example_library (some unparsable_cell_styles)
      (some single_cell_style_xf) example_registry [] []).1 _).2
        ⟨by decide, _, rfl, rfl⟩]
    decide
  · cases h : read_styles example_library (some unparsable_cell_styles)
        (some example_cell_style_xfs) example_registry [] [] with
    | none => rfl
    | some r =>
      exact absurd
        (((read_styles_positional_join example_library (some unparsable_cell_styles)
          (some example_cell_style_xfs) example_registry [] []).1 r).1 h).1
        (by decide)
  · rw [((read_styles_positional_join example_library (some example_cell_styles)
      (some example_cell_style_xfs) example_registry [] []).1 _).2
        ⟨by decide, _, rfl, rfl⟩]
    decide

/-- The loop of `read_formats` as one read per `xf` child: the formats and the style
names read are appended to the two lists. -/
theorem read_formats_eq {D : Type} (lib : library D) (formats_node : node_handle)
    (ss : stylesheet D) (formats : List (format D)) (format_styles : List String) :
    read_formats lib formats_node ss formats format_styles
      = (read_each (fun format_node =>
            (read_base_format lib (some format_node) ss format.default.tobase_format).bind
              fun bf =>
                (string_to_size_t (value (xml_attribute (some format_node) "xfId"))).bind
                  fun style_index =>
                    (map_at ss.style_name_map style_index).map
                      fun style_name => ((⟨bf⟩ : format D), style_name))
          (children_named formats_node "xf")).map
        (fun new => (formats ++ new.map Prod.fst, format_styles ++ new.map Prod.snd)) := by
  unfold read_formats
  generalize children_named formats_node "xf" = xfs
  induction xfs generalizing formats format_styles with
  | nil => simp [read_each]
  | cons x rest ih =>
    rw [List.foldlM_cons]
    cases hb : read_base_format lib (some x) ss format.default.tobase_format with
    | none => simp [read_each, hb]
    | some bf =>
      cases hi : string_to_size_t (value (xml_attribute (some x) "xfId")) with
      | none => simp [read_each, hb, hi]
      | some idx =>
        cases hn : map_at ss.style_name_map idx with
        | none => simp [read_each, hb, hi, hn]
        | some name =>
          simp only [hb, hi, hn, Option.bind_eq_bind, Option.some_bind, Option.pure_def,
            read_each, Option.map_some']
          refine (ih _ _).trans ?_
          cases read_each (fun format_node =>
            (read_base_format lib (some format_node) ss format.default.tobase_format).bind
              fun bf =>
                (string_to_size_t (value (xml_attribute (some format_node) "xfId"))).bind
                  fun style_index =>
                    (map_at ss.style_name_map style_index).map
                      fun style_name => ((⟨bf⟩ : format D), style_name)) rest with
          | none => rfl
          | some new => simp

/-- C12. Cell-format decoding: when `read_formats` returns, the two lists have grown by
one entry for every `xf` child of `cellXfs`, in document order; the format at position
j is the base format decoded from the j-th `xf` and the name at position j is
`style_name_map[xfId]` of that `xf`. It returns whenever every `xf` decodes and has an
`xfId` with an entry in the map. When the map is the one `read_styles` records from an
empty map, the name is the name of the style joined at position `xfId`. -/
theorem read_formats_aligned {D : Type} (lib : library D) (formats_node : node_handle)
    (ss : stylesheet D) (formats : List (format D)) (format_styles : List String) :
    (∀ r, read_formats lib formats_node ss formats format_styles = some r →
      ∃ (new_formats : List (format D)) (new_names : List String),
        r.1 = formats ++ new_formats ∧ r.2 = format_styles ++ new_names
        ∧ new_formats.length = (children_named formats_node "xf").length
        ∧ new_names.length = (children_named formats_node "xf").length
        ∧ ∀ (j : Nat) (x : xml_node), (children_named formats_node "xf")[j]? = some x →
            ∃ fmt name style_index,
              new_formats[j]? = some fmt ∧ new_names[j]? = some name
              ∧ read_base_format lib (some x) ss format.default.tobase_format
                  = some fmt.tobase_format
              ∧ string_to_size_t (value (xml_attribute (some x) "xfId")) = some style_index
              ∧ map_at ss.style_name_map style_index = some name)
    ∧ ((∀ x ∈ children_named formats_node "xf",
          (read_base_format lib (some x) ss format.default.tobase_format).isSome = true
          ∧ ((string_to_size_t (value (xml_attribute (some x) "xfId"))).bind
              (map_at ss.style_name_map)).isSome = true) →
        (read_formats lib formats_node ss formats format_styles).isSome = true)
    ∧ (∀ js : List (Nat × style D), (js.map Prod.fst).Pairwise (· < ·) →
        ss.style_name_map = record_names [] js →
        ∀ style_index name, map_at ss.style_name_map style_index = some name →
          ∃ s, (style_index, s) ∈ js ∧ s.name = name) := by
  rw [read_formats_eq]
  refine ⟨?_, ?_, ?_⟩
  · intro r hr
    rw [Option.map_eq_some'] at hr
    obtain ⟨new, hnew, rfl⟩ := hr
    have hf := read_each_eq_some _ _ _ hnew
    obtain ⟨hlen, hget⟩ := forall₂_getElem? hf
    refine ⟨new.map Prod.fst, new.map Prod.snd, rfl, rfl, by simp [hlen], by simp [hlen], ?_⟩
    intro j x hx
    obtain ⟨⟨fmt, name⟩, hb, hR⟩ := hget j x hx
    cases hbf : read_base_format lib (some x) ss format.default.tobase_format with
    | none => simp [hbf] at hR
    | some bf =>
      cases hi : string_to_size_t (value (xml_attribute (some x) "xfId")) with
      | none => simp [hbf, hi] at hR
      | some idx =>
        cases hn : map_at ss.style_name_map idx with
        | none => simp [hbf, hi, hn] at hR
        | some nm =>
          simp [hbf, hi, hn] at hR
          obtain ⟨rfl, rfl⟩ := hR
          exact ⟨⟨bf⟩, nm, idx, by simp [hb], by simp [hb], rfl, rfl, hn⟩
  · intro h
    rw [Option.isSome_map']
    apply read_each_isSome
    intro x hx
    obtain ⟨hbf, hn⟩ := h x hx
    obtain ⟨bf, hbf⟩ := Option.isSome_iff_exists.1 hbf
    obtain ⟨nm, hn⟩ := Option.isSome_iff_exists.1 hn
    obtain ⟨idx, hi, hn⟩ := Option.bind_eq_some.1 hn
    simp [hbf, hi, hn]
  · intro js hpw hmap style_index name hname
    rw [hmap] at hname
    by_cases hex : ∃ s, (style_index, s) ∈ js
    · obtain ⟨s, hs⟩ := hex
      rw [(record_names_lookup js [] hpw style_index).1 s hs] at hname
      exact ⟨s, hs, Option.some.inj hname⟩
    · rw [(record_names_lookup js [] hpw style_index).2 (fun s hs => hex ⟨s, hs⟩)] at hname
      cases hname

/-- C12, at a concrete input: two `xf` entries of `xfId` 1 against the map 1 ↦ B. -/
theorem read_formats_aligned_witness :
    ∃ r, read_formats example_library (some example_cell_xfs)
        { example_registry with style_name_map := [(1, "B")] } [] [] = some r
      ∧ r.1.length = 2 ∧ r.2 = ["B", "B"] := by
  have h := read_formats_aligned example_library (some example_cell_xfs)
    { example_registry with style_name_map := [(1, "B")] } [] []
  obtain ⟨r, hr⟩ := Option.isSome_iff_exists.1 (h.2.1 (by decide))
  obtain ⟨new_formats, new_names, h1, -, h3, -, -⟩ := h.1 r hr
  have hd : (read_formats example_library (some example_cell_xfs)
      { example_registry with style_name_map := [(1, "B")] } [] []).map Prod.snd
      = some ["B", "B"] := by decide
  rw [hr] at hd
  exact ⟨r, hr, by rw [h1]; simpa using h3, Option.some.inj hd⟩

/-! ## Loading a document -/

/-- The stages of `read_stylesheet`: five registries read from their sections, then the
styles and the formats appended to those of the stylesheet passed in. -/
theorem read_stylesheet_eq_some {D : Type} (lib : library D) (ss : stylesheet D)
    (xml : xml_node) (r : stylesheet D) :
    read_stylesheet lib ss xml = some r ↔
      ∃ borders fills fonts number_formats colors styles formats,
        read_borders lib (child (child (some xml) "styleSheet") "borders") = some borders
        ∧ read_fills lib (child (child (some xml) "styleSheet") "fills") = some fills
        ∧ read_fonts lib (child (child (some xml) "styleSheet") "fonts") = some fonts
        ∧ read_number_formats (child (child (some xml) "styleSheet") "numFmts")
            = some number_formats
        ∧ read_colors lib (child (child (some xml) "styleSheet") "colors") = some colors
        ∧ read_styles lib (child (child (some xml) "styleSheet") "cellStyles")
            (child (child (some xml) "styleSheet") "cellStyleXfs")
            { ss with borders := borders, fills := fills, fonts := fonts,
                      number_formats := number_formats, colors := colors }
            ss.styles ss.style_name_map = some styles
        ∧ read_formats lib (child (child (some xml) "styleSheet") "cellXfs")
            { ss with borders := borders, fills := fills, fonts := fonts,
                      number_formats := number_formats, colors := colors,
                      styles := styles.1, style_name_map := styles.2 }
            ss.formats ss.format_styles = some formats
        ∧ r = { borders := borders, fills := fills, fonts := fonts,
                number_formats := number_formats, colors := colors, styles := styles.1,
                formats := formats.1, format_styles := formats.2,
                style_name_map := styles.2 } := by
  unfold read_stylesheet
  simp only [Option.bind_eq_bind, Option.pure_def, Option.bind_eq_some, Option.some.injEq]
  constructor
  · rintro ⟨b, hb, fi, hfi, fo, hfo, nf, hnf, co, hco, st, hst, fm, hfm, rfl⟩
    exact ⟨b, fi, fo, nf, co, st, fm, hb, hfi, hfo, hnf, hco, hst, hfm, rfl⟩
  · rintro ⟨b, fi, fo, nf, co, st, fm, hb, hfi, hfo, hnf, hco, hst, hfm, rfl⟩
    exact ⟨b, hb, fi, hfi, fo, hfo, nf, hnf, co, hco, st, hst, fm, hfm, rfl⟩

/-- The loop of `read_styles` only appends to the styles it is given. -/
theorem read_styles_loop_appends {D : Type} (lib : library D) (styles_node : node_handle)
    (ss : stylesheet D) :
    ∀ (xfs : List xml_node) (start : Nat) (styles : List (style D))
      (style_names : List (Nat × String)) (r : List (style D) × List (Nat × String)),
      read_styles_loop lib styles_node ss xfs start styles style_names = some r →
      ∃ new_styles, r.1 = styles ++ new_styles := by
  intro xfs
  induction xfs with
  | nil =>
    intro start styles style_names r h
    simp [read_styles_loop] at h
    exact ⟨[], by simp [← h]⟩
  | cons x rest ih =>
    intro start styles style_names r h
    unfold read_styles_loop at h
    cases hm : read_styles_match lib x ss start (children styles_node) with
    | none => simp [hm] at h
    | some found =>
      cases found with
      | none =>
        simp only [hm, Option.bind_eq_bind, Option.some_bind] at h
        exact ih _ _ _ _ h
      | some s =>
        simp only [hm, Option.bind_eq_bind, Option.some_bind] at h
        obtain ⟨new, hnew⟩ := ih _ _ _ _ h
        exact ⟨s :: new, by simp [hnew]⟩

/-- Reading the header document into the header stylesheet itself. -/
theorem read_header_again {D : Type} (lib : library D) :
    ∃ ss, read_stylesheet lib header_stylesheet (header_markup lib) = some ss
      ∧ ss.fonts.length = 1
      ∧ ss.styles.length = 2
      ∧ ss.formats.length = 2
      ∧ ss.format_styles = ["Header", "Header"] := by
  simp [read_stylesheet, header_markup, header_stylesheet, child, children, children_named,
    xml_attribute, value,
    xml_node.name, xml_node.attributes, xml_node.child_nodes, read_each,
    read_borders, read_border, get_side_names, read_fills, read_fill, read_fonts, read_font,
    read_font_flag, read_color, read_number_formats, read_colors, read_styles,
    read_styles_loop, read_styles_match, read_style, read_base_format, read_index,
    read_alignment, read_formats, map_at, map_assign, is_true,
    (by decide : pattern_fill_type_from_string "none" = some .none),
    (by decide : string_to_size_t "0" = some 0), (by decide : stoull "0" = some 0),
    (by decide : string_to_size_t "11" = some 11), (by decide : "none".isEmpty = false)]

/-- C16. Load does not fully replace the stylesheet: fonts, fills, borders, number
formats and colors read from a document do not depend on the prior state, but the
styles, formats and format style names present before the load stay in front of what
the document adds. Reading the header document into the header stylesheet gives two
styles and two formats, reading it into the empty stylesheet gives one of each. -/
theorem load_keeps_prior_styles_and_formats {D : Type} (lib : library D) :
    (∀ (ss : stylesheet D) (xml : xml_node) (r : stylesheet D),
      read_stylesheet lib ss xml = some r →
      ∃ new_styles new_formats new_names,
        r.styles = ss.styles ++ new_styles ∧ r.formats = ss.formats ++ new_formats
        ∧ r.format_styles = ss.format_styles ++ new_names)
    ∧ (∀ (s1 s2 : stylesheet D) (xml : xml_node) (r1 r2 : stylesheet D),
      read_stylesheet lib s1 xml = some r1 → read_stylesheet lib s2 xml = some r2 →
      r1.borders = r2.borders ∧ r1.fills = r2.fills ∧ r1.fonts = r2.fonts
      ∧ r1.number_formats = r2.number_formats ∧ r1.colors = r2.colors)
    ∧ ∃ r1 r2,
        read_stylesheet lib stylesheet.empty (header_markup lib) = some r1
        ∧ read_stylesheet lib header_stylesheet (header_markup lib) = some r2
        ∧ r1.fonts.length = 1 ∧ r2.fonts.length = 1
        ∧ r1.styles.length = 1 ∧ r2.styles.length = 2
        ∧ r1.formats.length = 1 ∧ r2.formats.length = 2
        ∧ r1.format_styles = ["Header"] ∧ r2.format_styles = ["Header", "Header"] := by
  refine ⟨?_, ?_, ?_⟩
  · intro ss xml r h
    obtain ⟨b, fi, fo, nf, co, st, fm, -, -, -, -, -, hst, hfm, rfl⟩ :=
      (read_stylesheet_eq_some lib ss xml r).1 h
    obtain ⟨new_styles, hs⟩ := read_styles_loop_appends lib _ _ _ _ _ _ _ hst
    rw [read_formats_eq, Option.map_eq_some'] at hfm
    obtain ⟨new, -, rfl⟩ := hfm
    exact ⟨new_styles, new.map Prod.fst, new.map Prod.snd, hs, rfl, rfl⟩
  · intro s1 s2 xml r1 r2 h1 h2
    obtain ⟨b, fi, fo, nf, co, st, fm, hb, hfi, hfo, hnf, hco, -, -, rfl⟩ :=
      (read_stylesheet_eq_some lib s1 xml r1).1 h1
    obtain ⟨b2, fi2, fo2, nf2, co2, st2, fm2, hb2, hfi2, hfo2, hnf2, hco2, -, -, rfl⟩ :=
      (read_stylesheet_eq_some lib s2 xml r2).1 h2
    rw [hb] at hb2; rw [hfi] at hfi2; rw [hfo] at hfo2; rw [hnf] at hnf2; rw [hco] at hco2
    exact ⟨Option.some.inj hb2, Option.some.inj hfi2, Option.some.inj hfo2,
      Option.some.inj hnf2, Option.some.inj hco2⟩
  · obtain ⟨r1, h1, hf1, ⟨st, hst, -, -⟩, hfm1, hn1⟩ := read_header lib
    obtain ⟨r2, h2, hf2, hst2, hfm2, hn2⟩ := read_header_again lib
    exact ⟨r1, r2, h1, h2, hf1, hf2, by simp [hst], hst2, hfm1, hfm2, hn1, hn2⟩

/-! ## Registries after a load -/

/-- A list decoded element by element has no two equal entries exactly when no two of
its elements decode to the same value. -/
theorem forall₂_nodup_iff {α β : Type} (read : α → Option β) {l : List α} {r : List β}
    (h : List.Forall₂ (fun a b => read a = some b) l r) :
    r.Nodup ↔ l.Pairwise (fun a b => read a ≠ read b) := by
  have hmap : l.map read = r.map some := forall₂_map_eq read some (fun _ _ hab => hab) h
  rw [← List.nodup_map_iff (Option.some_injective β), ← hmap, List.Nodup, List.pairwise_map]

/-- Reading the document with a repeated font and a repeated number format. -/
theorem read_duplicate_entries :
    read_stylesheet example_library stylesheet.empty duplicate_entries_markup
      = some { (stylesheet.empty : stylesheet String) with
          fonts := [{ (font.default : font String) with size := 11, name := "Calibri" },
                    { (font.default : font String) with size := 11, name := "Calibri" }],
          number_formats := [⟨164, "0.000"⟩, ⟨164, "0.000"⟩] } := by
  simp [read_stylesheet, duplicate_entries_markup, calibri_font_node, child, children,
    children_named, xml_attribute, value,
    xml_node.name, xml_node.attributes, xml_node.child_nodes, read_each,
    read_borders, read_fills, read_fonts, read_font,
    read_font_flag, read_number_formats, read_colors, read_styles,
    read_styles_loop, read_formats, stylesheet.empty,
    (by decide : string_to_size_t "164" = some 164),
    (by decide : string_to_size_t "11" = some 11)]

/-- C17, counterexample: the document with the same font element twice and the same
number format twice is read with success, and both the font vector and the number
format vector of the result hold two equal entries. -/
theorem load_keeps_duplicate_entries :
    ∃ ss, read_stylesheet example_library stylesheet.empty duplicate_entries_markup = some ss
      ∧ ¬ ss.fonts.Nodup ∧ ¬ ss.number_formats.Nodup := by
  refine ⟨_, read_duplicate_entries, ?_, ?_⟩ <;> simp

/-- C17, amended: after a successful load the font, fill and border vectors hold one
entry per element of the `fonts`, `fills` and `borders` sections, and the number format
vector one entry per `numFmt` element, in document order, each the decoding of its
element; a vector has no two equal entries exactly when no two of its elements decode
to the same value. -/
theorem load_keeps_one_entry_per_element {D : Type} (lib : library D) (ss : stylesheet D)
    (xml : xml_node) (r : stylesheet D) (h : read_stylesheet lib ss xml = some r) :
    List.Forall₂ (fun n f => read_font lib (some n) = some f)
        (children (child (child (some xml) "styleSheet") "fonts")) r.fonts
    ∧ List.Forall₂ (fun n f => read_fill lib (some n) = some f)
        (children (child (child (some xml) "styleSheet") "fills")) r.fills
    ∧ List.Forall₂ (fun n b => read_border lib (some n) = some b)
        (children (child (child (some xml) "styleSheet") "borders")) r.borders
    ∧ List.Forall₂ (fun n nf =>
          string_to_size_t (value (xml_attribute (some n) "numFmtId")) = some nf.id
          ∧ nf.format_string =
              (if value (xml_attribute (some n) "formatCode") == "GENERAL" then "General"
               else value (xml_attribute (some n) "formatCode")))
        (children_named (child (child (some xml) "styleSheet") "numFmts") "numFmt")
        r.number_formats
    ∧ (r.fonts.Nodup ↔ (children (child (child (some xml) "styleSheet") "fonts")).Pairwise
        (fun a b => read_font lib (some a) ≠ read_font lib (some b)))
    ∧ (r.fills.Nodup ↔ (children (child (child (some xml) "styleSheet") "fills")).Pairwise
        (fun a b => read_fill lib (some a) ≠ read_fill lib (some b)))
    ∧ (r.borders.Nodup ↔ (children (child (child (some xml) "styleSheet") "borders")).Pairwise
        (fun a b => read_border lib (some a) ≠ read_border lib (some b))) := by
  obtain ⟨b, fi, fo, nf, co, st, fm, hb, hfi, hfo, hnf, hco, -, -, rfl⟩ :=
    (read_stylesheet_eq_some lib ss xml r).1 h
  have hfo2 := read_each_eq_some _ _ _ hfo
  have hfi2 := read_each_eq_some _ _ _ hfi
  have hb2 := read_each_eq_some _ _ _ hb
  have hnf2 := read_each_eq_some _ _ _ hnf
  refine ⟨hfo2, hfi2, hb2, ?_, forall₂_nodup_iff _ hfo2, forall₂_nodup_iff _ hfi2,
    forall₂_nodup_iff _ hb2⟩
  refine List.Forall₂.imp ?_ hnf2
  intro n x hx
  simp only [Option.bind_eq_bind, Option.pure_def, Option.bind_eq_some, Option.some.injEq] at hx
  obtain ⟨i, hi, rfl⟩ := hx
  exact ⟨hi, rfl⟩

/-- C17, at a concrete input: a document with one font read into the header
stylesheet. -/
theorem load_keeps_one_entry_per_element_witness :
    read_stylesheet example_library header_stylesheet fonts_only_markup
      = some { (header_stylesheet : stylesheet String) with
          borders := [], fills := [], number_formats := [], colors := [],
          fonts := [{ (font.default : font String) with size := 11, name := "Calibri" }] }
    ∧ List.Forall₂ (fun n f => read_font example_library (some n) = some f)
        (children (child (child (some fonts_only_markup) "styleSheet") "fonts"))
        [{ (font.default : font String) with size := 11, name := "Calibri" }] :=
  ⟨by decide,
   (load_keeps_one_entry_per_element example_library header_stylesheet fonts_only_markup
     { (header_stylesheet : stylesheet String) with
        borders := [], fills := [], number_formats := [], colors := [],
        fonts := [{ (font.default : font String) with size := 11, name := "Calibri" }] }
     (by decide)).1⟩

/-- An element is determined by its name, attributes and children. -/
theorem xml_node_eta (n : xml_node) : xml_node.mk n.name n.attributes n.child_nodes = n := by
  cases n; rfl

/-- The name of a new element. -/
theorem name_new_node (key : String) : (new_node key).name = key := rfl

/-- A loop that writes one child per item and appends it: it succeeds exactly when
every item is written, and then appends the written children in order. -/
theorem foldlM_append_child_eq {α : Type} (w : α → Option xml_node) :
    ∀ (l : List α) (node : xml_node),
      l.foldlM (fun node a => do
        let c ← w a
        pure (node.append_child c)) node
      = (read_each w l).map
          (fun cs => xml_node.mk node.name node.attributes (node.child_nodes ++ cs)) := by
  intro l
  induction l with
  | nil => intro node; simp [read_each, xml_node_eta]
  | cons a t ih =>
    intro node
    rw [List.foldlM_cons]
    cases hw : w a with
    | none => simp [read_each, hw]
    | some c =>
      simp only [Option.bind_eq_bind, Option.some_bind, Option.pure_def] at ih ⊢
      rw [ih]
      cases node with
      | mk nm attrs cs =>
        cases ht : read_each w t <;>
          simp [read_each, hw, ht, xml_node.append_child, xml_node.name, xml_node.attributes,
            xml_node.child_nodes]

/-- Every underline style has a keyword. -/
theorem underline_style_to_string_isSome (u : underline_style) :
    (underline_style_to_string u).isSome = true := by
  cases u <;> rfl

/-- Every pattern fill type has a keyword. -/
theorem pattern_fill_type_to_string_isSome (t : pattern_fill_type) :
    (pattern_fill_type_to_string t).isSome = true := by
  cases t <;> rfl

/-- Every border style has a keyword. -/
theorem border_style_to_string_isSome (b : border_style) :
    (border_style_to_string b).isSome = true := by
  cases b <;> rfl

/-- Every vertical alignment has a keyword. -/
theorem vertical_alignment_to_string_isSome (v : vertical_alignment) :
    (vertical_alignment_to_string v).isSome = true := by
  cases v <;> rfl

/-- Every horizontal alignment has a keyword. -/
theorem horizontal_alignment_to_string_isSome (h : horizontal_alignment) :
    (horizontal_alignment_to_string h).isSome = true := by
  cases h <;> rfl

/-- Every font is written. -/
theorem write_font_isSome {D : Type} (lib : library D) (f : font D) :
    (write_font lib f).isSome = true := by
  unfold write_font
  obtain ⟨u, hu⟩ := Option.isSome_iff_exists.1 (underline_style_to_string_isSome f.underline)
  by_cases h : f.is_underline = true <;> simp [h, hu]

/-- Every fill is written. -/
theorem write_fill_isSome {D : Type} [DecidableEq D] (lib : library D) (f : fill D) :
    (write_fill lib f).isSome = true := by
  cases f with
  | pattern p =>
    obtain ⟨s, hs⟩ := Option.isSome_iff_exists.1 (pattern_fill_type_to_string_isSome p.type)
    simp [write_fill, write_pattern_fill, hs]
  | gradient g =>
    obtain ⟨node, hnode, -⟩ := write_gradient_fill_spec lib g
    simp [write_fill, hnode]

/-- Every border side is written. -/
theorem write_side_isSome {D : Type} (lib : library D) (nm : String) (s : border_property D) :
    (write_side lib nm s).isSome = true := by
  unfold write_side
  cases hst : s.style with
  | none => cases hc : s.color <;> simp
  | some st =>
    obtain ⟨x, hx⟩ := Option.isSome_iff_exists.1 (border_style_to_string_isSome st)
    cases hc : s.color <;> simp [hx]

/-- A loop whose body always succeeds succeeds. -/
theorem foldlM_isSome {α β : Type} (f : β → α → Option β)
    (hf : ∀ acc a, (f acc a).isSome = true) :
    ∀ (l : List α) (init : β), (l.foldlM f init).isSome = true := by
  intro l
  induction l with
  | nil => intro init; rfl
  | cons a t ih =>
    intro init
    rw [List.foldlM_cons]
    obtain ⟨x, hx⟩ := Option.isSome_iff_exists.1 (hf init a)
    simp only [hx, Option.bind_eq_bind, Option.some_bind]
    exact ih x

/-- Every border is written. -/
theorem write_border_isSome {D : Type} (lib : library D) (b : border D) :
    (write_border lib b).isSome = true := by
  unfold write_border
  apply foldlM_isSome
  intro acc a
  cases hs : b.side a.1 with
  | none => simp
  | some s =>
    obtain ⟨x, hx⟩ := Option.isSome_iff_exists.1 (write_side_isSome lib a.2 s)
    simp [hx]

/-- Every alignment is written, into the node it is given. -/
theorem write_alignment_spec (a : alignment) (node : xml_node) :
    ∃ r, write_alignment a node = some r ∧ r.name = node.name := by
  unfold write_alignment
  cases hv : a.vertical with
  | none =>
    cases hh : a.horizontal with
    | none => simp [name_ite_append_attribute]
    | some h =>
      obtain ⟨x, hx⟩ := Option.isSome_iff_exists.1 (horizontal_alignment_to_string_isSome h)
      simp [hx, name_ite_append_attribute, name_append_attribute]
  | some v =>
    obtain ⟨y, hy⟩ := Option.isSome_iff_exists.1 (vertical_alignment_to_string_isSome v)
    cases hh : a.horizontal with
    | none => simp [hy, name_ite_append_attribute, name_append_attribute]
    | some h =>
      obtain ⟨x, hx⟩ := Option.isSome_iff_exists.1 (horizontal_alignment_to_string_isSome h)
      simp [hx, hy, name_ite_append_attribute, name_append_attribute]

/-- Every format record is written into the node it is given, and `write_base_format`
writes no `xfId` attribute. -/
theorem write_base_format_spec {D : Type} [DecidableEq D] (xf : base_format D)
    (ss : stylesheet D) (node : xml_node) :
    ∃ r, write_base_format xf ss node = some r ∧ r.name = node.name
      ∧ xml_attribute (some r) "xfId" = xml_attribute (some node) "xfId" := by
  obtain ⟨al, hal, -⟩ := write_alignment_spec xf.alignment (new_node "alignment")
  unfold write_base_format
  by_cases ha : xf.alignment_applied = true <;> by_cases hp : xf.protection_applied = true <;>
    simp [ha, hp, hal, name_ite_append_attribute, name_append_attribute, name_append_child,
      xml_attribute_append_child, xml_attribute_ite_append_attribute_ne,
      xml_attribute_append_attribute_ne]

/-- The loop of `write_formats`: it needs a style name for every format, and appends
one `xf` child per format, with an `xfId` attribute only for a non-empty style name. -/
theorem write_formats_loop_eq {D : Type} [DecidableEq D] (ss : stylesheet D) :
    ∀ (formats : List (format D)) (names : List String) (node : xml_node),
      write_formats_loop ss formats names node
        = if formats.length ≤ names.length then
            (read_each (fun (p : format D × String) =>
                (write_base_format p.1.tobase_format ss (new_node "xf")).map (fun xf_node =>
                  if !p.2.isEmpty then
                    xf_node.append_attribute "xfId"
                      (to_string (ss.styles.findIdx (fun s => s.name == p.2)))
                  else xf_node))
              (formats.zip names)).map
              (fun cs => xml_node.mk node.name node.attributes (node.child_nodes ++ cs))
          else none := by
  intro formats
  induction formats with
  | nil => intro names node; simp [write_formats_loop, read_each, xml_node_eta]
  | cons f t ih =>
    intro names node
    cases names with
    | nil => simp [write_formats_loop]
    | cons nm names =>
      obtain ⟨r, hr, -⟩ := write_base_format_spec f.tobase_format ss (new_node "xf")
      simp only [write_formats_loop, hr, Option.bind_eq_bind, Option.some_bind, ih,
        List.length_cons, Nat.add_le_add_iff_right, List.zip_cons_cons, read_each,
        Option.map_some', Option.pure_def]
      split
      · cases node with
        | mk n a c =>
          rw [show List.zipWith Prod.mk t names = t.zip names from rfl]
          cases read_each _ (t.zip names) <;>
            simp [xml_node.append_child, xml_node.name, xml_node.attributes,
              xml_node.child_nodes]
      · rfl

/-- The loop of `write_styles` succeeds and adds one child per style to each of its
two nodes, keeping their names and attributes. -/
theorem write_styles_loop_spec {D : Type} [DecidableEq D] (ss : stylesheet D) :
    ∀ (styles : List (style D)) (i : Nat) (sn sfn : xml_node),
      ∃ r, write_styles_loop ss styles i sn sfn = some r
        ∧ r.1.name = sn.name ∧ r.2.name = sfn.name
        ∧ r.1.attributes = sn.attributes ∧ r.2.attributes = sfn.attributes
        ∧ r.1.child_nodes.length = sn.child_nodes.length + styles.length
        ∧ r.2.child_nodes.length = sfn.child_nodes.length + styles.length := by
  intro styles
  induction styles with
  | nil => intro i sn sfn; exact ⟨_, rfl, rfl, rfl, rfl, rfl, rfl, rfl⟩
  | cons s t ih =>
    intro i sn sfn
    obtain ⟨x, hx, -⟩ := write_base_format_spec s.tobase_format ss (new_node "xf")
    simp only [write_styles_loop, hx, Option.bind_eq_bind, Option.some_bind]
    obtain ⟨r, hr, h1, h2, h3, h4, h5, h6⟩ := ih (i + 1)
      (sn.append_child (if s.hidden = true then
        (((new_node "cellStyle").append_attribute "name" s.name).append_attribute "xfId"
          (to_string i)).append_attribute "builtinId" (to_string s.builtin_id)
          |>.append_attribute "hidden" "1"
        else ((new_node "cellStyle").append_attribute "name" s.name).append_attribute "xfId"
          (to_string i) |>.append_attribute "builtinId" (to_string s.builtin_id)))
      (sfn.append_child x)
    refine ⟨r, hr, ?_, ?_, ?_, ?_, ?_, ?_⟩
    · rw [h1, name_append_child]
    · rw [h2, name_append_child]
    · rw [h3]; cases sn; rfl
    · rw [h4]; cases sfn; rfl
    · rw [h5]; cases sn; simp [xml_node.append_child, xml_node.child_nodes]; omega
    · rw [h6]; cases sfn; simp [xml_node.append_child, xml_node.child_nodes]; omega

/-- The `fonts` section: a count and one child per font. -/
theorem write_fonts_eq {D : Type} (lib : library D) (fonts : List (font D))
    (node : xml_node) :
    write_fonts lib fonts node
      = (read_each (write_font lib) fonts).map (fun cs => xml_node.mk node.name
          (node.attributes ++ [("count", to_string fonts.length)]) (node.child_nodes ++ cs)) := by
  unfold write_fonts
  exact (foldlM_append_child_eq (write_font lib) fonts _).trans (by cases node; rfl)

/-- The `fonts` section is written for every font list. -/
theorem write_fonts_spec {D : Type} (lib : library D) (fonts : List (font D))
    (node : xml_node) :
    ∃ r, write_fonts lib fonts node = some r ∧ r.name = node.name := by
  obtain ⟨cs, hcs⟩ := Option.isSome_iff_exists.1
    (read_each_isSome (write_font lib) fonts (fun f _ => write_font_isSome lib f))
  exact ⟨xml_node.mk node.name (node.attributes ++ [("count", to_string fonts.length)])
    (node.child_nodes ++ cs), by rw [write_fonts_eq, hcs]; rfl, rfl⟩

/-- The `fills` section: a count and one child per fill. -/
theorem write_fills_eq {D : Type} [DecidableEq D] (lib : library D) (fills : List (fill D))
    (node : xml_node) :
    write_fills lib fills node
      = (read_each (write_fill lib) fills).map (fun cs => xml_node.mk node.name
          (node.attributes ++ [("count", to_string fills.length)]) (node.child_nodes ++ cs)) := by
  unfold write_fills
  exact (foldlM_append_child_eq (write_fill lib) fills _).trans (by cases node; rfl)

/-- The `fills` section is written for every fill list. -/
theorem write_fills_spec {D : Type} [DecidableEq D] (lib : library D) (fills : List (fill D))
    (node : xml_node) :
    ∃ r, write_fills lib fills node = some r ∧ r.name = node.name := by
  obtain ⟨cs, hcs⟩ := Option.isSome_iff_exists.1
    (read_each_isSome (write_fill lib) fills (fun f _ => write_fill_isSome lib f))
  exact ⟨xml_node.mk node.name (node.attributes ++ [("count", to_string fills.length)])
    (node.child_nodes ++ cs), by rw [write_fills_eq, hcs]; rfl, rfl⟩

/-- The `borders` section: a count and one child per border. -/
theorem write_borders_eq {D : Type} (lib : library D) (borders : List (border D))
    (node : xml_node) :
    write_borders lib borders node
      = (read_each (write_border lib) borders).map (fun cs => xml_node.mk node.name
          (node.attributes ++ [("count", to_string borders.length)]) (node.child_nodes ++ cs)) := by
  unfold write_borders
  exact (foldlM_append_child_eq (write_border lib) borders _).trans (by cases node; rfl)

/-- The `borders` section is written for every border list. -/
theorem write_borders_spec {D : Type} (lib : library D) (borders : List (border D))
    (node : xml_node) :
    ∃ r, write_borders lib borders node = some r ∧ r.name = node.name := by
  obtain ⟨cs, hcs⟩ := Option.isSome_iff_exists.1
    (read_each_isSome (write_border lib) borders (fun f _ => write_border_isSome lib f))
  exact ⟨xml_node.mk node.name (node.attributes ++ [("count", to_string borders.length)])
    (node.child_nodes ++ cs), by rw [write_borders_eq, hcs]; rfl, rfl⟩

/-- Both style sections are written for every stylesheet. -/
theorem write_styles_spec {D : Type} [DecidableEq D] (ss : stylesheet D)
    (sn sfn : xml_node) :
    ∃ r, write_styles ss sn sfn = some r ∧ r.1.name = sn.name ∧ r.2.name = sfn.name := by
  obtain ⟨r, hr, h1, h2, -⟩ := write_styles_loop_spec ss ss.styles 0
    (sn.append_attribute "count" (to_string ss.styles.length))
    (sfn.append_attribute "count" (to_string ss.styles.length))
  exact ⟨r, hr, by rw [h1, name_append_attribute], by rw [h2, name_append_attribute]⟩

/-- The number format writer keeps the name of its node. -/
theorem write_number_formats_name (nfs : List number_format) (node : xml_node) :
    (write_number_formats nfs node).name = node.name := by
  unfold write_number_formats
  rw [foldl_append_child_name, name_append_attribute]

/-- The color writer keeps the name of its node. -/
theorem write_colors_name {D : Type} (lib : library D) (colors : List (color D))
    (node : xml_node) : (write_colors lib colors node).name = node.name :=
  name_append_child _ _

/-- The `cellXfs` section: a count and one `xf` child per format, written when every
format has a style name entry. -/
theorem write_formats_eq {D : Type} [DecidableEq D] (ss : stylesheet D) (node : xml_node) :
    write_formats ss node
      = if ss.formats.length ≤ ss.format_styles.length then
          (read_each (fun (p : format D × String) =>
              (write_base_format p.1.tobase_format ss (new_node "xf")).map (fun xf_node =>
                if !p.2.isEmpty then
                  xf_node.append_attribute "xfId"
                    (to_string (ss.styles.findIdx (fun s => s.name == p.2)))
                else xf_node))
            (ss.formats.zip ss.format_styles)).map
            (fun cs => xml_node.mk node.name
              (node.attributes ++ [("count", to_string ss.formats.length)])
              (node.child_nodes ++ cs))
        else none := by
  unfold write_formats
  exact (write_formats_loop_eq ss _ _ _).trans (by cases node; rfl)


/-- The root element `write_stylesheet` builds: the four namespace attributes and the
sections in the order of the source, the first four and the last one only for a
non-empty registry. -/
theorem write_root_spec {D : Type} [DecidableEq D] (lib : library D) (ss : stylesheet D) :
    ∃ fo fi bo st,
      write_fonts lib ss.fonts (new_node "fonts") = some fo ∧ fo.name = "fonts"
      ∧ write_fills lib ss.fills (new_node "fills") = some fi ∧ fi.name = "fills"
      ∧ write_borders lib ss.borders (new_node "borders") = some bo ∧ bo.name = "borders"
      ∧ write_styles ss (new_node "cellStyles") (new_node "cellStyleXfs") = some st
      ∧ st.1.name = "cellStyles" ∧ st.2.name = "cellStyleXfs"
      ∧ write_root lib ss = (write_formats ss (new_node "cellXfs")).map (fun cx =>
          xml_node.mk "styleSheet" (write_root_attributes (new_node "styleSheet")).attributes
            ((if ss.number_formats.isEmpty then []
              else [write_number_formats ss.number_formats (new_node "numFmts")])
             ++ (if ss.fonts.isEmpty then [] else [fo])
             ++ (if ss.fills.isEmpty then [] else [fi])
             ++ (if ss.borders.isEmpty then [] else [bo])
             ++ [st.2, cx, st.1, write_dxfs (new_node "dxfs"),
                 write_table_styles (new_node "tableStyles")]
             ++ (if ss.colors.isEmpty then []
                 else [write_colors lib ss.colors (new_node "colors")]))) := by
  obtain ⟨fo, hfo, hfon⟩ := write_fonts_spec lib ss.fonts (new_node "fonts")
  obtain ⟨fi, hfi, hfin⟩ := write_fills_spec lib ss.fills (new_node "fills")
  obtain ⟨bo, hbo, hbon⟩ := write_borders_spec lib ss.borders (new_node "borders")
  obtain ⟨st, hst, hst1, hst2⟩ := write_styles_spec ss (new_node "cellStyles")
    (new_node "cellStyleXfs")
  refine ⟨fo, fi, bo, st, hfo, hfon, hfi, hfin, hbo, hbon, hst, hst1, hst2, ?_⟩
  unfold write_root
  simp only [hfo, hfi, hbo, hst, Option.bind_eq_bind, Option.some_bind, Option.pure_def]
  cases write_formats ss (new_node "cellXfs") with
  | none =>
    cases ss.fonts.isEmpty <;> cases ss.fills.isEmpty <;> cases ss.borders.isEmpty <;> rfl
  | some cx =>
    cases ss.number_formats.isEmpty <;> cases ss.fonts.isEmpty <;> cases ss.fills.isEmpty <;>
      cases ss.borders.isEmpty <;> cases ss.colors.isEmpty <;> rfl

/-- The `cellXfs` section is written exactly when every format has a style name
entry. -/
theorem write_formats_isSome {D : Type} [DecidableEq D] (ss : stylesheet D) (node : xml_node) :
    (write_formats ss node).isSome = true ↔ ss.formats.length ≤ ss.format_styles.length := by
  rw [write_formats_eq]
  split
  · rename_i h
    simp only [Option.isSome_map', h, iff_true]
    apply read_each_isSome
    intro p _
    obtain ⟨r, hr, -⟩ := write_base_format_spec p.1.tobase_format ss (new_node "xf")
    simp [hr]
  · rename_i h
    simp [h]

/-- The format writer keeps the name of its node. -/
theorem write_formats_name {D : Type} [DecidableEq D] (ss : stylesheet D) (node cx : xml_node)
    (h : write_formats ss node = some cx) : cx.name = node.name := by
  rw [write_formats_eq] at h
  split at h
  · rw [Option.map_eq_some'] at h
    obtain ⟨cs, -, rfl⟩ := h
    rfl
  · cases h

/-- C20. Fixed section order on write: `write_stylesheet` succeeds exactly when every
format has a style name entry, and then the children of the `styleSheet` root are,
in this order, numFmts, fonts, fills, borders (each only for a non-empty registry),
cellStyleXfs, cellXfs, cellStyles, dxfs, tableStyles, and colors (only for a non-empty
registry): a subsequence of the ten section names, each at most once; the `dxfs`
child has the count 0 and no entries. -/
theorem write_stylesheet_section_order {D : Type} [DecidableEq D] (lib : library D)
    (ss : stylesheet D) (doc : xml_node) :
    ((write_stylesheet lib ss doc).isSome = true
      ↔ ss.formats.length ≤ ss.format_styles.length)
    ∧ ∀ doc', write_stylesheet lib ss doc = some doc' →
        ∃ root, doc' = doc.append_child root ∧ root.name = "styleSheet"
          ∧ root.child_nodes.map xml_node.name
              = (if ss.number_formats.isEmpty then [] else ["numFmts"])
                ++ (if ss.fonts.isEmpty then [] else ["fonts"])
                ++ (if ss.fills.isEmpty then [] else ["fills"])
                ++ (if ss.borders.isEmpty then [] else ["borders"])
                ++ ["cellStyleXfs", "cellXfs", "cellStyles", "dxfs", "tableStyles"]
                ++ (if ss.colors.isEmpty then [] else ["colors"])
          ∧ (root.child_nodes.map xml_node.name).Sublist
              ["numFmts", "fonts", "fills", "borders", "cellStyleXfs", "cellXfs",
               "cellStyles", "dxfs", "tableStyles", "colors"]
          ∧ (root.child_nodes.map xml_node.name).Nodup
          ∧ ∀ c ∈ root.child_nodes, c.name = "dxfs" →
              c = xml_node.mk "dxfs" [("count", "0")] [] := by
  obtain ⟨fo, fi, bo, st, -, hfo, -, hfi, -, hbo, -, hst1, hst2, hroot⟩ :=
    write_root_spec lib ss
  have hws : write_stylesheet lib ss doc
      = (write_root lib ss).map (fun root => doc.append_child root) := by
    unfold write_stylesheet
    cases write_root lib ss <;> rfl
  constructor
  · rw [hws, hroot, Option.isSome_map', Option.isSome_map', write_formats_isSome]
  · intro doc' h
    rw [hws, hroot, Option.map_map, Option.map_eq_some'] at h
    obtain ⟨cx, hcx, rfl⟩ := h
    have hcxn := write_formats_name ss _ cx hcx
    have hnames : (xml_node.mk "styleSheet"
          (write_root_attributes (new_node "styleSheet")).attributes
          ((if ss.number_formats.isEmpty then []
            else [write_number_formats ss.number_formats (new_node "numFmts")])
           ++ (if ss.fonts.isEmpty then [] else [fo])
           ++ (if ss.fills.isEmpty then [] else [fi])
           ++ (if ss.borders.isEmpty then [] else [bo])
           ++ [st.2, cx, st.1, write_dxfs (new_node "dxfs"),
               write_table_styles (new_node "tableStyles")]
           ++ (if ss.colors.isEmpty then []
               else [write_colors lib ss.colors (new_node "colors")]))).child_nodes.map
          xml_node.name
        = (if ss.number_formats.isEmpty then [] else ["numFmts"])
          ++ (if ss.fonts.isEmpty then [] else ["fonts"])
          ++ (if ss.fills.isEmpty then [] else ["fills"])
          ++ (if ss.borders.isEmpty then [] else ["borders"])
          ++ ["cellStyleXfs", "cellXfs", "cellStyles", "dxfs", "tableStyles"]
          ++ (if ss.colors.isEmpty then [] else ["colors"]) := by
      simp only [xml_node.child_nodes, List.map_append, List.map_cons, List.map_nil,
        apply_ite (List.map xml_node.name), hfo, hfi, hbo, hst1, hst2, hcxn,
        write_number_formats_name, write_colors_name]
      rfl
    refine ⟨_, rfl, rfl, hnames, ?_, ?_, ?_⟩
    · rw [hnames]
      cases ss.number_formats.isEmpty <;> cases ss.fonts.isEmpty <;>
        cases ss.fills.isEmpty <;> cases ss.borders.isEmpty <;> cases ss.colors.isEmpty <;>
        decide
    · rw [hnames]
      cases ss.number_formats.isEmpty <;> cases ss.fonts.isEmpty <;>
        cases ss.fills.isEmpty <;> cases ss.borders.isEmpty <;> cases ss.colors.isEmpty <;>
        decide
    · intro c hc hname
      simp only [xml_node.child_nodes, List.mem_append, List.mem_cons, List.mem_singleton,
        List.not_mem_nil, or_false] at hc
      have hne : ∀ (x : xml_node) (s : String), x.name = s → s ≠ "dxfs" → c ≠ x := by
        intro x s hx hs hcx'
        rw [hcx', hx] at hname
        exact hs hname
      rcases hc with ((((h | h) | h) | h) | h) | h
      · split at h
        · cases h
        · exact absurd (List.mem_singleton.1 h)
            (hne _ "numFmts" (write_number_formats_name _ _) (by decide))
      · split at h
        · cases h
        · exact absurd (List.mem_singleton.1 h) (hne _ "fonts" hfo (by decide))
      · split at h
        · cases h
        · exact absurd (List.mem_singleton.1 h) (hne _ "fills" hfi (by decide))
      · split at h
        · cases h
        · exact absurd (List.mem_singleton.1 h) (hne _ "borders" hbo (by decide))
      · rcases h with h | h | h | h | h
        · exact absurd h (hne _ "cellStyleXfs" hst2 (by decide))
        · exact absurd h (hne _ "cellXfs" hcxn (by decide))
        · exact absurd h (hne _ "cellStyles" hst1 (by decide))
        · rw [h]; rfl
        · exact absurd h (hne _ "tableStyles" rfl (by decide))
      · split at h
        · cases h
        · exact absurd (List.mem_singleton.1 h)
            (hne _ "colors" (write_colors_name lib _ _) (by decide))


/-- C20, at a concrete input: the header stylesheet, with no number formats and no
colors. -/
theorem write_stylesheet_section_order_witness :
    write_stylesheet example_library header_stylesheet empty_document
      = some (header_markup example_library)
    ∧ ∃ root, header_markup example_library = empty_document.append_child root
        ∧ root.name = "styleSheet"
        ∧ root.child_nodes.map xml_node.name
            = ["fonts", "fills", "borders", "cellStyleXfs", "cellXfs", "cellStyles", "dxfs",
               "tableStyles"] :=
  ⟨write_header example_library,
   Exists.elim
     ((write_stylesheet_section_order example_library header_stylesheet empty_document).2
       (header_markup example_library) (write_header example_library))
     (fun root h => ⟨root, h.1, h.2.1, h.2.2.1⟩)⟩

/-! ## Formats without style -/

/-- An `xf` element without `xfId` makes `read_formats` fail: the empty string is not a
number. -/
theorem read_formats_missing_xfId {D : Type} (lib : library D) (formats_node : node_handle)
    (ss : stylesheet D) (formats : List (format D)) (format_styles : List String)
    (x : xml_node) (hx : x ∈ children_named formats_node "xf")
    (hid : xml_attribute (some x) "xfId" = none) :
    read_formats lib formats_node ss formats format_styles = none := by
  unfold read_formats
  apply foldlM_eq_none _ x _ _ _ hx
  intro acc
  simp only [hid, value, Option.getD_none, (by decide : string_to_size_t "" = none),
    Option.bind_eq_bind, Option.none_bind]
  cases read_base_format lib (some x) ss format.default.tobase_format <;> rfl

/-- The lookup of `cellXfs` in a root whose earlier children have other names. -/
theorem child_cellXfs_of_written_root (pre : List xml_node) (sx cx : xml_node)
    (rest : List xml_node) (attrs : List (String × String))
    (hpre : ∀ c ∈ pre, c.name ≠ "cellXfs") (hsx : sx.name ≠ "cellXfs")
    (hcx : cx.name = "cellXfs") :
    child (some (xml_node.mk "styleSheet" attrs (pre ++ sx :: cx :: rest))) "cellXfs"
      = some cx := by
  have h1 : pre.find? (fun c => c.name == "cellXfs") = none := by
    rw [List.find?_eq_none]
    intro c hc
    simpa using hpre c hc
  simp [child, xml_node.child_nodes, List.find?_append, h1, List.find?_cons, hsx, hcx]

/-- C13. A format without style does not survive the round trip: for every stylesheet
with a format whose owning style name is empty, `write_stylesheet` succeeds (given a
style name entry for every format) and `read_stylesheet` of the markup it produced
fails, from every prior state; the `xf` element of such a format is written without
`xfId`, which the reader parses as a number. The header stylesheet with the style name
of its format emptied is such a stylesheet. -/
theorem format_without_style_fails_round_trip {D : Type} [DecidableEq D] (lib : library D) :
    (∀ (ss : stylesheet D) (i : Nat),
      i < ss.formats.length → ss.format_styles[i]? = some "" →
      ss.formats.length ≤ ss.format_styles.length →
      ∃ doc, write_stylesheet lib ss empty_document = some doc
        ∧ ∀ prior, read_stylesheet lib prior doc = none)
    ∧ (unstyled_format_stylesheet : stylesheet D).formats.length = 1
    ∧ (unstyled_format_stylesheet : stylesheet D).format_styles = [""]
    ∧ ∃ doc, write_stylesheet lib unstyled_format_stylesheet empty_document = some doc
        ∧ read_stylesheet lib stylesheet.empty doc = none := by
  have main : ∀ (ss : stylesheet D) (i : Nat),
      i < ss.formats.length → ss.format_styles[i]? = some "" →
      ss.formats.length ≤ ss.format_styles.length →
      ∃ doc, write_stylesheet lib ss empty_document = some doc
        ∧ ∀ prior, read_stylesheet lib prior doc = none := by
    intro ss i hi hname hlen
    obtain ⟨fo, fi, bo, st, -, hfo, -, hfi, -, hbo, -, hst1, hst2, hroot⟩ :=
      write_root_spec lib ss
    obtain ⟨cx, hcx⟩ := Option.isSome_iff_exists.1
      ((write_formats_isSome ss (new_node "cellXfs")).2 hlen)
    have hcxn := write_formats_name ss _ cx hcx
    rw [hcx, Option.map_some'] at hroot
    refine ⟨_, (by
      simp only [write_stylesheet, hroot, Option.bind_eq_bind, Option.some_bind,
        Option.pure_def]
      rfl), ?_⟩
    intro prior
    -- the `xf` element of the format at position `i`
    rw [write_formats_eq, if_pos hlen, Option.map_eq_some'] at hcx
    obtain ⟨cs, hcs, hcxeq⟩ := hcx
    have hall := read_each_eq_some _ _ _ hcs
    have hzip : (ss.formats.zip ss.format_styles)[i]? = some (ss.formats[i], "") :=
      List.getElem?_zip_eq_some.2 ⟨List.getElem?_eq_getElem hi, hname⟩
    obtain ⟨x, hx, hw⟩ := (forall₂_getElem? hall).2 i _ hzip
    obtain ⟨base, hbase, hbn, hbid⟩ :=
      write_base_format_spec (ss.formats[i]).tobase_format ss (new_node "xf")
    simp only [hbase, Option.map_some', String.isEmpty, Option.some.injEq] at hw
    have hxb : x = base := by simpa using hw.symm
    subst hxb
    have hmem : x ∈ cs := List.getElem?_mem hx
    -- the lookups of the reader
    have hchild1 : child (some (empty_document.append_child
        (xml_node.mk "styleSheet" (write_root_attributes (new_node "styleSheet")).attributes
          ((if ss.number_formats.isEmpty then []
            else [write_number_formats ss.number_formats (new_node "numFmts")])
           ++ (if ss.fonts.isEmpty then [] else [fo])
           ++ (if ss.fills.isEmpty then [] else [fi])
           ++ (if ss.borders.isEmpty then [] else [bo])
           ++ [st.2, cx, st.1, write_dxfs (new_node "dxfs"),
               write_table_styles (new_node "tableStyles")]
           ++ (if ss.colors.isEmpty then []
               else [write_colors lib ss.colors (new_node "colors")]))))) "styleSheet"
        = some (xml_node.mk "styleSheet"
          (write_root_attributes (new_node "styleSheet")).attributes
          ((if ss.number_formats.isEmpty then []
            else [write_number_formats ss.number_formats (new_node "numFmts")])
           ++ (if ss.fonts.isEmpty then [] else [fo])
           ++ (if ss.fills.isEmpty then [] else [fi])
           ++ (if ss.borders.isEmpty then [] else [bo])
           ++ st.2 :: cx :: ([st.1, write_dxfs (new_node "dxfs"),
               write_table_styles (new_node "tableStyles")]
           ++ (if ss.colors.isEmpty then []
               else [write_colors lib ss.colors (new_node "colors")])))) := by
      simp [child, empty_document, xml_node.append_child, xml_node.child_nodes, xml_node.name]
    have hchild2 := child_cellXfs_of_written_root
      ((if ss.number_formats.isEmpty then []
            else [write_number_formats ss.number_formats (new_node "numFmts")])
           ++ (if ss.fonts.isEmpty then [] else [fo])
           ++ (if ss.fills.isEmpty then [] else [fi])
           ++ (if ss.borders.isEmpty then [] else [bo])) st.2 cx
      ([st.1, write_dxfs (new_node "dxfs"), write_table_styles (new_node "tableStyles")]
        ++ (if ss.colors.isEmpty then []
               else [write_colors lib ss.colors (new_node "colors")]))
      (write_root_attributes (new_node "styleSheet")).attributes
      (by
        intro c hc
        simp only [List.mem_append] at hc
        rcases hc with ((h | h) | h) | h <;> split at h <;>
          first
          | exact absurd h (List.not_mem_nil _)
          | (rw [List.mem_singleton.1 h]
             simp [write_number_formats_name, hfo, hfi, hbo, name_new_node]))
      (by rw [hst2]; decide) hcxn
    cases hread : read_stylesheet lib prior (empty_document.append_child
        (xml_node.mk "styleSheet" (write_root_attributes (new_node "styleSheet")).attributes
          ((if ss.number_formats.isEmpty then []
            else [write_number_formats ss.number_formats (new_node "numFmts")])
           ++ (if ss.fonts.isEmpty then [] else [fo])
           ++ (if ss.fills.isEmpty then [] else [fi])
           ++ (if ss.borders.isEmpty then [] else [bo])
           ++ [st.2, cx, st.1, write_dxfs (new_node "dxfs"),
               write_table_styles (new_node "tableStyles")]
           ++ (if ss.colors.isEmpty then []
               else [write_colors lib ss.colors (new_node "colors")])))) with
    | none => rfl
    | some r =>
      exfalso
      obtain ⟨b, fi', fo', nf, co, st', fm, -, -, -, -, -, -, hfm, -⟩ :=
        (read_stylesheet_eq_some lib prior _ r).1 hread
      rw [hchild1, hchild2, read_formats_missing_xfId lib (some cx) _ _ _ x ?_ ?_] at hfm
      · cases hfm
      · rw [← hcxeq]
        simp only [children_named, children, xml_node.child_nodes, new_node, List.nil_append,
          List.mem_filter]
        exact ⟨hmem, by simp [hbn, name_new_node]⟩
      · rw [hbid]; rfl
  obtain ⟨doc, h1, h2⟩ := main unstyled_format_stylesheet 0 (by show 0 < 1; decide) rfl
    (by show 1 ≤ 1; decide)
  exact ⟨main, rfl, rfl, doc, h1, h2 _⟩


/-- C13, at a concrete input: the header stylesheet with the style name of its format
emptied. -/
theorem format_without_style_fails_round_trip_witness :
    (0 < (unstyled_format_stylesheet : stylesheet String).formats.length
      ∧ (unstyled_format_stylesheet : stylesheet String).format_styles[0]? = some "")
    ∧ ∃ doc, write_stylesheet example_library unstyled_format_stylesheet empty_document
          = some doc
        ∧ ∀ prior, read_stylesheet example_library prior doc = none :=
  ⟨⟨by decide, by decide⟩,
   (format_without_style_fails_round_trip example_library).1 unstyled_format_stylesheet 0
     (by decide) (by decide) (by decide)⟩

/-! ## Boolean values, underline keywords and tints -/

/-- The strings `is_false` accepts. -/
theorem is_false_iff (s : String) : is_false s = true ↔ s = "0" ∨ s = "false" := by
  simp [is_false]

/-- The strings `is_true` accepts. -/
theorem is_true_iff (s : String) : is_true s = true ↔ s = "1" ∨ s = "true" := by
  simp [is_true]

/-- The stages of `read_font`: the size, the color, the family and the underline style
can fail, the other parts cannot. -/
theorem read_font_eq {D : Type} (lib : library D) (font_node : node_handle) :
    read_font lib font_node =
      (string_to_size_t (value (xml_attribute (child font_node "sz") "val"))).bind fun size =>
      (if (child font_node "color").isSome then read_color lib (child font_node "color")
        else some color.default).bind fun c =>
      if (child font_node "family").isSome then
        (string_to_size_t (value (xml_attribute (child font_node "family") "val"))).bind
          fun fam =>
          (if (child font_node "u").isSome then
              if (xml_attribute (child font_node "u") "val").isSome then
                underline_style_from_string (value (xml_attribute (child font_node "u") "val"))
              else some .single
            else some .none).bind fun u =>
          some (read_font_result font_node size c (some fam) u)
      else
        (if (child font_node "u").isSome then
            if (xml_attribute (child font_node "u") "val").isSome then
              underline_style_from_string (value (xml_attribute (child font_node "u") "val"))
            else some .single
          else some .none).bind fun u =>
        some (read_font_result font_node size c none u) := by
  unfold read_font read_font_result
  generalize read_font_flag font_node "b" = fb
  generalize read_font_flag font_node "strike" = fs
  generalize read_font_flag font_node "i" = fi
  cases hc : (child font_node "color").isSome <;>
  cases hf : (child font_node "family").isSome <;>
  cases hu : (child font_node "u").isSome <;>
  cases huv : (xml_attribute (child font_node "u") "val").isSome <;>
  cases hs : (child font_node "scheme").isSome <;>
  cases fb <;> cases fs <;> cases fi <;>
  rfl

/-- What `read_font` returns: the parts that decode, put together by
`read_font_result`. -/
theorem read_font_eq_some {D : Type} (lib : library D) (font_node : node_handle)
    (f : font D) :
    read_font lib font_node = some f ↔
      ∃ size c fam u,
        string_to_size_t (value (xml_attribute (child font_node "sz") "val")) = some size
        ∧ (if (child font_node "color").isSome then read_color lib (child font_node "color")
            else some color.default) = some c
        ∧ (if (child font_node "family").isSome then
              (string_to_size_t (value (xml_attribute (child font_node "family") "val"))).map
                some
            else some none) = some fam
        ∧ (if (child font_node "u").isSome then
              if (xml_attribute (child font_node "u") "val").isSome then
                underline_style_from_string (value (xml_attribute (child font_node "u") "val"))
              else some .single
            else some .none) = some u
        ∧ f = read_font_result font_node size c fam u := by
  rw [read_font_eq]
  simp only [Option.bind_eq_some]
  constructor
  · rintro ⟨size, hsize, c, hc, h⟩
    split at h
    · rename_i hf
      simp only [Option.bind_eq_some, Option.some.injEq] at h
      obtain ⟨fam, hfam, u, hu, rfl⟩ := h
      exact ⟨size, c, some fam, u, hsize, hc, by simp [hf, hfam], hu, rfl⟩
    · rename_i hf
      simp only [Option.bind_eq_some, Option.some.injEq] at h
      obtain ⟨u, hu, rfl⟩ := h
      exact ⟨size, c, none, u, hsize, hc, by simp [hf], hu, rfl⟩
  · rintro ⟨size, c, fam, u, hsize, hc, hfam, hu, rfl⟩
    refine ⟨size, hsize, c, hc, ?_⟩
    split at hfam
    · rename_i hf
      rw [Option.map_eq_some'] at hfam
      obtain ⟨x, hx, rfl⟩ := hfam
      rw [if_pos hf, hx, hu]
      rfl
    · rename_i hf
      cases hfam
      rw [if_neg hf, hu]
      rfl

/-- C27. Boolean markup values on read: `is_true` holds exactly on "1" and "true",
`is_false` exactly on "0" and "false"; the read path decodes wrapText, shrinkToFit,
locked, hidden, applyBorder, applyFill, applyFont and applyNumberFormat as `is_true` of
the attribute text, takes applyAlignment and applyProtection into the applied flag as
`is_true` of their text, and decodes a `val` attribute of `b`, `i` or `strike` as
`is_true` of its text. -/
theorem boolean_markup_values {D : Type} (lib : library D) :
    (∀ s : String, (is_true s = true ↔ s = "1" ∨ s = "true")
      ∧ (is_false s = true ↔ s = "0" ∨ s = "false"))
    ∧ (∀ (n : node_handle) (a : alignment), read_alignment n = some a →
        a.wrap_text = is_true (value (xml_attribute n "wrapText"))
        ∧ a.shrink_to_fit = is_true (value (xml_attribute n "shrinkToFit")))
    ∧ (∀ n : node_handle,
        (read_protection n).locked = is_true (value (xml_attribute n "locked"))
        ∧ (read_protection n).hidden = is_true (value (xml_attribute n "hidden")))
    ∧ (∀ (n : node_handle) (ss : stylesheet D) (f0 f : base_format D),
        read_base_format lib n ss f0 = some f →
        f.border_applied = is_true (value (xml_attribute n "applyBorder"))
        ∧ f.fill_applied = is_true (value (xml_attribute n "applyFill"))
        ∧ f.font_applied = is_true (value (xml_attribute n "applyFont"))
        ∧ f.number_format_applied = is_true (value (xml_attribute n "applyNumberFormat"))
        ∧ f.alignment_applied = ((child n "alignment").isSome
            || is_true (value (xml_attribute n "applyAlignment")))
        ∧ f.protection_applied = ((xml_attribute n "protection").isSome
            || is_true (value (xml_attribute n "applyProtection"))))
    ∧ (∀ (sn sfn : node_handle) (ss : stylesheet D) (s : style D),
        read_style lib sn sfn ss = some s →
        s.hidden = is_true (value (xml_attribute sn "hidden")))
    ∧ (∀ (n : node_handle) (f : font D), read_font lib n = some f →
        ((xml_attribute (child n "b") "val").isSome = true →
          f.bold = is_true (value (xml_attribute (child n "b") "val")))
        ∧ ((xml_attribute (child n "i") "val").isSome = true →
          f.italic = is_true (value (xml_attribute (child n "i") "val")))
        ∧ ((xml_attribute (child n "strike") "val").isSome = true →
          f.strikethrough = is_true (value (xml_attribute (child n "strike") "val")))) := by
  have hflag : ∀ (n : node_handle) (key : String),
      (xml_attribute (child n key) "val").isSome = true →
      (read_font_flag n key).getD false = is_true (value (xml_attribute (child n key) "val")) := by
    intro n key h
    have hc : (child n key).isSome = true := by
      cases hcn : child n key with
      | none => rw [hcn] at h; cases h
      | some x => rfl
    simp [read_font_flag, hc, h]
  refine ⟨fun s => ⟨is_true_iff s, by simp [is_false]⟩, ?_, fun n => ⟨rfl, rfl⟩, ?_, ?_, ?_⟩
  · intro n a h
    exact ⟨(read_alignment_eq_some n a h).1, (read_alignment_eq_some n a h).2.1⟩
  · intro n ss f0 f h
    obtain ⟨al, bi, b, fi, fl, foi, fo, id, -, -, -, -, -, -, -, -, rfl⟩ :=
      (read_base_format_eq_some lib n ss f0 f).1 h
    exact ⟨rfl, rfl, rfl, rfl, rfl, rfl⟩
  · intro sn sfn ss s h
    rw [(read_style_eq_some lib sn sfn ss s h).2.2.1]
    cases hh : xml_attribute sn "hidden" <;> simp [value, is_true]
  · intro n f h
    obtain ⟨size, c, fam, u, -, -, -, -, rfl⟩ := (read_font_eq_some lib n f).1 h
    exact ⟨hflag n "b", hflag n "i", hflag n "strike"⟩

/-- C27, at a concrete input: an alignment element with wrapText "true" and
shrinkToFit "yes". -/
theorem boolean_markup_values_witness :
    read_alignment (some (.mk "alignment" [("wrapText", "true"), ("shrinkToFit", "yes")] []))
      = some ⟨none, none, true, false⟩
    ∧ (⟨none, none, true, false⟩ : alignment).wrap_text
        = is_true (value (xml_attribute
            (some (.mk "alignment" [("wrapText", "true"), ("shrinkToFit", "yes")] []))
            "wrapText"))
    ∧ (⟨none, none, true, false⟩ : alignment).shrink_to_fit
        = is_true (value (xml_attribute
            (some (.mk "alignment" [("wrapText", "true"), ("shrinkToFit", "yes")] []))
            "shrinkToFit")) :=
  ⟨by decide,
   (boolean_markup_values example_library).2.1
     (some (.mk "alignment" [("wrapText", "true"), ("shrinkToFit", "yes")] []))
     ⟨none, none, true, false⟩ (by decide)⟩

/-- The lookup in a table keyed by strings, entry by entry. -/
theorem map_at_cons_string {ν : Type} (k : String) (v : ν) (t : List (String × ν))
    (s : String) :
    map_at ((k, v) :: t) s = if s = k then some v else map_at t s := by
  by_cases h : s = k
  · subst h; simp [map_at]
  · have h2 : ¬ k = s := fun e => h e.symm
    simp [map_at, List.find?_cons, h, h2]

/-- The lookup of an underline keyword, as a case distinction. -/
theorem underline_style_from_string_eq (s : String) :
    underline_style_from_string s =
      if s = "double" then some .double_
      else if s = "doubleAccounting" then some .double_accounting
      else if s = "none" then some .none
      else if s = "single" then some .single
      else if s = "singleAccounting" then some .single_accounting
      else none := by
  simp only [underline_style_from_string, get_string_underline_style_map, map_at_cons_string]
  rfl

/-- C28. Underline style matching is case-sensitive: `underline_style_from_string`
succeeds exactly on "double", "doubleAccounting", "none", "single" and
"singleAccounting"; it fails on "SINGLE" and on "doubleaccounting", so the lookup of a
string and of its lower-cased form can differ. -/
theorem underline_style_case_sensitive :
    (∀ s : String, (underline_style_from_string s).isSome = true ↔
      s ∈ ["double", "doubleAccounting", "none", "single", "singleAccounting"])
    ∧ underline_style_from_string "double" = some .double_
    ∧ underline_style_from_string "doubleAccounting" = some .double_accounting
    ∧ underline_style_from_string "none" = some .none
    ∧ underline_style_from_string "single" = some .single
    ∧ underline_style_from_string "singleAccounting" = some .single_accounting
    ∧ underline_style_from_string "SINGLE" = none
    ∧ underline_style_from_string "doubleaccounting" = none
    ∧ underline_style_from_string "doubleAccounting"
        ≠ underline_style_from_string (to_lower_case "doubleAccounting")
    ∧ ∃ s, underline_style_from_string s ≠ underline_style_from_string (to_lower_case s) := by
  refine ⟨?_, by decide, by decide, by decide, by decide, by decide, by decide, by decide,
    by decide, "SINGLE", by decide⟩
  intro s
  rw [underline_style_from_string_eq]
  simp only [List.mem_cons, List.mem_singleton, List.not_mem_nil, or_false]
  constructor
  · intro h
    by_cases h1 : s = "double"
    · exact Or.inl h1
    by_cases h2 : s = "doubleAccounting"
    · exact Or.inr (Or.inl h2)
    by_cases h3 : s = "none"
    · exact Or.inr (Or.inr (Or.inl h3))
    by_cases h4 : s = "single"
    · exact Or.inr (Or.inr (Or.inr (Or.inl h4)))
    by_cases h5 : s = "singleAccounting"
    · exact Or.inr (Or.inr (Or.inr (Or.inr h5)))
    simp [h1, h2, h3, h4, h5] at h
  · rintro (rfl | rfl | rfl | rfl | rfl) <;> decide

/-- The first attribute named `key` after the attributes named `k` are removed. -/
theorem find?_filter_key (l : List (String × String)) (k key : String) :
    (l.filter (fun p => !(p.1 == k))).find? (fun p => p.1 == key)
      = if key = k then none else l.find? (fun p => p.1 == key) := by
  induction l with
  | nil => simp
  | cons a t ih =>
    by_cases ha : a.1 = k
    · have hf : ((a :: t).filter (fun p => !(p.1 == k))) = t.filter (fun p => !(p.1 == k)) := by
        simp [List.filter_cons, ha]
      rw [hf, ih]
      by_cases hk : key = k
      · rw [if_pos hk, if_pos hk]
      · have hak : ¬ a.1 = key := fun h => hk (h.symm.trans ha)
        rw [if_neg hk, if_neg hk]
        simp [List.find?_cons, hak]
    · have hf : ((a :: t).filter (fun p => !(p.1 == k)))
          = a :: t.filter (fun p => !(p.1 == k)) := by
        simp [List.filter_cons, ha]
      rw [hf]
      by_cases hak : a.1 = key
      · have hk : ¬ key = k := fun h => ha (hak.trans h)
        rw [if_neg hk]
        simp [List.find?_cons, hak]
      · rw [List.find?_cons_of_neg _ (by simpa using hak), ih,
          List.find?_cons_of_neg _ (by simpa using hak)]

/-- Removing the attributes named `k` changes no lookup of another name. -/
theorem xml_attribute_remove_attribute (n : xml_node) (k key : String) :
    xml_attribute (some (n.remove_attribute k)) key
      = if key = k then none else xml_attribute (some n) key := by
  cases n with
  | mk nm attrs cs =>
    simp only [xml_attribute, xml_node.remove_attribute, xml_node.attributes,
      find?_filter_key]
    split <;> rfl

/-- A color element without `tint` decodes to a color without tint. -/
theorem read_color_without_tint {D : Type} (lib : library D) (n : node_handle) (c : color D)
    (ht : xml_attribute n "tint" = none) (h : read_color lib n = some c) : c.tint = none := by
  unfold read_color at h
  rw [ht] at h
  cases ha : xml_attribute n "auto" <;>
    cases hr : xml_attribute n "rgb" <;>
    cases hth : xml_attribute n "theme" <;>
    cases hi : xml_attribute n "indexed" <;>
    simp [ha, hr, hth, hi, value, rgb_color, theme_color, indexed_color, color.default,
      Option.bind_eq_bind, Option.bind_eq_some] at h <;>
    first
    | (subst h; rfl)
    | (obtain ⟨x, -, rfl⟩ := h; rfl)

/-- C29. Tint is applied after kind resolution: for a color element without `auto`,
`read_color` gives what it gives for the element without its `tint` attribute, with
the tint set to the numeric value of the attribute when there is one: the same
outcome (success or failure), the same kind and kind value, and a tint exactly when
the attribute is present. -/
theorem tint_applied_after_kind {D : Type} (lib : library D) (n : xml_node)
    (hauto : xml_attribute (some n) "auto" = none) :
    xml_attribute (some (n.remove_attribute "tint")) "tint" = none
    ∧ read_color lib (some n)
        = (read_color lib (some (n.remove_attribute "tint"))).map (fun c =>
            { c with tint := (xml_attribute (some n) "tint").map lib.as_double })
    ∧ ∀ c, read_color lib (some n) = some c →
        ∃ c', read_color lib (some (n.remove_attribute "tint")) = some c'
          ∧ c.kind = c'.kind ∧ c'.tint = none
          ∧ c.tint = (xml_attribute (some n) "tint").map lib.as_double
          ∧ (c.tint.isSome = true ↔ (xml_attribute (some n) "tint").isSome = true) := by
  have hrem : ∀ key, key ≠ "tint" →
      xml_attribute (some (n.remove_attribute "tint")) key = xml_attribute (some n) key := by
    intro key hk
    rw [xml_attribute_remove_attribute, if_neg hk]
  have htint : xml_attribute (some (n.remove_attribute "tint")) "tint" = none := by
    rw [xml_attribute_remove_attribute, if_pos rfl]
  have heq : read_color lib (some n)
        = (read_color lib (some (n.remove_attribute "tint"))).map (fun c =>
            { c with tint := (xml_attribute (some n) "tint").map lib.as_double }) := by
    unfold read_color
    rw [htint, hrem "auto" (by decide), hrem "rgb" (by decide), hrem "theme" (by decide),
      hrem "indexed" (by decide), hauto]
    cases ht : xml_attribute (some n) "tint" <;>
      cases hr : xml_attribute (some n) "rgb" <;>
      cases hth : xml_attribute (some n) "theme" <;>
      cases hi : xml_attribute (some n) "indexed" <;>
      simp [value, rgb_color, theme_color, indexed_color, color.default, color.set_tint]
  refine ⟨htint, heq, ?_⟩
  intro c hc
  rw [heq, Option.map_eq_some'] at hc
  obtain ⟨c', hc', rfl⟩ := hc
  exact ⟨c', hc', rfl, read_color_without_tint lib _ c' htint hc', rfl, by simp⟩

/-- C29, at a concrete input: a theme color with a tint. -/
theorem tint_applied_after_kind_witness :
    xml_attribute (some tinted_color_node) "auto" = none
    ∧ read_color example_library (some tinted_color_node) = some ⟨.theme 4, some "0.5"⟩
    ∧ read_color example_library (some (tinted_color_node.remove_attribute "tint"))
        = some ⟨.theme 4, none⟩
    ∧ read_color example_library (some tinted_color_node)
        = (read_color example_library (some (tinted_color_node.remove_attribute "tint"))).map
            (fun c =>
              { c with
                tint := (xml_attribute (some tinted_color_node) "tint").map
                          example_library.as_double }) :=
  ⟨rfl, by decide, by decide, (tint_applied_after_kind example_library tinted_color_node rfl).2.1⟩

/-! ## Written styles and references -/

/-- The name of an element given by its parts. -/
theorem name_mk (n : String) (a : List (String × String)) (c : List xml_node) :
    (xml_node.mk n a c).name = n := rfl

/-- The attributes of an element given by its parts. -/
theorem attributes_mk (n : String) (a : List (String × String)) (c : List xml_node) :
    (xml_node.mk n a c).attributes = a := rfl

/-- The children of an element given by its parts. -/
theorem child_nodes_mk (n : String) (a : List (String × String)) (c : List xml_node) :
    (xml_node.mk n a c).child_nodes = c := rfl

/-- The element `write_base_format` fills: the four reference attributes, one apply
attribute per applied facet, in the order of the source, and the inline alignment and
protection children of an applied facet. -/
theorem write_base_format_eq {D : Type} [DecidableEq D] (xf : base_format D)
    (ss : stylesheet D) (node : xml_node) :
    ∃ al, write_alignment xf.alignment (new_node "alignment") = some al
      ∧ al.name = "alignment"
      ∧ write_base_format xf ss node = some (xml_node.mk node.name
          (node.attributes
            ++ [("numFmtId", to_string xf.number_format.id),
                ("fontId", to_string (ss.fonts.indexOf xf.font)),
                ("fillId", to_string (ss.fills.indexOf xf.fill)),
                ("borderId", to_string (ss.borders.indexOf xf.border))]
            ++ (if xf.number_format_applied then [("applyNumberFormat", "1")] else [])
            ++ (if xf.fill_applied then [("applyFill", "1")] else [])
            ++ (if xf.font_applied then [("applyFont", "1")] else [])
            ++ (if xf.border_applied then [("applyBorder", "1")] else [])
            ++ (if xf.alignment_applied then [("applyAlignment", "1")] else [])
            ++ (if xf.protection_applied then [("applyProtection", "1")] else []))
          (node.child_nodes
            ++ (if xf.alignment_applied then [al] else [])
            ++ (if xf.protection_applied then
                  [write_protection xf.protection (new_node "protection")]
                else []))) := by
  obtain ⟨al, hal, haln⟩ := write_alignment_spec xf.alignment (new_node "alignment")
  refine ⟨al, hal, haln, ?_⟩
  unfold write_base_format
  rw [hal]
  cases node with
  | mk nm attrs cs =>
    cases xf.number_format_applied <;> cases xf.fill_applied <;> cases xf.font_applied <;>
      cases xf.border_applied <;> cases xf.alignment_applied <;>
      cases xf.protection_applied <;>
      simp [xml_node.append_attribute, xml_node.append_child, name_mk, attributes_mk,
        child_nodes_mk]

/-- The loop of `write_styles`: one `xf` child per style in the style format node and
one `cellStyle` child per style, with its position, in the styles node. -/
theorem write_styles_loop_eq {D : Type} [DecidableEq D] (ss : stylesheet D) :
    ∀ (styles : List (style D)) (i : Nat) (sn sfn : xml_node),
      write_styles_loop ss styles i sn sfn
        = (read_each (fun (s : style D) =>
              write_base_format s.tobase_format ss (new_node "xf")) styles).map
            (fun xfs =>
              (xml_node.mk sn.name sn.attributes
                 (sn.child_nodes ++ (styles.enumFrom i).map
                    (fun p => write_cell_style p.1 p.2)),
               xml_node.mk sfn.name sfn.attributes (sfn.child_nodes ++ xfs))) := by
  intro styles
  induction styles with
  | nil => intro i sn sfn; simp [write_styles_loop, read_each, xml_node_eta]
  | cons s t ih =>
    intro i sn sfn
    obtain ⟨x, hx, -⟩ := write_base_format_spec s.tobase_format ss (new_node "xf")
    simp only [write_styles_loop, hx, Option.bind_eq_bind, Option.some_bind, read_each,
      Option.pure_def]
    refine (ih (i + 1) (sn.append_child (write_cell_style i s)) (sfn.append_child x)).trans ?_
    cases sn with
    | mk n1 a1 c1 =>
      cases sfn with
      | mk n2 a2 c2 =>
        cases read_each (fun (s : style D) =>
            write_base_format s.tobase_format ss (new_node "xf")) t <;>
          simp [xml_node.append_child, name_mk, attributes_mk, child_nodes_mk,
            List.enumFrom_cons]

/-- The lookup of an attribute that the first attributes do not hold. -/
theorem xml_attribute_mk_append (nm : String) (attrs more : List (String × String))
    (cs : List xml_node) (key : String)
    (h : xml_attribute (some (xml_node.mk nm attrs [])) key = none) :
    xml_attribute (some (xml_node.mk nm (attrs ++ more) cs)) key
      = xml_attribute (some (xml_node.mk nm more [])) key := by
  simp only [xml_attribute, attributes_mk, Option.map_eq_none'] at h
  simp [xml_attribute, attributes_mk, List.find?_append, h]

/-- The `cellStyle` element of a style: its name, no children, and its attributes. -/
theorem write_cell_style_spec {D : Type} (i : Nat) (s : style D) :
    (write_cell_style i s).name = "cellStyle"
    ∧ (write_cell_style i s).child_nodes = []
    ∧ xml_attribute (some (write_cell_style i s)) "name" = some s.name
    ∧ xml_attribute (some (write_cell_style i s)) "xfId" = some (to_string i)
    ∧ xml_attribute (some (write_cell_style i s)) "builtinId" = some (to_string s.builtin_id)
    ∧ xml_attribute (some (write_cell_style i s)) "hidden"
        = (if s.hidden then some "1" else none) := by
  unfold write_cell_style
  cases s.hidden <;>
    simp [new_node, xml_node.append_attribute, name_mk, attributes_mk, child_nodes_mk,
      xml_attribute]

/-- C23. Parallel lists on write: for styles s_0..s_{n-1}, `write_styles` succeeds and
appends exactly n `xf` children to the style format node and exactly n `cellStyle`
children to the styles node, after a count attribute n on both; the i-th `xf` is
what `write_base_format` writes for s_i, the i-th `cellStyle` carries the name of s_i,
xfId i, the builtin id of s_i, and a hidden attribute exactly when s_i is hidden. -/
theorem write_styles_parallel_lists {D : Type} [DecidableEq D] (ss : stylesheet D)
    (sn sfn : xml_node) :
    ∃ xfs, write_styles ss sn sfn = some
        (xml_node.mk sn.name (sn.attributes ++ [("count", to_string ss.styles.length)])
           (sn.child_nodes ++ ss.styles.enum.map (fun p => write_cell_style p.1 p.2)),
         xml_node.mk sfn.name (sfn.attributes ++ [("count", to_string ss.styles.length)])
           (sfn.child_nodes ++ xfs))
      ∧ xfs.length = ss.styles.length
      ∧ (ss.styles.enum.map (fun p => write_cell_style p.1 p.2)).length = ss.styles.length
      ∧ (∀ (i : Nat) (s : style D), ss.styles[i]? = some s →
          (∃ x, xfs[i]? = some x
            ∧ write_base_format s.tobase_format ss (new_node "xf") = some x
            ∧ x.name = "xf")
          ∧ (ss.styles.enum.map (fun p => write_cell_style p.1 p.2))[i]?
              = some (write_cell_style i s)
          ∧ (write_cell_style i s).name = "cellStyle"
          ∧ xml_attribute (some (write_cell_style i s)) "name" = some s.name
          ∧ xml_attribute (some (write_cell_style i s)) "xfId" = some (to_string i)
          ∧ xml_attribute (some (write_cell_style i s)) "builtinId"
              = some (to_string s.builtin_id)
          ∧ ((xml_attribute (some (write_cell_style i s)) "hidden").isSome = s.hidden))
      ∧ (xml_attribute (some sn) "count" = none →
          xml_attribute (some (xml_node.mk sn.name
            (sn.attributes ++ [("count", to_string ss.styles.length)])
            (sn.child_nodes ++ ss.styles.enum.map (fun p => write_cell_style p.1 p.2))))
            "count" = some (to_string ss.styles.length))
      ∧ (xml_attribute (some sfn) "count" = none →
          xml_attribute (some (xml_node.mk sfn.name
            (sfn.attributes ++ [("count", to_string ss.styles.length)])
            (sfn.child_nodes ++ xfs))) "count" = some (to_string ss.styles.length)) := by
  obtain ⟨xfs, hxfs⟩ := Option.isSome_iff_exists.1
    (read_each_isSome (fun (s : style D) =>
        write_base_format s.tobase_format ss (new_node "xf")) ss.styles
      (fun s _ => by
        obtain ⟨x, hx, -⟩ := write_base_format_spec s.tobase_format ss (new_node "xf")
        simp [hx]))
  have hall := read_each_eq_some _ _ _ hxfs
  refine ⟨xfs, ?_, (forall₂_getElem? hall).1.symm, by simp, ?_, ?_, ?_⟩
  · unfold write_styles
    rw [write_styles_loop_eq, hxfs]
    cases sn; cases sfn; rfl
  · intro i s hs
    obtain ⟨x, hx, hw⟩ := (forall₂_getElem? hall).2 i s hs
    obtain ⟨x', hx', hn', -⟩ := write_base_format_spec s.tobase_format ss (new_node "xf")
    have hxx : x' = x := Option.some.inj (hx'.symm.trans hw)
    subst hxx
    obtain ⟨h1, -, h3, h4, h5, h6⟩ := write_cell_style_spec i s
    refine ⟨⟨x', hx, hw, hn'⟩, ?_, h1, h3, h4, h5, ?_⟩
    · simp [List.getElem?_enum, hs]
    · rw [h6]; cases s.hidden <;> rfl
  · intro h
    cases sn with
    | mk nm attrs cs =>
      rw [name_mk, attributes_mk, xml_attribute_mk_append _ _ _ _ _ h]
      rfl
  · intro h
    cases sfn with
    | mk nm attrs cs =>
      rw [name_mk, attributes_mk, xml_attribute_mk_append _ _ _ _ _ h]
      rfl

/-- No position before `indexOf` holds the value. -/
theorem indexOf_least {α : Type} [DecidableEq α] (a : α) :
    ∀ (l : List α) (j : Nat), j < l.indexOf a → l[j]? ≠ some a := by
  intro l
  induction l with
  | nil => intro j h; simp at h
  | cons b t ih =>
    intro j h
    by_cases hb : b = a
    · rw [List.indexOf_cons_eq _ hb] at h
      exact absurd h (Nat.not_lt_zero _)
    · rw [List.indexOf_cons_ne _ hb] at h
      cases j with
      | zero => simpa using hb
      | succ j => simpa using ih j (Nat.lt_of_succ_lt_succ h)

/-- The position `indexOf` holds the value when the list has it. -/
theorem getElem?_indexOf {α : Type} [DecidableEq α] (a : α) (l : List α) (h : a ∈ l) :
    l[l.indexOf a]? = some a := by
  have hlt := List.indexOf_lt_length.2 h
  rw [List.getElem?_eq_getElem hlt, List.getElem_indexOf]

/-- Reading an index attribute that holds a printed number. -/
theorem read_index_written (nm : String) (attrs : List (String × String))
    (cs : List xml_node) (key : String) (n : Nat) (hn : n < 2 ^ 64)
    (h : xml_attribute (some (xml_node.mk nm attrs cs)) key = some (to_string n)) :
    read_index (some (xml_node.mk nm attrs cs)) key = some n := by
  simp [read_index, h, value, string_to_size_t_to_string n hn]


/-- C24. References are recomputed by value search: `write_base_format` writes as
fontId, fillId and borderId the `std::find` position of the font, fill and border in
the registries. When the registry holds the value, that is the least index of a
value-equal entry, the registry entry at the written index is the facet value, and
reading the written index back resolves to it, whether or not the registry has
duplicates. -/
theorem write_base_format_value_search {D : Type} [DecidableEq D] (xf : base_format D)
    (ss : stylesheet D) (node : xml_node)
    (hfont : xml_attribute (some node) "fontId" = none)
    (hfill : xml_attribute (some node) "fillId" = none)
    (hborder : xml_attribute (some node) "borderId" = none) :
    ∃ r, write_base_format xf ss node = some r
      ∧ xml_attribute (some r) "fontId" = some (to_string (ss.fonts.indexOf xf.font))
      ∧ xml_attribute (some r) "fillId" = some (to_string (ss.fills.indexOf xf.fill))
      ∧ xml_attribute (some r) "borderId" = some (to_string (ss.borders.indexOf xf.border))
      ∧ (xf.font ∈ ss.fonts →
          ss.fonts[ss.fonts.indexOf xf.font]? = some xf.font
          ∧ (∀ j, j < ss.fonts.indexOf xf.font → ss.fonts[j]? ≠ some xf.font)
          ∧ (ss.fonts.length < 2 ^ 64 →
              (read_index (some r) "fontId").bind (fun i => ss.fonts[i]?) = some xf.font))
      ∧ (xf.fill ∈ ss.fills →
          ss.fills[ss.fills.indexOf xf.fill]? = some xf.fill
          ∧ (∀ j, j < ss.fills.indexOf xf.fill → ss.fills[j]? ≠ some xf.fill)
          ∧ (ss.fills.length < 2 ^ 64 →
              (read_index (some r) "fillId").bind (fun i => ss.fills[i]?) = some xf.fill))
      ∧ (xf.border ∈ ss.borders →
          ss.borders[ss.borders.indexOf xf.border]? = some xf.border
          ∧ (∀ j, j < ss.borders.indexOf xf.border → ss.borders[j]? ≠ some xf.border)
          ∧ (ss.borders.length < 2 ^ 64 →
              (read_index (some r) "borderId").bind (fun i => ss.borders[i]?)
                = some xf.border)) := by
  obtain ⟨al, -, -, hw⟩ := write_base_format_eq xf ss node
  cases node with
  | mk nm attrs cs =>
    simp only [name_mk, attributes_mk, List.append_assoc] at hw
    refine ⟨_, hw, ?_, ?_, ?_, ?_, ?_, ?_⟩
    · rw [xml_attribute_mk_append _ _ _ _ _ hfont]
      simp [xml_attribute, attributes_mk]
    · rw [xml_attribute_mk_append _ _ _ _ _ hfill]
      simp [xml_attribute, attributes_mk]
    · rw [xml_attribute_mk_append _ _ _ _ _ hborder]
      simp [xml_attribute, attributes_mk]
    · intro hmem
      refine ⟨getElem?_indexOf _ _ hmem, indexOf_least _ _, fun hlen => ?_⟩
      rw [read_index_written _ _ _ _ (ss.fonts.indexOf xf.font)
        (Nat.lt_trans (List.indexOf_lt_length.2 hmem) hlen)]
      · exact getElem?_indexOf _ _ hmem
      · rw [xml_attribute_mk_append _ _ _ _ _ hfont]
        simp [xml_attribute, attributes_mk]
    · intro hmem
      refine ⟨getElem?_indexOf _ _ hmem, indexOf_least _ _, fun hlen => ?_⟩
      rw [read_index_written _ _ _ _ (ss.fills.indexOf xf.fill)
        (Nat.lt_trans (List.indexOf_lt_length.2 hmem) hlen)]
      · exact getElem?_indexOf _ _ hmem
      · rw [xml_attribute_mk_append _ _ _ _ _ hfill]
        simp [xml_attribute, attributes_mk]
    · intro hmem
      refine ⟨getElem?_indexOf _ _ hmem, indexOf_least _ _, fun hlen => ?_⟩
      rw [read_index_written _ _ _ _ (ss.borders.indexOf xf.border)
        (Nat.lt_trans (List.indexOf_lt_length.2 hmem) hlen)]
      · exact getElem?_indexOf _ _ hmem
      · rw [xml_attribute_mk_append _ _ _ _ _ hborder]
        simp [xml_attribute, attributes_mk]


/-- C23, at a concrete input: the one style of the header stylesheet, written into
fresh nodes. -/
theorem write_styles_parallel_lists_witness :
    ∃ xfs, write_styles (header_stylesheet : stylesheet String) (new_node "cellStyles")
          (new_node "cellStyleXfs")
        = some (xml_node.mk "cellStyles" [("count", "1")]
                  [xml_node.mk "cellStyle"
                    [("name", "Header"), ("xfId", "0"), ("builtinId", "0")] []],
                xml_node.mk "cellStyleXfs" [("count", "1")] xfs)
      ∧ xfs.length = 1
      ∧ ∃ x, xfs[0]? = some x
          ∧ write_base_format
              { (base_format.default : base_format String) with font := header_font }
              header_stylesheet (new_node "xf") = some x :=
  Exists.elim
    (write_styles_parallel_lists (header_stylesheet : stylesheet String)
      (new_node "cellStyles") (new_node "cellStyleXfs"))
    (fun xfs h => ⟨xfs, h.1, h.2.1,
      Exists.elim (h.2.2.2.1 0
        { tobase_format :=
            { (base_format.default : base_format String) with font := header_font },
          name := "Header", hidden := false, builtin_id := 0 } rfl).1
        (fun x hx => ⟨x, hx.1, hx.2.1⟩)⟩)

/-- C24, at a concrete input: a registry with the same font twice; the written
position is the first one. -/
theorem write_base_format_value_search_witness :
    (header_font : font String) ∈ duplicate_font_stylesheet.fonts
    ∧ duplicate_font_stylesheet.fonts.indexOf (header_font : font String) = 0
    ∧ ∃ r, write_base_format
          { (base_format.default : base_format String) with font := header_font }
          duplicate_font_stylesheet (new_node "xf") = some r
        ∧ xml_attribute (some r) "fontId"
            = some (to_string (duplicate_font_stylesheet.fonts.indexOf header_font))
        ∧ duplicate_font_stylesheet.fonts[duplicate_font_stylesheet.fonts.indexOf
            (header_font : font String)]? = some header_font :=
  ⟨by decide, by decide,
   Exists.elim
     (write_base_format_value_search
       { (base_format.default : base_format String) with font := header_font }
       duplicate_font_stylesheet (new_node "xf") rfl rfl rfl)
     (fun r h => ⟨r, h.1, h.2.1, (h.2.2.2.2.1 (by decide)).1⟩)⟩

/-! ## Sections of the written document -/

/-- The lookup of a child in an element given by its parts. -/
theorem child_mk (nm : String) (attrs : List (String × String)) (cs : List xml_node)
    (key : String) :
    child (some (xml_node.mk nm attrs cs)) key = cs.find? (fun c => c.name == key) := rfl

/-- The children of a name in an element given by its parts. -/
theorem children_named_mk (nm : String) (attrs : List (String × String))
    (cs : List xml_node) (key : String) :
    children_named (some (xml_node.mk nm attrs cs)) key
      = cs.filter (fun c => c.name == key) := rfl

/-- The two nodes `write_styles` fills: a count and one child per style in each. -/
theorem write_styles_eq {D : Type} [DecidableEq D] (ss : stylesheet D) (sn sfn : xml_node) :
    write_styles ss sn sfn
      = (read_each (fun (s : style D) =>
            write_base_format s.tobase_format ss (new_node "xf")) ss.styles).map
          (fun xfs =>
            (xml_node.mk sn.name (sn.attributes ++ [("count", to_string ss.styles.length)])
               (sn.child_nodes ++ ss.styles.enum.map (fun p => write_cell_style p.1 p.2)),
             xml_node.mk sfn.name (sfn.attributes ++ [("count", to_string ss.styles.length)])
               (sfn.child_nodes ++ xfs))) := by
  unfold write_styles
  rw [write_styles_loop_eq]
  cases sn; cases sfn; rfl

/-- The sections of a written document: for each of the ten section names, the
children of that name under the root that `write_stylesheet` appended. -/
theorem write_stylesheet_sections {D : Type} [DecidableEq D] (lib : library D)
    (ss : stylesheet D) (doc doc' : xml_node)
    (h : write_stylesheet lib ss doc = some doc') :
    ∃ root fo fi bo st cx,
      doc' = doc.append_child root ∧ root.name = "styleSheet"
      ∧ write_fonts lib ss.fonts (new_node "fonts") = some fo
      ∧ write_fills lib ss.fills (new_node "fills") = some fi
      ∧ write_borders lib ss.borders (new_node "borders") = some bo
      ∧ write_styles ss (new_node "cellStyles") (new_node "cellStyleXfs") = some st
      ∧ write_formats ss (new_node "cellXfs") = some cx
      ∧ children_named (some root) "numFmts"
          = (if ss.number_formats.isEmpty then []
             else [write_number_formats ss.number_formats (new_node "numFmts")])
      ∧ children_named (some root) "fonts" = (if ss.fonts.isEmpty then [] else [fo])
      ∧ children_named (some root) "fills" = (if ss.fills.isEmpty then [] else [fi])
      ∧ children_named (some root) "borders" = (if ss.borders.isEmpty then [] else [bo])
      ∧ children_named (some root) "cellStyleXfs" = [st.2]
      ∧ children_named (some root) "cellXfs" = [cx]
      ∧ children_named (some root) "cellStyles" = [st.1]
      ∧ children_named (some root) "dxfs" = [write_dxfs (new_node "dxfs")]
      ∧ children_named (some root) "tableStyles"
          = [write_table_styles (new_node "tableStyles")]
      ∧ children_named (some root) "colors"
          = (if ss.colors.isEmpty then []
             else [write_colors lib ss.colors (new_node "colors")]) := by
  obtain ⟨fo, fi, bo, st, hfo, hfon, hfi, hfin, hbo, hbon, hst, hst1, hst2, hroot⟩ :=
    write_root_spec lib ss
  have hws : write_stylesheet lib ss doc
      = (write_root lib ss).map (fun root => doc.append_child root) := by
    unfold write_stylesheet
    cases write_root lib ss <;> rfl
  rw [hws, hroot, Option.map_map, Option.map_eq_some'] at h
  obtain ⟨cx, hcx, rfl⟩ := h
  have hcxn : cx.name = "cellXfs" := write_formats_name ss _ cx hcx
  have hnf : (write_number_formats ss.number_formats (new_node "numFmts")).name = "numFmts" :=
    write_number_formats_name _ _
  have hco : (write_colors lib ss.colors (new_node "colors")).name = "colors" :=
    write_colors_name lib _ _
  have hdx : (write_dxfs (new_node "dxfs")).name = "dxfs" := rfl
  have hts : (write_table_styles (new_node "tableStyles")).name = "tableStyles" := rfl
  refine ⟨_, fo, fi, bo, st, cx, rfl, rfl, hfo, hfi, hbo, hst, hcx, ?_⟩
  simp only [Function.comp, children_named_mk]
  cases ss.number_formats.isEmpty <;> cases ss.fonts.isEmpty <;> cases ss.fills.isEmpty <;>
    cases ss.borders.isEmpty <;> cases ss.colors.isEmpty <;>
    simp [List.filter_cons, hfon, hfin, hbon, hst1, hst2, hcxn, hnf, hco, hdx, hts]

/-- The first element with a property is the head of the elements with it. -/
theorem find?_eq_head?_filter {α : Type} (p : α → Bool) (l : List α) :
    l.find? p = (l.filter p).head? := by
  induction l with
  | nil => rfl
  | cons a t ih =>
    cases hp : p a
    · rw [List.find?_cons_of_neg _ (by simp [hp]), List.filter_cons_of_neg (by simp [hp]), ih]
    · rw [List.find?_cons_of_pos _ hp, List.filter_cons_of_pos hp]
      rfl

/-- The call `child(name)` gives the first of `children(name)`. -/
theorem child_eq_head?_children_named (n : node_handle) (key : String) :
    child n key = (children_named n key).head? := by
  cases n with
  | none => rfl
  | some x => exact find?_eq_head?_filter _ _

/-- The stylesheet is written exactly when every format has a style name entry. -/
theorem write_stylesheet_isSome {D : Type} [DecidableEq D] (lib : library D)
    (ss : stylesheet D) (doc : xml_node) :
    (write_stylesheet lib ss doc).isSome = true
      ↔ ss.formats.length ≤ ss.format_styles.length := by
  obtain ⟨fo, fi, bo, st, -, -, -, -, -, -, -, -, -, hroot⟩ := write_root_spec lib ss
  have hws : write_stylesheet lib ss doc
      = (write_root lib ss).map (fun root => doc.append_child root) := by
    unfold write_stylesheet
    cases write_root lib ss <;> rfl
  rw [hws, hroot, Option.isSome_map', Option.isSome_map', write_formats_isSome]

/-- C21. Empty registries are omitted, format tables never: `write_stylesheet`
succeeds exactly when every format has a style name entry, and the root it writes has
a numFmts, fonts, fills, borders or colors child if and only if the corresponding
collection is non-empty, and always has a cellStyleXfs and a cellXfs child; for a
stylesheet without styles and formats it succeeds and both are elements with count 0
and no entries. -/
theorem write_stylesheet_optional_sections {D : Type} [DecidableEq D] (lib : library D)
    (ss : stylesheet D) (doc : xml_node) :
    ((write_stylesheet lib ss doc).isSome = true
      ↔ ss.formats.length ≤ ss.format_styles.length)
    ∧ (∀ doc', write_stylesheet lib ss doc = some doc' →
        ∃ root, doc' = doc.append_child root
          ∧ ((child (some root) "numFmts").isSome = true ↔ ss.number_formats ≠ [])
          ∧ ((child (some root) "fonts").isSome = true ↔ ss.fonts ≠ [])
          ∧ ((child (some root) "fills").isSome = true ↔ ss.fills ≠ [])
          ∧ ((child (some root) "borders").isSome = true ↔ ss.borders ≠ [])
          ∧ ((child (some root) "colors").isSome = true ↔ ss.colors ≠ [])
          ∧ (child (some root) "cellStyleXfs").isSome = true
          ∧ (child (some root) "cellXfs").isSome = true)
    ∧ (ss.styles = [] → ss.formats = [] →
        ∃ doc' root, write_stylesheet lib ss doc = some doc'
          ∧ doc' = doc.append_child root
          ∧ child (some root) "cellStyleXfs"
              = some (xml_node.mk "cellStyleXfs" [("count", "0")] [])
          ∧ child (some root) "cellXfs" = some (xml_node.mk "cellXfs" [("count", "0")] [])) := by
  refine ⟨write_stylesheet_isSome lib ss doc, ?_, ?_⟩
  · intro doc' h
    obtain ⟨root, fo, fi, bo, st, cx, hdoc, -, -, -, -, -, -, h1, h2, h3, h4, h5, h6, -, -, -,
      h10⟩ := write_stylesheet_sections lib ss doc doc' h
    refine ⟨root, hdoc, ?_, ?_, ?_, ?_, ?_, ?_, ?_⟩
    · rw [child_eq_head?_children_named, h1]
      cases ss.number_formats <;> simp
    · rw [child_eq_head?_children_named, h2]
      cases ss.fonts <;> simp
    · rw [child_eq_head?_children_named, h3]
      cases ss.fills <;> simp
    · rw [child_eq_head?_children_named, h4]
      cases ss.borders <;> simp
    · rw [child_eq_head?_children_named, h10]
      cases ss.colors <;> simp
    · rw [child_eq_head?_children_named, h5]; rfl
    · rw [child_eq_head?_children_named, h6]; rfl
  · intro hs hf
    obtain ⟨doc', hdoc'⟩ := Option.isSome_iff_exists.1
      ((write_stylesheet_isSome lib ss doc).2 (by simp [hf]))
    obtain ⟨root, fo, fi, bo, st, cx, hdoc, -, -, -, -, hst, hcx, -, -, -, -, h5, h6, -⟩ :=
      write_stylesheet_sections lib ss doc doc' hdoc'
    refine ⟨doc', root, hdoc', hdoc, ?_, ?_⟩
    · rw [child_eq_head?_children_named, h5]
      rw [write_styles_eq, hs] at hst
      cases hst
      simp only [List.length_nil]
      rfl
    · rw [child_eq_head?_children_named, h6]
      rw [write_formats_eq, hf] at hcx
      simp only [List.length_nil, Nat.zero_le, if_true, List.zip_nil_left, read_each,
        Option.map_some', Option.some.injEq] at hcx
      rw [← hcx]
      rfl

/-- C22, counterexample: the empty stylesheet has zero styles, and the markup
`write_stylesheet` produces for it has a `cellStyles` element, with count 0. -/
theorem empty_stylesheet_writes_cellStyles :
    (stylesheet.empty : stylesheet String).styles = []
    ∧ ∃ doc root, write_stylesheet example_library stylesheet.empty empty_document = some doc
        ∧ doc = empty_document.append_child root
        ∧ child (some root) "cellStyles"
            = some (xml_node.mk "cellStyles" [("count", "0")] []) := by
  refine ⟨rfl, ?_⟩
  obtain ⟨doc', hdoc'⟩ := Option.isSome_iff_exists.1
    ((write_stylesheet_isSome example_library stylesheet.empty empty_document).2 (by decide))
  obtain ⟨root, fo, fi, bo, st, cx, hdoc, -, -, -, -, hst, -, -, -, -, -, -, -, h7, -⟩ :=
    write_stylesheet_sections example_library stylesheet.empty empty_document doc' hdoc'
  refine ⟨doc', root, hdoc', hdoc, ?_⟩
  rw [child_eq_head?_children_named, h7]
  rw [write_styles_eq] at hst
  cases hst
  rfl

/-- C22, amended: the named-style section is always written. The root that
`write_stylesheet` writes has exactly one `cellStyles` child, with the count of the
styles and one `cellStyle` entry per style; with zero styles it is the element with
count 0 and no entries. -/
theorem write_stylesheet_always_writes_cellStyles {D : Type} [DecidableEq D]
    (lib : library D) (ss : stylesheet D) (doc doc' : xml_node)
    (h : write_stylesheet lib ss doc = some doc') :
    ∃ root, doc' = doc.append_child root
      ∧ children_named (some root) "cellStyles"
          = [xml_node.mk "cellStyles" [("count", to_string ss.styles.length)]
              (ss.styles.enum.map (fun p => write_cell_style p.1 p.2))]
      ∧ (ss.styles.enum.map (fun p => write_cell_style p.1 p.2)).length = ss.styles.length
      ∧ (ss.styles = [] →
          child (some root) "cellStyles"
            = some (xml_node.mk "cellStyles" [("count", "0")] [])) := by
  obtain ⟨root, fo, fi, bo, st, cx, hdoc, -, -, -, -, hst, -, -, -, -, -, -, -, h7, -⟩ :=
    write_stylesheet_sections lib ss doc doc' h
  rw [write_styles_eq, Option.map_eq_some'] at hst
  obtain ⟨xfs, -, rfl⟩ := hst
  refine ⟨root, hdoc, h7, by simp, ?_⟩
  intro hs
  rw [child_eq_head?_children_named, h7, hs]
  simp only [List.length_nil]
  rfl

/-- C22, at a concrete input: the header stylesheet. -/
theorem write_stylesheet_always_writes_cellStyles_witness :
    ∃ root, header_markup example_library = empty_document.append_child root
      ∧ children_named (some root) "cellStyles"
          = [xml_node.mk "cellStyles" [("count", "1")]
              [xml_node.mk "cellStyle"
                [("name", "Header"), ("xfId", "0"), ("builtinId", "0")] []]] :=
  Exists.elim
    (write_stylesheet_always_writes_cellStyles example_library header_stylesheet
      empty_document (header_markup example_library) (write_header example_library))
    (fun root h => ⟨root, h.1, h.2.1⟩)

/-- C21, at a concrete input: the header stylesheet, with fonts and without number
formats. -/
theorem write_stylesheet_optional_sections_witness :
    ∃ root, header_markup example_library = empty_document.append_child root
      ∧ ((child (some root) "numFmts").isSome = true
          ↔ (header_stylesheet : stylesheet String).number_formats ≠ [])
      ∧ ((child (some root) "fonts").isSome = true
          ↔ (header_stylesheet : stylesheet String).fonts ≠ [])
      ∧ (child (some root) "cellXfs").isSome = true :=
  Exists.elim
    ((write_stylesheet_optional_sections example_library header_stylesheet
      empty_document).2.1 (header_markup example_library) (write_header example_library))
    (fun root h => ⟨root, h.1, h.2.1, h.2.2.1, h.2.2.2.2.2.2.2⟩)

/-! ## Written fonts and borders -/

/-- The color writer keeps the name of its node. -/
theorem write_color_name {D : Type} (lib : library D) (c : color D) (node : xml_node) :
    (write_color lib c node).name = node.name := by
  unfold write_color
  cases c.kind <;> exact name_append_attribute _ _ _

/-- The `font` element of a font: the children in the order of the source, the
optional ones only when the font has the property. -/
theorem write_font_eq {D : Type} (lib : library D) (f : font D) :
    ∃ u, underline_style_to_string f.underline = some u
      ∧ write_font lib f = some (xml_node.mk "font" []
          ((if f.bold then [xml_node.mk "b" [("val", "1")] []] else [])
            ++ (if f.italic then [xml_node.mk "i" [("val", "1")] []] else [])
            ++ (if f.is_underline then [xml_node.mk "u" [("val", u)] []] else [])
            ++ (if f.strikethrough then [xml_node.mk "strike" [("val", "1")] []] else [])
            ++ [xml_node.mk "sz" [("val", to_string f.size)] [],
                write_color lib f.color (new_node "color"),
                xml_node.mk "name" [("val", f.name)] []]
            ++ (match f.family with
                | some fam => [xml_node.mk "family" [("val", to_string fam)] []]
                | none => [])
            ++ (match f.scheme with
                | some sch => [xml_node.mk "scheme" [("val", sch)] []]
                | none => []))) := by
  obtain ⟨u, hu⟩ := Option.isSome_iff_exists.1 (underline_style_to_string_isSome f.underline)
  refine ⟨u, hu, ?_⟩
  unfold write_font
  rw [hu]
  cases f.bold <;> cases f.italic <;> cases f.is_underline <;> cases f.strikethrough <;>
    cases f.family <;> cases f.scheme <;> rfl

/-- The children of each name in the `font` element of a font. -/
theorem write_font_children {D : Type} (lib : library D) (f : font D) :
    ∃ node u, write_font lib f = some node
      ∧ underline_style_to_string f.underline = some u
      ∧ node.name = "font"
      ∧ children_named (some node) "sz" = [xml_node.mk "sz" [("val", to_string f.size)] []]
      ∧ children_named (some node) "name" = [xml_node.mk "name" [("val", f.name)] []]
      ∧ children_named (some node) "b"
          = (if f.bold then [xml_node.mk "b" [("val", "1")] []] else [])
      ∧ children_named (some node) "i"
          = (if f.italic then [xml_node.mk "i" [("val", "1")] []] else [])
      ∧ children_named (some node) "strike"
          = (if f.strikethrough then [xml_node.mk "strike" [("val", "1")] []] else [])
      ∧ children_named (some node) "u"
          = (if f.is_underline then [xml_node.mk "u" [("val", u)] []] else [])
      ∧ children_named (some node) "family"
          = (match f.family with
             | some fam => [xml_node.mk "family" [("val", to_string fam)] []]
             | none => [])
      ∧ children_named (some node) "scheme"
          = (match f.scheme with
             | some sch => [xml_node.mk "scheme" [("val", sch)] []]
             | none => [])
      ∧ children_named (some node) "color" = [write_color lib f.color (new_node "color")] := by
  obtain ⟨u, hu, hw⟩ := write_font_eq lib f
  have hc : (write_color lib f.color (new_node "color")).name = "color" :=
    write_color_name lib _ _
  refine ⟨_, u, hw, hu, rfl, ?_⟩
  simp only [children_named_mk]
  cases f.bold <;> cases f.italic <;> cases f.is_underline <;> cases f.strikethrough <;>
    cases f.family <;> cases f.scheme <;>
    simp [List.filter_cons, hc, name_mk]

/-- C25. Font size and name are always written: `write_fonts` succeeds, and for every
font of the list the `font` element at its position has exactly one `sz` child and
exactly one `name` child, whose `val` attributes are the size and the name of the
font, whatever its other attributes; a `b`, `i`, `strike`, `u`, `family` or `scheme`
child is present exactly when the font is bold, italic, struck through, underlined,
has a family or has a scheme, and then once. -/
theorem write_fonts_size_and_name {D : Type} (lib : library D) (fonts : List (font D))
    (node : xml_node) :
    ∃ cs, write_fonts lib fonts node = some (xml_node.mk node.name
          (node.attributes ++ [("count", to_string fonts.length)]) (node.child_nodes ++ cs))
      ∧ cs.length = fonts.length
      ∧ ∀ (i : Nat) (f : font D), fonts[i]? = some f →
          ∃ c, cs[i]? = some c ∧ c.name = "font"
            ∧ children_named (some c) "sz" = [xml_node.mk "sz" [("val", to_string f.size)] []]
            ∧ children_named (some c) "name" = [xml_node.mk "name" [("val", f.name)] []]
            ∧ xml_attribute (child (some c) "sz") "val" = some (to_string f.size)
            ∧ xml_attribute (child (some c) "name") "val" = some f.name
            ∧ (child (some c) "b").isSome = f.bold
            ∧ (child (some c) "i").isSome = f.italic
            ∧ (child (some c) "strike").isSome = f.strikethrough
            ∧ (child (some c) "u").isSome = f.is_underline
            ∧ (child (some c) "family").isSome = f.family.isSome
            ∧ (child (some c) "scheme").isSome = f.scheme.isSome
            ∧ (children_named (some c) "b").length ≤ 1
            ∧ (children_named (some c) "i").length ≤ 1
            ∧ (children_named (some c) "strike").length ≤ 1
            ∧ (children_named (some c) "u").length ≤ 1
            ∧ (children_named (some c) "family").length ≤ 1
            ∧ (children_named (some c) "scheme").length ≤ 1 := by
  obtain ⟨cs, hcs⟩ := Option.isSome_iff_exists.1
    (read_each_isSome (write_font lib) fonts (fun f _ => write_font_isSome lib f))
  have hall := read_each_eq_some _ _ _ hcs
  refine ⟨cs, by rw [write_fonts_eq, hcs]; rfl, (forall₂_getElem? hall).1.symm, ?_⟩
  intro i f hf
  obtain ⟨c, hc, hw⟩ := (forall₂_getElem? hall).2 i f hf
  obtain ⟨c', u, hw', -, hn, hsz, hname, hb, hi, hst, hu, hfam, hsch, -⟩ :=
    write_font_children lib f
  have hcc : c' = c := Option.some.inj (hw'.symm.trans hw)
  subst hcc
  refine ⟨c', hc, hn, hsz, hname, ?_, ?_, ?_, ?_, ?_, ?_, ?_, ?_, ?_, ?_, ?_, ?_, ?_, ?_⟩
  · rw [child_eq_head?_children_named, hsz]; rfl
  · rw [child_eq_head?_children_named, hname]; rfl
  · rw [child_eq_head?_children_named, hb]; cases f.bold <;> rfl
  · rw [child_eq_head?_children_named, hi]; cases f.italic <;> rfl
  · rw [child_eq_head?_children_named, hst]; cases f.strikethrough <;> rfl
  · rw [child_eq_head?_children_named, hu]; cases f.is_underline <;> rfl
  · rw [child_eq_head?_children_named, hfam]; cases f.family <;> rfl
  · rw [child_eq_head?_children_named, hsch]; cases f.scheme <;> rfl
  · rw [hb]; cases f.bold <;> decide
  · rw [hi]; cases f.italic <;> decide
  · rw [hst]; cases f.strikethrough <;> decide
  · rw [hu]; cases f.is_underline <;> simp
  · rw [hfam]; cases f.family <;> simp
  · rw [hsch]; cases f.scheme <;> simp

/-- C25, at a concrete input: the bold Calibri 11 font. -/
theorem write_fonts_size_and_name_witness :
    ∃ cs, write_fonts example_library [(header_font : font String)] (new_node "fonts")
        = some (xml_node.mk "fonts" [("count", "1")] cs)
      ∧ cs.length = 1
      ∧ ∃ c, cs[0]? = some c
          ∧ xml_attribute (child (some c) "sz") "val" = some "11"
          ∧ xml_attribute (child (some c) "name") "val" = some "Calibri"
          ∧ (child (some c) "b").isSome = true
          ∧ (child (some c) "i").isSome = false :=
  Exists.elim (write_fonts_size_and_name example_library [(header_font : font String)]
      (new_node "fonts"))
    (fun cs h => ⟨cs, h.1, h.2.1,
      Exists.elim (h.2.2 0 header_font rfl)
        (fun c hc => ⟨c, hc.1, hc.2.2.2.2.1, hc.2.2.2.2.2.1, hc.2.2.2.2.2.2.1,
          hc.2.2.2.2.2.2.2.1⟩)⟩)

/-- The element of one side: a style attribute when the side has a style, a color
child when it has a color. -/
theorem write_side_eq {D : Type} (lib : library D) (nm : String) (s : border_property D) :
    write_side lib nm s = some (xml_node.mk nm
      (match s.style.bind border_style_to_string with
       | some style_string => [("style", style_string)]
       | none => [])
      (match s.color with
       | some c => [write_color lib c (new_node "color")]
       | none => [])) := by
  unfold write_side
  cases hst : s.style with
  | none => cases hc : s.color <;> rfl
  | some st =>
    obtain ⟨x, hx⟩ := Option.isSome_iff_exists.1 (border_style_to_string_isSome st)
    cases hc : s.color <;> simp [hx] <;> rfl

/-- The loop of `write_borders` over the side names: one child per side the border
has, in the order of the table. -/
theorem write_border_loop_eq {D : Type} (lib : library D) (b : border D) :
    ∀ (sides : List (border_side × String)) (node : xml_node),
      sides.foldlM (fun border_node side_name =>
          match b.side side_name.1 with
          | some current_side => do
            let side_node ← write_side lib side_name.2 current_side
            pure (border_node.append_child side_node)
          | none => pure border_node) node
        = some (xml_node.mk node.name node.attributes
            (node.child_nodes ++ sides.filterMap (fun side_name =>
              (b.side side_name.1).bind (write_side lib side_name.2)))) := by
  intro sides
  induction sides with
  | nil => intro node; simp [xml_node_eta]
  | cons sn t ih =>
    intro node
    rw [List.foldlM_cons]
    cases hs : b.side sn.1 with
    | none =>
      refine (ih node).trans ?_
      simp [List.filterMap_cons, hs]
    | some s =>
      dsimp only
      rw [write_side_eq]
      refine (ih _).trans ?_
      cases node
      simp [List.filterMap_cons, hs, write_side_eq, xml_node.append_child, name_mk,
        attributes_mk, child_nodes_mk]

/-- The `border` element of a border. -/
theorem write_border_eq {D : Type} (lib : library D) (b : border D) :
    write_border lib b = some (xml_node.mk "border" []
      (get_side_names.filterMap (fun side_name =>
        (b.side side_name.1).bind (write_side lib side_name.2)))) :=
  write_border_loop_eq lib b get_side_names (new_node "border")

/-- The lookup by name among elements written from a list of distinct names. -/
theorem find?_filterMap_unique {α : Type} (g : α → Option xml_node) (nm : α → String)
    (hg : ∀ a c, g a = some c → c.name = nm a) :
    ∀ (l : List α), l.Pairwise (fun a b => nm a ≠ nm b) → ∀ a ∈ l,
      (l.filterMap g).find? (fun c => c.name == nm a) = g a := by
  intro l
  induction l with
  | nil => intro _ a ha; cases ha
  | cons x t ih =>
    intro hp a ha
    rw [List.pairwise_cons] at hp
    rcases List.mem_cons.1 ha with rfl | hat
    · cases hgx : g a with
      | none =>
        rw [List.filterMap_cons_none hgx, List.find?_eq_none]
        intro c hc
        obtain ⟨y, hy, hgy⟩ := List.mem_filterMap.1 hc
        simpa [hg y c hgy] using (hp.1 y hy).symm
      | some c =>
        rw [List.filterMap_cons_some hgx, List.find?_cons_of_pos]
        simp [hg a c hgx]
    · have hne : nm x ≠ nm a := hp.1 a hat
      cases hgx : g x with
      | none => rw [List.filterMap_cons_none hgx]; exact ih hp.2 a hat
      | some c =>
        rw [List.filterMap_cons_some hgx, List.find?_cons_of_neg]
        · exact ih hp.2 a hat
        · simpa [hg x c hgx] using hne

/-- The child of a side name in the `border` element of a border. -/
theorem write_border_side_child {D : Type} (lib : library D) (b : border D)
    (sn : border_side × String) (hsn : sn ∈ get_side_names) :
    child (some (xml_node.mk "border" []
        (get_side_names.filterMap (fun side_name =>
          (b.side side_name.1).bind (write_side lib side_name.2))))) sn.2
      = (b.side sn.1).bind (write_side lib sn.2) := by
  rw [child_mk]
  refine find?_filterMap_unique
    (fun side_name : border_side × String =>
      (b.side side_name.1).bind (write_side lib side_name.2)) Prod.snd ?_ get_side_names
    (by decide) sn hsn
  intro a c hc
  cases hs : b.side a.1 with
  | none => simp [hs] at hc
  | some s =>
    simp only [hs, Option.some_bind, write_side_eq, Option.some.injEq] at hc
    rw [← hc]
    rfl

/-- C26. Absent border sides are not written: `write_borders` succeeds, and for every
border of the list the `border` element at its position has a child of a side name
if and only if the border has that side, and no child of another name; the child
carries a style attribute if and only if the side has a style (its keyword) and a
color child if and only if the side has a color. -/
theorem write_borders_sides {D : Type} (lib : library D) (borders : List (border D))
    (node : xml_node) :
    ∃ cs, write_borders lib borders node = some (xml_node.mk node.name
          (node.attributes ++ [("count", to_string borders.length)]) (node.child_nodes ++ cs))
      ∧ cs.length = borders.length
      ∧ ∀ (i : Nat) (b : border D), borders[i]? = some b →
          ∃ c, cs[i]? = some c ∧ c.name = "border"
            ∧ (∀ e ∈ c.child_nodes, ∃ sn ∈ get_side_names, e.name = sn.2)
            ∧ ∀ sn ∈ get_side_names,
                (child (some c) sn.2).isSome = (b.side sn.1).isSome
                ∧ ∀ s, b.side sn.1 = some s →
                    ∃ e, child (some c) sn.2 = some e ∧ e.name = sn.2
                      ∧ (xml_attribute (some e) "style").isSome = s.style.isSome
                      ∧ xml_attribute (some e) "style" = s.style.bind border_style_to_string
                      ∧ (child (some e) "color").isSome = s.color.isSome
                      ∧ child (some e) "color"
                          = s.color.map (fun col => write_color lib col (new_node "color")) := by
  obtain ⟨cs, hcs⟩ := Option.isSome_iff_exists.1
    (read_each_isSome (write_border lib) borders (fun b _ => write_border_isSome lib b))
  have hall := read_each_eq_some _ _ _ hcs
  refine ⟨cs, by rw [write_borders_eq, hcs]; rfl, (forall₂_getElem? hall).1.symm, ?_⟩
  intro i b hb
  obtain ⟨c, hc, hw⟩ := (forall₂_getElem? hall).2 i b hb
  rw [write_border_eq, Option.some.injEq] at hw
  subst hw
  refine ⟨_, hc, rfl, ?_, ?_⟩
  · intro e he
    rw [child_nodes_mk] at he
    obtain ⟨sn, hsn, hg⟩ := List.mem_filterMap.1 he
    refine ⟨sn, hsn, ?_⟩
    cases hs : b.side sn.1 with
    | none => simp [hs] at hg
    | some s =>
      simp only [hs, Option.some_bind, write_side_eq, Option.some.injEq] at hg
      rw [← hg]
      rfl
  · intro sn hsn
    rw [write_border_side_child lib b sn hsn]
    constructor
    · cases hs : b.side sn.1 with
      | none => rfl
      | some s => simp [write_side_eq]
    · intro s hs
      rw [hs, Option.some_bind, write_side_eq]
      refine ⟨_, rfl, rfl, ?_, ?_, ?_, ?_⟩
      · cases hst : s.style with
        | none => rfl
        | some st =>
          obtain ⟨x, hx⟩ := Option.isSome_iff_exists.1 (border_style_to_string_isSome st)
          simp [hx, xml_attribute, attributes_mk]
      · cases hst : s.style with
        | none => rfl
        | some st =>
          obtain ⟨x, hx⟩ := Option.isSome_iff_exists.1 (border_style_to_string_isSome st)
          simp [hx, xml_attribute, attributes_mk]
      · cases hcol : s.color with
        | none => rfl
        | some col => simp [child_mk, write_color_name, name_new_node]
      · cases hcol : s.color with
        | none => rfl
        | some col => simp [child_mk, write_color_name, name_new_node]

/-- C26, at a concrete input: a border with a left side and a bare top side. -/
theorem write_borders_sides_witness :
    ∃ cs, write_borders example_library [two_sided_border] (new_node "borders")
        = some (xml_node.mk "borders" [("count", "1")] cs)
      ∧ ∃ c, cs[0]? = some c
          ∧ (child (some c) "left").isSome = true
          ∧ (child (some c) "right").isSome = false
          ∧ (child (some c) "top").isSome = true
          ∧ ∃ e, child (some c) "top" = some e
              ∧ (xml_attribute (some e) "style").isSome = false
              ∧ (child (some e) "color").isSome = false :=
  Exists.elim (write_borders_sides example_library [two_sided_border] (new_node "borders"))
    (fun cs h => ⟨cs, h.1,
      Exists.elim (h.2.2 0 two_sided_border rfl)
        (fun c hc => ⟨c, hc.1,
          (hc.2.2.2 (.left, "left") (by decide)).1,
          (hc.2.2.2 (.right, "right") (by decide)).1,
          (hc.2.2.2 (.top, "top") (by decide)).1,
          Exists.elim ((hc.2.2.2 (.top, "top") (by decide)).2 ⟨none, none⟩ rfl)
            (fun e he => ⟨e, he.1, he.2.2.1, he.2.2.2.2.1⟩)⟩)⟩)

/-! ## Interning through the workbook -/

/-- The registry holds the value after the insert. -/
theorem intern_mem {α : Type} [DecidableEq α] (registry : List α) (v : α) :
    v ∈ (intern registry v).1 := by
  unfold intern
  split
  · assumption
  · simp

/-- Interning idempotence: inserting the same value again gives the same index and
leaves the registry as it is. -/
theorem intern_idempotent {α : Type} [DecidableEq α] (registry : List α) (v : α) :
    intern (intern registry v).1 v = ((intern registry v).1, (intern registry v).2) := by
  have hmem := intern_mem registry v
  by_cases h : v ∈ registry
  · simp [intern, h]
  · have hidx : (registry ++ [v]).indexOf v = registry.length := by
      rw [List.indexOf_append_of_not_mem h]
      simp
    simp [intern, h, hidx]

/-- An insert adds at most one entry. -/
theorem intern_length_le {α : Type} [DecidableEq α] (registry : List α) (v : α) :
    (intern registry v).1.length ≤ registry.length + 1 := by
  unfold intern
  split <;> simp

/-- C30. Interning through `add_format`, on the model of the spec: starting from any
stylesheet, two sequential `add_format` calls whose formats have value-identical font,
fill and border return two distinct format indices and append the two formats, found
at those indices, while the second call leaves the font, fill and border registries
unchanged, so each gains at most one entry in total. -/
theorem add_format_interns {D : Type} [DecidableEq D]
    (reg : List number_format → number_format → List number_format)
    (ss : stylesheet D) (f1 f2 : format D) (n1 n2 : String)
    (hfont : f1.font = f2.font) (hfill : f1.fill = f2.fill)
    (hborder : f1.border = f2.border) :
    (add_format reg ss f1 n1).2 ≠ (add_format reg (add_format reg ss f1 n1).1 f2 n2).2
    ∧ (add_format reg (add_format reg ss f1 n1).1 f2 n2).1.formats = ss.formats ++ [f1, f2]
    ∧ (add_format reg (add_format reg ss f1 n1).1 f2 n2).1.formats[
          (add_format reg ss f1 n1).2]? = some f1
    ∧ (add_format reg (add_format reg ss f1 n1).1 f2 n2).1.formats[
          (add_format reg (add_format reg ss f1 n1).1 f2 n2).2]? = some f2
    ∧ (add_format reg (add_format reg ss f1 n1).1 f2 n2).1.fonts
        = (add_format reg ss f1 n1).1.fonts
    ∧ (add_format reg (add_format reg ss f1 n1).1 f2 n2).1.fills
        = (add_format reg ss f1 n1).1.fills
    ∧ (add_format reg (add_format reg ss f1 n1).1 f2 n2).1.borders
        = (add_format reg ss f1 n1).1.borders
    ∧ (add_format reg (add_format reg ss f1 n1).1 f2 n2).1.fonts.length
        ≤ ss.fonts.length + 1
    ∧ (add_format reg (add_format reg ss f1 n1).1 f2 n2).1.fills.length
        ≤ ss.fills.length + 1
    ∧ (add_format reg (add_format reg ss f1 n1).1 f2 n2).1.borders.length
        ≤ ss.borders.length + 1 := by
  have e1 : (add_format reg (add_format reg ss f1 n1).1 f2 n2).1.fonts
      = (add_format reg ss f1 n1).1.fonts := by
    show (intern (intern ss.fonts f1.font).1 f2.font).1 = (intern ss.fonts f1.font).1
    rw [← hfont, intern_idempotent]
  have e2 : (add_format reg (add_format reg ss f1 n1).1 f2 n2).1.fills
      = (add_format reg ss f1 n1).1.fills := by
    show (intern (intern ss.fills f1.fill).1 f2.fill).1 = (intern ss.fills f1.fill).1
    rw [← hfill, intern_idempotent]
  have e3 : (add_format reg (add_format reg ss f1 n1).1 f2 n2).1.borders
      = (add_format reg ss f1 n1).1.borders := by
    show (intern (intern ss.borders f1.border).1 f2.border).1 = (intern ss.borders f1.border).1
    rw [← hborder, intern_idempotent]
  refine ⟨?_, ?_, ?_, ?_, e1, e2, e3, ?_, ?_, ?_⟩
  · show ss.formats.length ≠ (ss.formats ++ [f1]).length
    simp
  · show (ss.formats ++ [f1]) ++ [f2] = ss.formats ++ [f1, f2]
    simp
  · show ((ss.formats ++ [f1]) ++ [f2])[ss.formats.length]? = some f1
    rw [List.append_assoc, List.getElem?_append_right (Nat.le_refl _), Nat.sub_self]
    rfl
  · show ((ss.formats ++ [f1]) ++ [f2])[(ss.formats ++ [f1]).length]? = some f2
    rw [List.getElem?_append_right (Nat.le_refl _), Nat.sub_self]
    rfl
  · rw [e1]; exact intern_length_le _ _
  · rw [e2]; exact intern_length_le _ _
  · rw [e3]; exact intern_length_le _ _


/-- C30, at a concrete input: two formats with the same new font added to the header
stylesheet. -/
theorem add_format_interns_witness :
    (header_stylesheet : stylesheet String).fonts.length = 1
    ∧ (add_format (fun r _ => r) (header_stylesheet : stylesheet String)
        ⟨{ (base_format.default : base_format String) with font := plain_font }⟩ "").2 = 1
    ∧ (add_format (fun r _ => r)
        (add_format (fun r _ => r) (header_stylesheet : stylesheet String)
          ⟨{ (base_format.default : base_format String) with font := plain_font }⟩ "").1
        ⟨{ (base_format.default : base_format String) with
            font := plain_font, font_applied := true }⟩ "Header").2 = 2
    ∧ (add_format (fun r _ => r)
        (add_format (fun r _ => r) (header_stylesheet : stylesheet String)
          ⟨{ (base_format.default : base_format String) with font := plain_font }⟩ "").1
        ⟨{ (base_format.default : base_format String) with
            font := plain_font, font_applied := true }⟩ "Header").1.fonts.length = 2
    ∧ (add_format (fun r _ => r)
        (add_format (fun r _ => r) (header_stylesheet : stylesheet String)
          ⟨{ (base_format.default : base_format String) with font := plain_font }⟩ "").1
        ⟨{ (base_format.default : base_format String) with
            font := plain_font, font_applied := true }⟩ "Header").1.fonts
        = (add_format (fun r _ => r) (header_stylesheet : stylesheet String)
          ⟨{ (base_format.default : base_format String) with font := plain_font }⟩ "").1.fonts :=
  ⟨by decide, by decide, by decide, by decide,
   (add_format_interns (fun r _ => r) (header_stylesheet : stylesheet String)
      ⟨{ (base_format.default : base_format String) with font := plain_font }⟩
      ⟨{ (base_format.default : base_format String) with
          font := plain_font, font_applied := true }⟩ "" "Header" rfl rfl rfl).2.2.2.2.1⟩

/-! ## Decoding defaults and failures -/

/-- A loop of reads succeeds exactly when every read succeeds. -/
theorem read_each_isSome_iff {α β : Type} (read : α → Option β) (l : List α) :
    (read_each read l).isSome = true ↔ ∀ a ∈ l, (read a).isSome = true := by
  constructor
  · intro h a ha
    obtain ⟨r, hr⟩ := Option.isSome_iff_exists.1 h
    obtain ⟨b, -, hb⟩ := forall₂_mem_left (read_each_eq_some read l r hr) a ha
    simp [hb]
  · exact read_each_isSome read l

/-- C37. Number-format table decoding: `read_number_formats` succeeds exactly when
every `numFmtId` of a `numFmt` child parses, and then gives one entry per `numFmt`
child in document order, with the id `numFmtId` and the format string `formatCode`,
except that the exact code "GENERAL" is stored as "General"; the result is the number
format registry after a load, whatever it was before. On the example section "general"
is stored unchanged, and an id below 164 and repeated ids are accepted. -/
theorem read_number_formats_table {D : Type} (lib : library D) :
    (∀ n : node_handle,
      ((read_number_formats n).isSome = true ↔
        ∀ c ∈ children_named n "numFmt",
          (string_to_size_t (value (xml_attribute (some c) "numFmtId"))).isSome = true)
      ∧ ∀ r, read_number_formats n = some r →
          r.length = (children_named n "numFmt").length
          ∧ List.Forall₂ (fun c (nf : number_format) =>
              string_to_size_t (value (xml_attribute (some c) "numFmtId")) = some nf.id
              ∧ nf.format_string =
                  (if value (xml_attribute (some c) "formatCode") = "GENERAL" then "General"
                   else value (xml_attribute (some c) "formatCode")))
            (children_named n "numFmt") r)
    ∧ (∀ (ss : stylesheet D) (xml : xml_node) (r : stylesheet D),
        read_stylesheet lib ss xml = some r →
        read_number_formats (child (child (some xml) "styleSheet") "numFmts")
          = some r.number_formats)
    ∧ read_number_formats (some example_numFmts_node)
        = some [⟨164, "General"⟩, ⟨164, "general"⟩, ⟨14, "yyyy"⟩, ⟨14, "dd"⟩] := by
  refine ⟨fun n => ⟨?_, ?_⟩, ?_, by decide⟩
  · unfold read_number_formats
    rw [read_each_isSome_iff]
    constructor
    · intro h c hc
      have := h c hc
      cases hid : string_to_size_t (value (xml_attribute (some c) "numFmtId")) with
      | none => simp [hid] at this
      | some i => rfl
    · intro h c hc
      obtain ⟨i, hi⟩ := Option.isSome_iff_exists.1 (h c hc)
      simp [hi]
  · intro r hr
    have hall := read_each_eq_some _ _ _ hr
    refine ⟨(forall₂_getElem? hall).1.symm, List.Forall₂.imp ?_ hall⟩
    intro c nf h
    simp only [Option.bind_eq_bind, Option.pure_def, Option.bind_eq_some, Option.some.injEq] at h
    obtain ⟨i, hi, rfl⟩ := h
    refine ⟨hi, ?_⟩
    by_cases hg : value (xml_attribute (some c) "formatCode") = "GENERAL" <;> simp [hg]
  · intro ss xml r h
    obtain ⟨b, fi, fo, nf, co, st, fm, -, -, -, hnf, -, -, -, rfl⟩ :=
      (read_stylesheet_eq_some lib ss xml r).1 h
    exact hnf

/-- C37, at a concrete input: the example section, with a child of another name. -/
theorem read_number_formats_table_witness :
    read_number_formats (some example_numFmts_node)
      = some [⟨164, "General"⟩, ⟨164, "general"⟩, ⟨14, "yyyy"⟩, ⟨14, "dd"⟩]
    ∧ ([⟨164, "General"⟩, ⟨164, "general"⟩, ⟨14, "yyyy"⟩, ⟨14, "dd"⟩]
        : List number_format).length = (children_named (some example_numFmts_node) "numFmt").length :=
  ⟨by decide,
   (((read_number_formats_table example_library).1 (some example_numFmts_node)).2
     [⟨164, "General"⟩, ⟨164, "general"⟩, ⟨14, "yyyy"⟩, ⟨14, "dd"⟩] (by decide)).1⟩

/-- C36. Fill decoding defaults: a `patternFill` child without or with an empty
`patternType` decodes to the pattern fill of type none without colors, whatever its
children; when a `patternFill` child is present the result is a pattern fill and
depends on that child only, so it takes precedence over a `gradientFill` child; a
`gradientFill` without or with an empty `type` decodes as linear, with the stops
read; a fill element with neither child decodes to the default fill. -/
theorem read_fill_defaults {D : Type} (lib : library D) (n : node_handle) :
    ((child n "patternFill").isSome = true →
      (value (xml_attribute (child n "patternFill") "patternType")).isEmpty = true →
      read_fill lib n = some (.pattern ⟨.none, none, none⟩))
    ∧ ((child n "patternFill").isSome = true →
        (∀ f, read_fill lib n = some f → ∃ p, f = .pattern p)
        ∧ ∀ m : node_handle, child m "patternFill" = child n "patternFill" →
            read_fill lib m = read_fill lib n)
    ∧ ((child n "patternFill").isSome = false → (child n "gradientFill").isSome = true →
        (value (xml_attribute (child n "gradientFill") "type")).isEmpty = true →
        read_fill lib n = (read_stops lib (child n "gradientFill")).map (fun stops =>
            .gradient ⟨.linear, lib.zero, lib.zero, lib.zero, lib.zero, lib.zero, stops⟩)
        ∧ ∀ f, read_fill lib n = some f → ∃ g, f = .gradient g ∧ g.type = .linear)
    ∧ ((child n "patternFill").isSome = false → (child n "gradientFill").isSome = false →
        read_fill lib n = some fill.default) := by
  refine ⟨?_, ?_, ?_, ?_⟩
  · intro hp he
    simp [read_fill, hp, he, fill.of_pattern]
  · intro hp
    constructor
    · intro f hf
      unfold read_fill at hf
      rw [if_pos hp] at hf
      by_cases he : (value (xml_attribute (child n "patternFill") "patternType")).isEmpty = true
      · simp only [he, Bool.not_true, Bool.false_eq_true, if_false, Option.pure_def,
          Option.some.injEq] at hf
        exact ⟨_, hf.symm⟩
      · cases hb : (child (child n "patternFill") "bgColor").isSome <;>
          cases hfg : (child (child n "patternFill") "fgColor").isSome <;>
          simp only [he, hb, hfg, Bool.not_false, if_true, if_false, Bool.false_eq_true,
            Option.bind_eq_bind, Option.pure_def, Option.bind_eq_some, Option.some_bind,
            Option.map_eq_some', Option.some.injEq, Bool.not_eq_true] at hf <;>
          obtain ⟨t, -, hf⟩ := hf <;>
          (try obtain ⟨_, -, hf⟩ := hf) <;>
          (try obtain ⟨_, -, hf⟩ := hf) <;>
          first
          | exact ⟨_, hf.symm⟩
          | exact ⟨_, rfl⟩
    · intro m hm
      unfold read_fill
      rw [hm, if_pos hp, if_pos hp]
  · intro hp hg he
    have heq : read_fill lib n = (read_stops lib (child n "gradientFill")).map (fun stops =>
        .gradient ⟨.linear, lib.zero, lib.zero, lib.zero, lib.zero, lib.zero, stops⟩) := by
      unfold read_fill
      simp only [hp, hg, he, Bool.false_eq_true, if_false, if_true, Bool.not_true,
        Option.pure_def, Option.bind_eq_bind, Option.some_bind]
      cases read_stops lib (child n "gradientFill") <;>
        simp [fill.of_gradient, fill.add_stops]
    refine ⟨heq, ?_⟩
    intro f hf
    rw [heq, Option.map_eq_some'] at hf
    obtain ⟨stops, -, rfl⟩ := hf
    exact ⟨_, rfl, rfl⟩
  · intro hp hg
    simp [read_fill, hp, hg]

/-- C36, at concrete inputs: an untyped pattern fill with color children next to a
gradient fill, an untyped gradient fill, and an empty fill element. -/
theorem read_fill_defaults_witness :
    (child (some untyped_pattern_fill_node) "patternFill").isSome = true
    ∧ (child (some untyped_pattern_fill_node) "gradientFill").isSome = true
    ∧ (child (child (some untyped_pattern_fill_node) "patternFill") "fgColor").isSome = true
    ∧ read_fill example_library (some untyped_pattern_fill_node)
        = some (.pattern ⟨.none, none, none⟩)
    ∧ read_fill example_library (some (.mk "fill" [] [.mk "gradientFill" [] []]))
        = (read_stops example_library
            (child (some (.mk "fill" [] [.mk "gradientFill" [] []])) "gradientFill")).map
            (fun stops => .gradient ⟨.linear, "0", "0", "0", "0", "0", stops⟩)
    ∧ read_fill example_library (some (.mk "fill" [] [])) = some fill.default :=
  ⟨rfl, rfl, rfl,
   (read_fill_defaults example_library (some untyped_pattern_fill_node)).1 rfl (by decide),
   ((read_fill_defaults example_library
      (some (.mk "fill" [] [.mk "gradientFill" [] []]))).2.2.1 rfl rfl (by decide)).1,
   (read_fill_defaults example_library (some (.mk "fill" [] []))).2.2.2 rfl rfl⟩

/-- The lookup of a horizontal alignment keyword, as a case distinction on the
lower-cased string. -/
theorem horizontal_alignment_from_string_eq (s : String) :
    horizontal_alignment_from_string s =
      if string_lower s = "center" then some .center
      else if string_lower s = "center-continous" then some .center_continuous
      else if string_lower s = "general" then some .general
      else if string_lower s = "justify" then some .justify
      else if string_lower s = "left" then some .left
      else if string_lower s = "none" then some .none
      else if string_lower s = "right" then some .right
      else none := by
  simp only [horizontal_alignment_from_string, get_string_horizontal_alignment_map,
    map_at_cons_string]
  rfl

/-- C34. Horizontal alignment vocabulary: `horizontal_alignment_from_string`
succeeds exactly on the strings whose lower-cased form is center, center-continous,
general, justify, left, none or right; center_continuous is written as
"center-continous" and read exactly from the strings with that lower-cased form, so
"centerContinuous" in any letter case is rejected and `read_alignment` fails on an
alignment element that carries it. -/
theorem horizontal_alignment_vocabulary :
    (∀ s : String, (horizontal_alignment_from_string s).isSome = true ↔
      string_lower s ∈ ["center", "center-continous", "general", "justify", "left", "none",
        "right"])
    ∧ horizontal_alignment_to_string .center_continuous = some "center-continous"
    ∧ (∀ s : String, horizontal_alignment_from_string s = some .center_continuous ↔
        string_lower s = "center-continous")
    ∧ (∀ s : String, string_lower s = "centercontinuous" →
        horizontal_alignment_from_string s = none)
    ∧ string_lower "centerContinuous" = "centercontinuous"
    ∧ string_lower "CENTERCONTINUOUS" = "centercontinuous"
    ∧ horizontal_alignment_from_string "centerContinuous" = none
    ∧ (∀ (n : node_handle) (s : String), xml_attribute n "horizontal" = some s →
        string_lower s = "centercontinuous" → read_alignment n = none) := by
  have hnone : ∀ s : String, string_lower s = "centercontinuous" →
      horizontal_alignment_from_string s = none := by
    intro s hs
    rw [horizontal_alignment_from_string_eq, hs]
    decide
  refine ⟨?_, by decide, ?_, hnone, by decide, by decide, by decide, ?_⟩
  · intro s
    rw [horizontal_alignment_from_string_eq]
    simp only [List.mem_cons, List.mem_singleton, List.not_mem_nil, or_false]
    by_cases h1 : string_lower s = "center"
    · simp [h1]
    by_cases h2 : string_lower s = "center-continous"
    · simp [h2]
    by_cases h3 : string_lower s = "general"
    · simp [h3]
    by_cases h4 : string_lower s = "justify"
    · simp [h4]
    by_cases h5 : string_lower s = "left"
    · simp [h5]
    by_cases h6 : string_lower s = "none"
    · simp [h6]
    by_cases h7 : string_lower s = "right"
    · simp [h7]
    simp [h1, h2, h3, h4, h5, h6, h7]
  · intro s
    rw [horizontal_alignment_from_string_eq]
    by_cases h1 : string_lower s = "center"
    · simp [h1]
    by_cases h2 : string_lower s = "center-continous"
    · simp [h2]
    by_cases h3 : string_lower s = "general"
    · simp [h3]
    by_cases h4 : string_lower s = "justify"
    · simp [h4]
    by_cases h5 : string_lower s = "left"
    · simp [h5]
    by_cases h6 : string_lower s = "none"
    · simp [h6]
    by_cases h7 : string_lower s = "right"
    · simp [h7]
    simp [h1, h2, h3, h4, h5, h6, h7]
  · intro n s hattr hs
    cases hr : read_alignment n with
    | none => rfl
    | some a =>
      obtain ⟨-, -, -, -, h5, h6⟩ := read_alignment_eq_some n a hr
      rw [hattr, Option.some_bind, hnone s hs] at h5
      have := h6 (by rw [hattr]; rfl)
      rw [← h5] at this
      cases this

/-- C34, at concrete inputs: the keyword "centerContinuous" fails, the keyword of the
table in another letter case is read. -/
theorem horizontal_alignment_vocabulary_witness :
    xml_attribute (some (.mk "alignment" [("horizontal", "centerContinuous")] [])) "horizontal"
      = some "centerContinuous"
    ∧ read_alignment (some (.mk "alignment" [("horizontal", "centerContinuous")] [])) = none
    ∧ read_alignment (some (.mk "alignment" [("horizontal", "Center-Continous")] []))
        = some ⟨none, some .center_continuous, false, false⟩ :=
  ⟨rfl,
   horizontal_alignment_vocabulary.2.2.2.2.2.2.2
     (some (.mk "alignment" [("horizontal", "centerContinuous")] [])) "centerContinuous" rfl
     (by decide),
   by decide⟩

/-- C33. No default for numeric attributes without a fallback: the empty text is not a
number, so `read_base_format` fails on every element without `numFmtId`,
`read_formats` fails when an `xf` entry has no `xfId` or an `xfId` without entry in
the index-to-name map, and `read_style` fails on every `cellStyle` without
`builtinId`. -/
theorem missing_numeric_attribute_fails {D : Type} (lib : library D) :
    string_to_size_t "" = none
    ∧ (∀ (n : node_handle) (ss : stylesheet D) (f0 : base_format D),
        xml_attribute n "numFmtId" = none → read_base_format lib n ss f0 = none)
    ∧ (∀ (node : node_handle) (ss : stylesheet D) (formats : List (format D))
        (names : List String) (x : xml_node),
        x ∈ children_named node "xf" → xml_attribute (some x) "xfId" = none →
        read_formats lib node ss formats names = none)
    ∧ (∀ (node : node_handle) (ss : stylesheet D) (formats : List (format D))
        (names : List String) (x : xml_node),
        x ∈ children_named node "xf" →
        (string_to_size_t (value (xml_attribute (some x) "xfId"))).bind
          (map_at ss.style_name_map) = none →
        read_formats lib node ss formats names = none)
    ∧ (∀ (sn sfn : node_handle) (ss : stylesheet D),
        xml_attribute sn "builtinId" = none → read_style lib sn sfn ss = none) := by
  have hempty : string_to_size_t "" = none := by decide
  refine ⟨hempty, ?_, ?_, ?_, ?_⟩
  · intro n ss f0 h
    cases hr : read_base_format lib n ss f0 with
    | none => rfl
    | some f =>
      obtain ⟨al, bi, b, fi, fl, foi, fo, id, -, -, -, -, -, -, -, hid, -⟩ :=
        (read_base_format_eq_some lib n ss f0 f).1 hr
      rw [h] at hid
      exact absurd (hempty.symm.trans hid) (by simp)
  · intro node ss formats names x hx hid
    exact read_formats_missing_xfId lib node ss formats names x hx hid
  · intro node ss formats names x hx hid
    unfold read_formats
    apply foldlM_eq_none _ x _ _ _ hx
    intro acc
    cases hb : read_base_format lib (some x) ss format.default.tobase_format with
    | none => rfl
    | some bf =>
      simp only [Option.bind_eq_bind, Option.some_bind]
      cases hi : string_to_size_t (value (xml_attribute (some x) "xfId")) with
      | none => rfl
      | some i =>
        rw [hi, Option.some_bind] at hid
        simp [hid]
  · intro sn sfn ss h
    cases hr : read_style lib sn sfn ss with
    | none => rfl
    | some s =>
      have hb := (read_style_eq_some lib sn sfn ss s hr).2.2.2
      rw [h] at hb
      exact absurd (hempty.symm.trans hb) (by simp)

/-- C33, at concrete inputs: an `xf` element without `numFmtId`, a `cellXfs` section
whose entry has no `xfId`, and a `cellStyle` without `builtinId`. -/
theorem missing_numeric_attribute_fails_witness :
    read_base_format example_library (some (.mk "xf" [("fontId", "0")] [])) example_registry
        base_format.default = none
    ∧ read_formats example_library
        (some (.mk "cellXfs" [] [.mk "xf" [("numFmtId", "0")] []])) example_registry [] []
        = none
    ∧ read_style example_library (some (.mk "cellStyle" [("name", "A"), ("xfId", "0")] []))
        (some (.mk "xf" [("numFmtId", "0")] [])) example_registry = none :=
  ⟨(missing_numeric_attribute_fails example_library).2.1
     (some (.mk "xf" [("fontId", "0")] [])) example_registry base_format.default rfl,
   (missing_numeric_attribute_fails example_library).2.2.1
     (some (.mk "cellXfs" [] [.mk "xf" [("numFmtId", "0")] []])) example_registry [] []
     (.mk "xf" [("numFmtId", "0")] []) (List.mem_singleton.2 rfl) rfl,
   (missing_numeric_attribute_fails example_library).2.2.2.2
     (some (.mk "cellStyle" [("name", "A"), ("xfId", "0")] []))
     (some (.mk "xf" [("numFmtId", "0")] [])) example_registry rfl⟩

/-! ## Colors, references and fonts across the round trip -/

/-- Printing a number and parsing it: the number when it fits `std::size_t`, a failure
otherwise. -/
theorem string_to_size_t_to_string_eq (n : Nat) :
    string_to_size_t (to_string n) = if n < 2 ^ 64 then some n else none := by
  split
  · rename_i h; exact string_to_size_t_to_string n h
  · rename_i h
    obtain ⟨L, hL, hne, hdig, hval⟩ := toDigitsCore_spec (n + 1) n [] (Nat.lt_succ_self n)
    have hrepr : to_string n = ⟨L⟩ := by
      simp [to_string, Nat.repr, Nat.toDigits, hL, List.asString]
    obtain ⟨c, t, rfl⟩ := List.exists_cons_of_ne_nil hne
    obtain ⟨hsp, hm, hp⟩ := isDigit_not_space_sign c (hdig c (List.mem_cons_self _ _))
    have htake : (c :: t).takeWhile Char.isDigit = c :: t :=
      List.takeWhile_eq_self_iff.2 (fun x hx => hdig x hx)
    have hdrop : (c :: t).dropWhile isspace = c :: t := by
      simp [List.dropWhile, hsp]
    have hmatch : stoull_sign (c :: t) = (false, c :: t) := by
      unfold stoull_sign
      split
      · rename_i heq; cases heq; exact absurd rfl hm
      · rename_i heq; cases heq; exact absurd rfl hp
      · rfl
    unfold string_to_size_t stoull
    rw [hrepr]
    simp only [hdrop, hmatch, htake, hval]
    have : 2 ^ 64 ≤ n := by omega
    simp [this]
    omega

/-- The element `write_color` fills: one attribute more, named by the kind of the
color. -/
theorem write_color_eq {D : Type} (lib : library D) (c : color D) (node : xml_node) :
    write_color lib c node = xml_node.mk node.name
      (node.attributes ++ [match c.kind with
        | .theme index => ("theme", to_string index)
        | .indexed index => ("indexed", to_string index)
        | _ => ("rgb", c.get_rgb_hex_string lib)])
      node.child_nodes := by
  unfold write_color
  cases node
  cases c.kind <;> rfl

/-- Reading the element written for a color: the kind comes back without tint, an
automatic color as the rgb color of the hex string written for it. -/
theorem read_color_write_color {D : Type} (lib : library D) (c : color D) (nm : String) :
    read_color lib (some (write_color lib c (new_node nm)))
      = match c.kind with
        | .theme index => if index < 2 ^ 64 then some ⟨.theme index, none⟩ else none
        | .indexed index => if index < 2 ^ 64 then some ⟨.indexed index, none⟩ else none
        | .rgb h => some ⟨.rgb h, none⟩
        | .automatic => some ⟨.rgb (lib.other_hex_string c), none⟩ := by
  rw [write_color_eq]
  obtain ⟨kind, tint⟩ := c
  cases kind with
  | automatic =>
    simp [read_color, xml_attribute, attributes_mk, new_node, value, rgb_color,
      color.get_rgb_hex_string]
  | rgb h =>
    simp [read_color, xml_attribute, attributes_mk, new_node, value, rgb_color,
      color.get_rgb_hex_string]
  | indexed index =>
    simp only [read_color, xml_attribute, attributes_mk, new_node, value, List.nil_append,
      List.find?_cons, List.find?_nil]
    simp [string_to_size_t_to_string_eq, indexed_color]
    split <;> simp
  | theme index =>
    simp only [read_color, xml_attribute, attributes_mk, new_node, value, List.nil_append,
      List.find?_cons, List.find?_nil]
    simp [string_to_size_t_to_string_eq, theme_color]
    split <;> simp


/-- C31. Color encode/decode: `write_color` appends exactly one attribute, named theme,
indexed or rgb, and on a fresh element never a tint or auto attribute; for a color of
kind rgb, theme or indexed (an index being a `std::size_t`) `read_color` of the
element written for it gives the color without its tint, hence the color itself if
and only if it carries no tint. -/
theorem color_encode_decode {D : Type} (lib : library D) (c : color D) :
    (∀ node : xml_node, ∃ k v,
      write_color lib c node
        = xml_node.mk node.name (node.attributes ++ [(k, v)]) node.child_nodes
      ∧ k ∈ ["theme", "indexed", "rgb"])
    ∧ (∀ nm : String,
        xml_attribute (some (write_color lib c (new_node nm))) "tint" = none
        ∧ xml_attribute (some (write_color lib c (new_node nm))) "auto" = none
        ∧ ((xml_attribute (some (write_color lib c (new_node nm))) "theme").isSome = true
            ↔ ∃ i, c.kind = .theme i)
        ∧ ((xml_attribute (some (write_color lib c (new_node nm))) "indexed").isSome = true
            ↔ ∃ i, c.kind = .indexed i)
        ∧ ((xml_attribute (some (write_color lib c (new_node nm))) "rgb").isSome = true
            ↔ (c.kind = .automatic ∨ ∃ h, c.kind = .rgb h)))
    ∧ (∀ nm : String,
        ((∃ h, c.kind = .rgb h) ∨ (∃ i, c.kind = .theme i ∧ i < 2 ^ 64)
          ∨ (∃ i, c.kind = .indexed i ∧ i < 2 ^ 64)) →
        read_color lib (some (write_color lib c (new_node nm))) = some ⟨c.kind, none⟩
        ∧ (read_color lib (some (write_color lib c (new_node nm))) = some c
            ↔ c.tint = none)) := by
  refine ⟨?_, ?_, ?_⟩
  · intro node
    rw [write_color_eq]
    cases c.kind <;> exact ⟨_, _, rfl, by decide⟩
  · intro nm
    rw [write_color_eq]
    obtain ⟨kind, tint⟩ := c
    cases kind <;>
      simp [xml_attribute, attributes_mk, new_node]
  · intro nm hk
    have hread : read_color lib (some (write_color lib c (new_node nm)))
        = some ⟨c.kind, none⟩ := by
      rw [read_color_write_color]
      rcases hk with ⟨h, hh⟩ | ⟨i, hi, hlt⟩ | ⟨i, hi, hlt⟩
      · rw [hh]
      · rw [hi]; exact if_pos hlt
      · rw [hi]; exact if_pos hlt
    refine ⟨hread, ?_⟩
    rw [hread]
    obtain ⟨kind, tint⟩ := c
    constructor
    · intro h
      exact (congrArg color.tint (Option.some.inj h)).symm
    · intro h
      simp only at h
      rw [h]

/-- C31, at concrete inputs: a theme color without and with a tint. -/
theorem color_encode_decode_witness :
    read_color example_library
        (some (write_color example_library ⟨.theme 4, none⟩ (new_node "color")))
      = some ⟨.theme 4, none⟩
    ∧ read_color example_library
        (some (write_color example_library ⟨.theme 4, some "0.5"⟩ (new_node "color")))
      = some ⟨.theme 4, none⟩
    ∧ ¬ read_color example_library
        (some (write_color example_library ⟨.theme 4, some "0.5"⟩ (new_node "color")))
      = some ⟨.theme 4, some "0.5"⟩ :=
  ⟨((color_encode_decode example_library ⟨.theme 4, none⟩).2.2 "color"
      (Or.inr (Or.inl ⟨4, rfl, by decide⟩))).1,
   ((color_encode_decode example_library ⟨.theme 4, some "0.5"⟩).2.2 "color"
      (Or.inr (Or.inl ⟨4, rfl, by decide⟩))).1,
   fun h => absurd
     (((color_encode_decode example_library ⟨.theme 4, some "0.5"⟩).2.2 "color"
        (Or.inr (Or.inl ⟨4, rfl, by decide⟩))).2.1 h) (by decide)⟩

/-- The three reference attributes `write_base_format` writes on an element that
does not carry them yet. -/
theorem write_base_format_ids {D : Type} [DecidableEq D] (xf : base_format D)
    (ss : stylesheet D) (node : xml_node)
    (hfont : xml_attribute (some node) "fontId" = none)
    (hfill : xml_attribute (some node) "fillId" = none)
    (hborder : xml_attribute (some node) "borderId" = none) :
    ∃ r, write_base_format xf ss node = some r
      ∧ xml_attribute (some r) "fontId" = some (to_string (ss.fonts.indexOf xf.font))
      ∧ xml_attribute (some r) "fillId" = some (to_string (ss.fills.indexOf xf.fill))
      ∧ xml_attribute (some r) "borderId"
          = some (to_string (ss.borders.indexOf xf.border)) := by
  obtain ⟨al, -, -, hw⟩ := write_base_format_eq xf ss node
  cases node with
  | mk nm attrs cs =>
    simp only [name_mk, attributes_mk, List.append_assoc] at hw
    refine ⟨_, hw, ?_, ?_, ?_⟩
    · rw [xml_attribute_mk_append _ _ _ _ _ hfont]
      simp [xml_attribute, attributes_mk]
    · rw [xml_attribute_mk_append _ _ _ _ _ hfill]
      simp [xml_attribute, attributes_mk]
    · rw [xml_attribute_mk_append _ _ _ _ _ hborder]
      simp [xml_attribute, attributes_mk]

/-- An index attribute that holds the length of the registry resolves to no entry. -/
theorem read_index_dangling {α : Type} (n : node_handle) (key : String) (registry : List α)
    (h : xml_attribute n key = some (to_string registry.length)) :
    (read_index n key).bind (fun i => registry[i]?) = none := by
  simp only [read_index, h, Option.isSome_some, if_true, value, Option.getD_some,
    string_to_size_t_to_string_eq]
  split
  · simp
  · rfl

/-- C32. Dangling reference on write: if the font (the fill, the border) of a base
format is value-equal to no entry of the registry, `write_base_format` still writes
fontId (fillId, borderId), with the length of the registry as value; the registry has
no entry at that index, and `read_base_format` on the written element against the
same registry fails. -/
theorem dangling_reference_on_write {D : Type} [DecidableEq D] (lib : library D)
    (xf : base_format D) (ss : stylesheet D) (node : xml_node)
    (hfont : xml_attribute (some node) "fontId" = none)
    (hfill : xml_attribute (some node) "fillId" = none)
    (hborder : xml_attribute (some node) "borderId" = none) :
    ∃ r, write_base_format xf ss node = some r
      ∧ (xf.font ∉ ss.fonts →
          xml_attribute (some r) "fontId" = some (to_string ss.fonts.length)
          ∧ (ss.fonts.length < 2 ^ 64 → read_index (some r) "fontId" = some ss.fonts.length)
          ∧ ss.fonts[ss.fonts.length]? = none
          ∧ ∀ f0, read_base_format lib (some r) ss f0 = none)
      ∧ (xf.fill ∉ ss.fills →
          xml_attribute (some r) "fillId" = some (to_string ss.fills.length)
          ∧ (ss.fills.length < 2 ^ 64 → read_index (some r) "fillId" = some ss.fills.length)
          ∧ ss.fills[ss.fills.length]? = none
          ∧ ∀ f0, read_base_format lib (some r) ss f0 = none)
      ∧ (xf.border ∉ ss.borders →
          xml_attribute (some r) "borderId" = some (to_string ss.borders.length)
          ∧ (ss.borders.length < 2 ^ 64 → read_index (some r) "borderId" = some ss.borders.length)
          ∧ ss.borders[ss.borders.length]? = none
          ∧ ∀ f0, read_base_format lib (some r) ss f0 = none) := by
  obtain ⟨r, hw, h1, h2, h3⟩ := write_base_format_ids xf ss node hfont hfill hborder
  refine ⟨r, hw, ?_, ?_, ?_⟩
  · intro hmem
    rw [List.indexOf_eq_length.2 hmem] at h1
    refine ⟨h1, fun hlen => by
      simp [read_index, h1, value, string_to_size_t_to_string _ hlen], by simp, fun f0 => ?_⟩
    cases hr : read_base_format lib (some r) ss f0 with
    | none => rfl
    | some f =>
      obtain ⟨al, bi, b, fi, fl, foi, fo, id, -, -, -, -, -, hfoi, hfo, -, -⟩ :=
        (read_base_format_eq_some lib (some r) ss f0 f).1 hr
      have := read_index_dangling (some r) "fontId" ss.fonts h1
      rw [hfoi, Option.some_bind, hfo] at this
      cases this
  · intro hmem
    rw [List.indexOf_eq_length.2 hmem] at h2
    refine ⟨h2, fun hlen => by
      simp [read_index, h2, value, string_to_size_t_to_string _ hlen], by simp, fun f0 => ?_⟩
    cases hr : read_base_format lib (some r) ss f0 with
    | none => rfl
    | some f =>
      obtain ⟨al, bi, b, fi, fl, foi, fo, id, -, -, -, hfi, hfl, -, -, -, -⟩ :=
        (read_base_format_eq_some lib (some r) ss f0 f).1 hr
      have := read_index_dangling (some r) "fillId" ss.fills h2
      rw [hfi, Option.some_bind, hfl] at this
      cases this
  · intro hmem
    rw [List.indexOf_eq_length.2 hmem] at h3
    refine ⟨h3, fun hlen => by
      simp [read_index, h3, value, string_to_size_t_to_string _ hlen], by simp, fun f0 => ?_⟩
    cases hr : read_base_format lib (some r) ss f0 with
    | none => rfl
    | some f =>
      obtain ⟨al, bi, b, fi, fl, foi, fo, id, -, hbi, hb, -, -, -, -, -, -⟩ :=
        (read_base_format_eq_some lib (some r) ss f0 f).1 hr
      have := read_index_dangling (some r) "borderId" ss.borders h3
      rw [hbi, Option.some_bind, hb] at this
      cases this

/-- C32, at a concrete input: a format whose font is not in the font registry of the
header stylesheet. -/
theorem dangling_reference_on_write_witness :
    dangling_font_format.font ∉ (header_stylesheet : stylesheet String).fonts
    ∧ (header_stylesheet : stylesheet String).fonts.length = 1
    ∧ ∃ r, write_base_format dangling_font_format header_stylesheet (new_node "xf") = some r
        ∧ xml_attribute (some r) "fontId"
            = some (to_string (header_stylesheet : stylesheet String).fonts.length)
        ∧ read_base_format example_library (some r) header_stylesheet base_format.default
            = none :=
  ⟨by decide, rfl,
   Exists.elim
     (dangling_reference_on_write example_library dangling_font_format header_stylesheet
       (new_node "xf") rfl rfl rfl)
     (fun r h => ⟨r, h.1, (h.2.1 (by decide)).1,
       (h.2.1 (by decide)).2.2.2 base_format.default⟩)⟩

/-- The flag `read_font` sets from a `b`, `strike` or `i` child: false without the
child, true for a child without `val`, else `is_true` of the `val` text. -/
theorem read_font_flag_getD (n : node_handle) (key : String) :
    (read_font_flag n key).getD false
      = (if (child n key).isSome then
          (if (xml_attribute (child n key) "val").isSome then
            is_true (value (xml_attribute (child n key) "val"))
           else true)
         else false) := by
  unfold read_font_flag
  split
  · split <;> rfl
  · rfl

/-- The keyword written for an underline style is read as that style. -/
theorem underline_style_round_trip (x : underline_style) (u : String)
    (h : underline_style_to_string x = some u) : underline_style_from_string u = some x := by
  cases x <;> (cases h; decide)

/-- What the reader finds in the `font` element written for a font. -/
theorem read_font_written {D : Type} (lib : library D) (f : font D) :
    ∃ node, write_font lib f = some node
      ∧ (read_font_flag (some node) "b").getD false = f.bold
      ∧ (read_font_flag (some node) "i").getD false = f.italic
      ∧ (read_font_flag (some node) "strike").getD false = f.strikethrough
      ∧ (if (child (some node) "u").isSome then
            if (xml_attribute (child (some node) "u") "val").isSome then
              underline_style_from_string (value (xml_attribute (child (some node) "u") "val"))
            else some .single
          else some .none) = some f.underline
      ∧ value (xml_attribute (child (some node) "name") "val") = f.name
      ∧ string_to_size_t (value (xml_attribute (child (some node) "sz") "val"))
          = (if f.size < 2 ^ 64 then some f.size else none)
      ∧ (if (child (some node) "scheme").isSome then
            some (value (xml_attribute (child (some node) "scheme") "val"))
          else none) = f.scheme
      ∧ (if (child (some node) "family").isSome then
            (string_to_size_t (value (xml_attribute (child (some node) "family") "val"))).map
              some
          else some none)
          = (match f.family with
             | some fam => if fam < 2 ^ 64 then some (some fam) else none
             | none => some none)
      ∧ (child (some node) "color").isSome = true
      ∧ child (some node) "color" = some (write_color lib f.color (new_node "color")) := by
  obtain ⟨node, u, hw, hu, -, hsz, hname, hb, hi, hst, huc, hfam, hsch, hcol⟩ :=
    write_font_children lib f
  refine ⟨node, hw, ?_, ?_, ?_, ?_, ?_, ?_, ?_, ?_, ?_, ?_⟩
  · rw [read_font_flag_getD, child_eq_head?_children_named, hb]
    cases f.bold <;> rfl
  · rw [read_font_flag_getD, child_eq_head?_children_named, hi]
    cases f.italic <;> rfl
  · rw [read_font_flag_getD, child_eq_head?_children_named, hst]
    cases f.strikethrough <;> rfl
  · rw [child_eq_head?_children_named, huc]
    cases hund : f.is_underline
    · have : f.underline = .none := by
        simpa [font.is_underline] using hund
      rw [this]; rfl
    · simp only [if_true, List.head?_cons, Option.isSome_some]
      have : xml_attribute (some (xml_node.mk "u" [("val", u)] [])) "val" = some u := rfl
      rw [this]
      exact underline_style_round_trip _ _ hu
  · rw [child_eq_head?_children_named, hname]; rfl
  · rw [child_eq_head?_children_named, hsz]
    exact string_to_size_t_to_string_eq f.size
  · rw [child_eq_head?_children_named, hsch]
    cases f.scheme <;> rfl
  · rw [child_eq_head?_children_named, hfam]
    cases f.family with
    | none => rfl
    | some fam =>
      simp only [List.head?_cons, Option.isSome_some, if_true]
      have : value (xml_attribute (some (xml_node.mk "family" [("val", to_string fam)] []))
          "val") = to_string fam := rfl
      rw [this, string_to_size_t_to_string_eq]
      split <;> rfl
  · rw [child_eq_head?_children_named, hcol]; rfl
  · rw [child_eq_head?_children_named, hcol]; rfl

/-- C35. Font flag elements: `read_font` sets bold, italic and strikethrough to false
when the child `b`, `i` or `strike` is absent, to true when it is present without
`val`, and to `is_true` of `val` otherwise; a `u` child without `val` decodes to the
single underline style, with `val` through `underline_style_from_string`, and no `u`
child leaves no underline. Every font is written, `read_font` restores bold, italic,
strikethrough and underline (and name, size, family and scheme) of the element written
for it, also inside `write_fonts`, and it succeeds on that element when the numbers
of the font fit `std::size_t`. -/
theorem font_flag_elements {D : Type} (lib : library D) :
    (∀ (n : node_handle) (g : font D), read_font lib n = some g →
      g.bold = (if (child n "b").isSome then
          (if (xml_attribute (child n "b") "val").isSome then
            is_true (value (xml_attribute (child n "b") "val"))
           else true)
         else false)
      ∧ g.italic = (if (child n "i").isSome then
          (if (xml_attribute (child n "i") "val").isSome then
            is_true (value (xml_attribute (child n "i") "val"))
           else true)
         else false)
      ∧ g.strikethrough = (if (child n "strike").isSome then
          (if (xml_attribute (child n "strike") "val").isSome then
            is_true (value (xml_attribute (child n "strike") "val"))
           else true)
         else false)
      ∧ (if (child n "u").isSome then
            if (xml_attribute (child n "u") "val").isSome then
              underline_style_from_string (value (xml_attribute (child n "u") "val"))
            else some .single
          else some .none) = some g.underline)
    ∧ (∀ f : font D, ∃ node, write_font lib f = some node
        ∧ (∀ g, read_font lib (some node) = some g →
            g.bold = f.bold ∧ g.italic = f.italic ∧ g.strikethrough = f.strikethrough
            ∧ g.underline = f.underline ∧ g.name = f.name ∧ g.size = f.size
            ∧ g.family = f.family ∧ g.scheme = f.scheme)
        ∧ (f.size < 2 ^ 64 → (∀ fam, f.family = some fam → fam < 2 ^ 64) →
            (∀ i, f.color.kind = .theme i ∨ f.color.kind = .indexed i → i < 2 ^ 64) →
            (read_font lib (some node)).isSome = true))
    ∧ (∀ (fonts : List (font D)) (node : xml_node), ∃ cs,
        write_fonts lib fonts node = some (xml_node.mk node.name
          (node.attributes ++ [("count", to_string fonts.length)]) (node.child_nodes ++ cs))
        ∧ ∀ (i : Nat) (f : font D), fonts[i]? = some f →
            ∃ c, cs[i]? = some c ∧ write_font lib f = some c
              ∧ ∀ g, read_font lib (some c) = some g →
                  g.bold = f.bold ∧ g.italic = f.italic ∧ g.strikethrough = f.strikethrough
                  ∧ g.underline = f.underline) := by
  have hround : ∀ f : font D, ∃ node, write_font lib f = some node
      ∧ (∀ g, read_font lib (some node) = some g →
          g.bold = f.bold ∧ g.italic = f.italic ∧ g.strikethrough = f.strikethrough
          ∧ g.underline = f.underline ∧ g.name = f.name ∧ g.size = f.size
          ∧ g.family = f.family ∧ g.scheme = f.scheme)
      ∧ (f.size < 2 ^ 64 → (∀ fam, f.family = some fam → fam < 2 ^ 64) →
          (∀ i, f.color.kind = .theme i ∨ f.color.kind = .indexed i → i < 2 ^ 64) →
          (read_font lib (some node)).isSome = true) := by
    intro f
    obtain ⟨node, hw, hb, hi, hst, hu, hname, hsz, hsch, hfam, hcs, hcol⟩ :=
      read_font_written lib f
    refine ⟨node, hw, ?_, ?_⟩
    · intro g hg
      obtain ⟨size, c, fam, u, hsize, -, hfam', hu', rfl⟩ :=
        (read_font_eq_some lib (some node) g).1 hg
      rw [hu] at hu'
      rw [hsz] at hsize
      rw [hfam] at hfam'
      refine ⟨hb, hi, hst, (Option.some.inj hu').symm, hname, ?_, ?_, hsch⟩
      · show size = f.size
        split at hsize
        · exact (Option.some.inj hsize).symm
        · cases hsize
      · show fam = f.family
        cases hf : f.family with
        | none => rw [hf] at hfam'; exact (Option.some.inj hfam').symm
        | some x =>
          rw [hf] at hfam'
          simp only at hfam'
          split at hfam'
          · exact (Option.some.inj hfam').symm
          · cases hfam'
    · intro hsize hfamily hcolor
      have hc : (read_color lib (some (write_color lib f.color (new_node "color")))).isSome
          = true := by
        rw [read_color_write_color]
        cases hk : f.color.kind with
        | automatic => rfl
        | rgb h => rfl
        | indexed i => simp only []; rw [if_pos (hcolor i (Or.inr hk))]; rfl
        | theme i => simp only []; rw [if_pos (hcolor i (Or.inl hk))]; rfl
      obtain ⟨c, hc⟩ := Option.isSome_iff_exists.1 hc
      apply Option.isSome_iff_exists.2
      refine ⟨_, (read_font_eq_some lib (some node) _).2
        ⟨f.size, c, f.family, f.underline, ?_, ?_, ?_, hu, rfl⟩⟩
      · rw [hsz, if_pos hsize]
      · rw [hcs, if_pos rfl, hcol, hc]
      · rw [hfam]
        cases hf : f.family with
        | none => rfl
        | some x => simp only []; rw [if_pos (hfamily x hf)]
  refine ⟨?_, hround, ?_⟩
  · intro n g hg
    obtain ⟨size, c, fam, u, -, -, -, hu, rfl⟩ := (read_font_eq_some lib n g).1 hg
    exact ⟨read_font_flag_getD n "b", read_font_flag_getD n "i",
      read_font_flag_getD n "strike", hu⟩
  · intro fonts node
    obtain ⟨cs, hcs⟩ := Option.isSome_iff_exists.1
      (read_each_isSome (write_font lib) fonts (fun f _ => write_font_isSome lib f))
    have hall := read_each_eq_some _ _ _ hcs
    refine ⟨cs, by rw [write_fonts_eq, hcs]; rfl, ?_⟩
    intro i f hf
    obtain ⟨c, hc, hw⟩ := (forall₂_getElem? hall).2 i f hf
    obtain ⟨node', hw', hflags, -⟩ := hround f
    have hcc : node' = c := Option.some.inj (hw'.symm.trans hw)
    subst hcc
    refine ⟨node', hc, hw, fun g hg => ?_⟩
    obtain ⟨h1, h2, h3, h4, -⟩ := hflags g hg
    exact ⟨h1, h2, h3, h4⟩

/-- C35, at a concrete input: a font with every flag set and a double underline. -/
theorem font_flag_elements_witness :
    ∃ node, write_font example_library flagged_font = some node
      ∧ (read_font example_library (some node)).isSome = true
      ∧ ∀ g, read_font example_library (some node) = some g →
          g.bold = true ∧ g.italic = true ∧ g.strikethrough = true
          ∧ g.underline = .double_ :=
  Exists.elim ((font_flag_elements example_library).2.1 flagged_font)
    (fun node h => ⟨node, h.1,
      h.2.2 (by decide) (fun _ hf => nomatch hf)
        (fun _ hk => hk.elim (fun hk => nomatch hk) (fun hk => nomatch hk)),
      fun g hg => ⟨(h.2.1 g hg).1, (h.2.1 g hg).2.1, (h.2.1 g hg).2.2.1,
        (h.2.1 g hg).2.2.2.1⟩⟩)

end xlnt
